import Mathlib

/-!
# ComputeDomain controller and kubelet-plugin device state

A shallow embedding of

* `cmd/compute-domain-controller/computedomain.go` (namespace `Controller`),
* `cmd/compute-domain-kubelet-plugin/device_state.go`, `cdi.go`, `cdi_mock.go`
  (namespace `Plugin`),

followed by theorems about the embedded functions.

Go methods that talk to collaborators are embedded as state transformers `Act`:
a method body maps the state before the call to its return value (or error) and
the state after it.  Side effects already performed stay in the state when a
later statement fails, exactly as in Go.
-/

set_option autoImplicit false

/-! ## Go errors and effectful method bodies -/

/-- A Go failure.  `err permanent msg` is an `error` value; `permanent` tells whether a
`permanentError` marker is found in its `%w` chain.  `panic` is a run-time panic. -/
inductive GoError where
  | err (permanent : Bool) (msg : String)
  | panic (msg : String)
  deriving DecidableEq, Repr

namespace GoError

/-- The value of `fmt.Errorf("...")` without a wrapped cause. -/
def new (msg : String) : GoError := .err false msg

/-- The value of `fmt.Errorf("msg: %w", e)`: the chain of `e` is kept, so is its marker. -/
def wrapW (msg : String) : GoError → GoError
  | .err p m => .err p (msg ++ ": " ++ m)
  | .panic m => .panic m

/-- The value of `fmt.Errorf("msg: %v", e)`: only the text of `e` is kept, its chain is lost. -/
def wrapV (msg : String) : GoError → GoError
  | .err _ m => .err false (msg ++ ": " ++ m)
  | .panic m => .panic m

/-- The value of `permanentError{e}`. -/
def permanentError : GoError → GoError
  | .err _ m => .err true m
  | .panic m => .panic m

/-- Whether the failure is an `error` value carrying the permanent marker. -/
def isPermanent : GoError → Bool
  | .err p _ => p
  | .panic _ => false

/-- Whether the failure is a run-time panic. -/
def isPanic : GoError → Bool
  | .err _ _ => false
  | .panic _ => true

end GoError

deriving instance DecidableEq for Except

/-- A Go method body over a mutable state `σ`: the returned value or failure, and the state
reached.  The state reached is kept on failure. -/
def Act (σ α : Type) : Type := σ → Except GoError α × σ

namespace Act

variable {σ α β : Type}

/-- Return a value, state untouched. -/
def ret (a : α) : Act σ α := fun s => (.ok a, s)

/-- Run `x`, then `f` on its value; a failure of `x` ends the body. -/
def andThen (x : Act σ α) (f : α → Act σ β) : Act σ β := fun s =>
  match x s with
  | (.ok a, s1) => f a s1
  | (.error e, s1) => (.error e, s1)

instance : Monad (Act σ) where
  pure := ret
  bind := andThen

/-- Leave the body with `return ..., e`. -/
def fail (e : GoError) : Act σ α := fun s => (.error e, s)

/-- A collaborator answer that does not touch the state. -/
def ofExcept (r : Except GoError α) : Act σ α := fun s => (r, s)

/-- An `error`-only collaborator answer (`nil` is `none`). -/
def ofErr (r : Option GoError) : Act σ Unit := fun s =>
  match r with
  | none => (.ok (), s)
  | some e => (.error e, s)

/-- Read the state. -/
def get : Act σ σ := fun s => (.ok s, s)

/-- Update the state. -/
def modify (f : σ → σ) : Act σ Unit := fun s => (.ok (), f s)

/-- The pattern `if err != nil { return f(err) }` around `x`. -/
def mapErr (f : GoError → GoError) (x : Act σ α) : Act σ α := fun s =>
  match x s with
  | (.ok a, s1) => (.ok a, s1)
  | (.error e, s1) => (.error (f e), s1)

end Act

/-! ## The controller: `computedomain.go` -/

namespace Controller

/-- The constant `computeDomainFinalizer` (equal to `computeDomainLabelKey`). -/
def computeDomainFinalizer : String := "resource.nvidia.com/computeDomain"

/-- The fields of `nvapi.ComputeDomain` the controller reads or writes. -/
structure ComputeDomain where
  Namespace : String
  Name : String
  UID : String
  Finalizers : List String
  DeletionTimestamp : Option Nat
  /-- The field `Spec.Channel.ResourceClaimTemplate.Name`. -/
  ResourceClaimTemplateName : String
  deriving DecidableEq, Repr

/-- A value of type `any` as handed over by the informer: a `*nvapi.ComputeDomain` or
something else. -/
inductive Obj where
  | computeDomain (cd : ComputeDomain)
  | other (kind : String)
  deriving DecidableEq, Repr

/-- Method invocations made by the reconciler, with their arguments. -/
inductive Call where
  | rctDelete (uid : String)
  | dsDelete (uid : String)
  | nodeRemoveComputeDomainLabels (uid : String)
  | rctRemoveFinalizer (uid : String)
  | rctAssertRemoved (uid : String)
  | dsRemoveFinalizer (uid : String)
  | dsAssertRemoved (uid : String)
  | cdRemoveFinalizer (uid : String)
  | cdAddFinalizer (cd : ComputeDomain)
  | nodeRemoveStaleComputeDomainLabelsAsync
  | dsCreate (ns : String) (cd : ComputeDomain)
  | rctCreate (ns : String) (name : String) (cd : ComputeDomain)
  deriving DecidableEq, Repr

/-- What the reconciler has done so far: the method invocations, in order, and the
`ComputeDomains(ns).Update` requests submitted to the API server, in order. -/
structure State where
  calls : List Call
  updates : List (String × ComputeDomain)
  deriving DecidableEq, Repr

/-- The struct `ComputeDomainManager` with its collaborators: the informer index, the API
client and the three dependent-resource managers.  Within one `onAddOrUpdate` every
collaborator method is called at most once, so each answer is a function of the arguments. -/
structure ComputeDomainManager where
  /-- The field `config.driverNamespace`. -/
  driverNamespace : String
  /-- The call `informer.GetIndexer().ByIndex("uid", uid)`. -/
  byIndex : String → Except GoError (List Obj)
  /-- The call `clientsets.Nvidia.ResourceV1beta1().ComputeDomains(ns).Update`. -/
  update : String → ComputeDomain → Option GoError
  rctDelete : String → Option GoError
  rctRemoveFinalizer : String → Option GoError
  rctAssertRemoved : String → Option GoError
  rctCreate : String → String → ComputeDomain → Option GoError
  dsDelete : String → Option GoError
  dsRemoveFinalizer : String → Option GoError
  dsAssertRemoved : String → Option GoError
  dsCreate : String → ComputeDomain → Option GoError
  nodeRemoveComputeDomainLabels : String → Option GoError

/-- Record a method invocation, then run it. -/
def invoke {α : Type} (c : Call) (body : Act State α) : Act State α := do
  Act.modify fun s => { s with calls := s.calls ++ [c] }
  body

/-- Submit `Update(ctx, newCD, ...)` in namespace `ns`. -/
def submitUpdate (m : ComputeDomainManager) (ns : String) (newCD : ComputeDomain) :
    Act State Unit := do
  Act.modify fun s => { s with updates := s.updates ++ [(ns, newCD)] }
  Act.ofErr (m.update ns newCD)

/-- The method `ComputeDomainManager.Get`: `none` is the Go result `(nil, nil)`. -/
def ComputeDomainManager.Get (m : ComputeDomainManager) (uid : String) :
    Except GoError (Option ComputeDomain) :=
  match m.byIndex uid with
  | .error e => .error (e.wrapW "error retrieving ComputeDomain by UID")
  | .ok cds =>
    if cds.length = 0 then .ok none
    else if cds.length ≠ 1 then .error (.new "multiple ComputeDomains with the same UID")
    else
      match cds.head? with
      | some (.computeDomain cd) => .ok (some cd)
      | _ => .error (.new "failed to cast to ComputeDomain")

/-- The method `ComputeDomainManager.RemoveFinalizer`. -/
def ComputeDomainManager.RemoveFinalizer (m : ComputeDomainManager) (uid : String) :
    Act State Unit := do
  let cd? ← Act.mapErr (GoError.wrapW "error retrieving ComputeDomain") (Act.ofExcept (m.Get uid))
  match cd? with
  | none => pure ()
  | some cd =>
    if cd.DeletionTimestamp.isNone then
      Act.fail (.new "attempting to remove finalizer before ComputeDomain marked for deletion")
    else
      let newFinalizers := cd.Finalizers.filter (fun f => f ≠ computeDomainFinalizer)
      let newCD := { cd with Finalizers := newFinalizers }
      if cd.Finalizers.length = newCD.Finalizers.length then pure ()
      else
        Act.mapErr (GoError.wrapW "error updating ComputeDomain")
          (submitUpdate m cd.Namespace newCD)

/-- The method `ComputeDomainManager.addFinalizer`. -/
def ComputeDomainManager.addFinalizer (m : ComputeDomainManager) (cd : ComputeDomain) :
    Act State Unit :=
  if cd.Finalizers.any (fun f => f == computeDomainFinalizer) then pure ()
  else
    let newCD := { cd with Finalizers := cd.Finalizers ++ [computeDomainFinalizer] }
    Act.mapErr (GoError.wrapW "error updating ComputeDomain") (submitUpdate m cd.Namespace newCD)

/-- The method `ComputeDomainManager.onAddOrUpdate`. -/
def ComputeDomainManager.onAddOrUpdate (m : ComputeDomainManager) (obj : Obj) : Act State Unit :=
  match obj with
  | .other _ => Act.fail (.new "failed to cast to ComputeDomain")
  | .computeDomain cd =>
    if cd.DeletionTimestamp.isSome then do
      Act.mapErr (GoError.wrapW "error deleting ResourceClaimTemplate")
        (invoke (.rctDelete cd.UID) (Act.ofErr (m.rctDelete cd.UID)))
      Act.mapErr (GoError.wrapW "error deleting DaemonSet")
        (invoke (.dsDelete cd.UID) (Act.ofErr (m.dsDelete cd.UID)))
      Act.mapErr (GoError.wrapW "error removing ComputeDomain node labels")
        (invoke (.nodeRemoveComputeDomainLabels cd.UID)
          (Act.ofErr (m.nodeRemoveComputeDomainLabels cd.UID)))
      Act.mapErr (GoError.wrapW "error removing finalizer on ResourceClaimTemplate")
        (invoke (.rctRemoveFinalizer cd.UID) (Act.ofErr (m.rctRemoveFinalizer cd.UID)))
      Act.mapErr (GoError.wrapW "error asserting removal of ResourceClaimTemplate")
        (invoke (.rctAssertRemoved cd.UID) (Act.ofErr (m.rctAssertRemoved cd.UID)))
      Act.mapErr (GoError.wrapW "error removing finalizer on DaemonSet")
        (invoke (.dsRemoveFinalizer cd.UID) (Act.ofErr (m.dsRemoveFinalizer cd.UID)))
      Act.mapErr (GoError.wrapW "error asserting removal of DaemonSet")
        (invoke (.dsAssertRemoved cd.UID) (Act.ofErr (m.dsAssertRemoved cd.UID)))
      Act.mapErr (GoError.wrapW "error removing finalizer")
        (invoke (.cdRemoveFinalizer cd.UID) (m.RemoveFinalizer cd.UID))
      pure ()
    else do
      Act.mapErr (GoError.wrapW "error adding finalizer")
        (invoke (.cdAddFinalizer cd) (m.addFinalizer cd))
      invoke .nodeRemoveStaleComputeDomainLabelsAsync (pure ())
      Act.mapErr (GoError.wrapW "error creating DaemonSet")
        (invoke (.dsCreate m.driverNamespace cd) (Act.ofErr (m.dsCreate m.driverNamespace cd)))
      Act.mapErr (GoError.wrapW "error creating ResourceClaimTemplate")
        (invoke (.rctCreate cd.Namespace cd.ResourceClaimTemplateName cd)
          (Act.ofErr (m.rctCreate cd.Namespace cd.ResourceClaimTemplateName cd)))
      pure ()

/-- The eight teardown invocations of `onAddOrUpdate` for a domain marked for deletion, in
source order (lines 235 to 263). -/
def teardownSteps (uid : String) : List Call :=
  [.rctDelete uid, .dsDelete uid, .nodeRemoveComputeDomainLabels uid, .rctRemoveFinalizer uid,
   .rctAssertRemoved uid, .dsRemoveFinalizer uid, .dsAssertRemoved uid, .cdRemoveFinalizer uid]

/-- What the `k`-th teardown invocation (counted from 0) returns in a reconciliation that
starts in state `s`: `none` for `nil`.  The first seven are collaborator calls; the eighth is
the manager's own `RemoveFinalizer`, entered once all eight invocations are on record. -/
def teardownOutcome (m : ComputeDomainManager) (uid : String) (s : State) (k : Nat) :
    Option GoError :=
  match k with
  | 0 => m.rctDelete uid
  | 1 => m.dsDelete uid
  | 2 => m.nodeRemoveComputeDomainLabels uid
  | 3 => m.rctRemoveFinalizer uid
  | 4 => m.rctAssertRemoved uid
  | 5 => m.dsRemoveFinalizer uid
  | 6 => m.dsAssertRemoved uid
  | 7 =>
    match (m.RemoveFinalizer uid { s with calls := s.calls ++ teardownSteps uid }).1 with
    | .ok _ => none
    | .error e => some e
  | _ => none

/-- A manager whose collaborators always succeed and whose cache holds exactly `cds`. -/
def Example.manager (cds : List Obj) : ComputeDomainManager where
  driverNamespace := "nvidia"
  byIndex := fun _ => .ok cds
  update := fun _ _ => none
  rctDelete := fun _ => none
  rctRemoveFinalizer := fun _ => none
  rctAssertRemoved := fun _ => none
  rctCreate := fun _ _ _ => none
  dsDelete := fun _ => none
  dsRemoveFinalizer := fun _ => none
  dsAssertRemoved := fun _ => none
  dsCreate := fun _ _ => none
  nodeRemoveComputeDomainLabels := fun _ => none

/-- A domain marked for deletion that still holds the driver's finalizer. -/
def Example.deleting : ComputeDomain where
  Namespace := "ns"
  Name := "cd"
  UID := "uid-1"
  Finalizers := ["other", computeDomainFinalizer]
  DeletionTimestamp := some 1
  ResourceClaimTemplateName := "cd-channel"

/-- The manager of a reconciliation in which the claim template is still there when its
removal is asserted. -/
def Example.stuckManager : ComputeDomainManager :=
  { Example.manager [.computeDomain Example.deleting] with
    rctAssertRemoved := fun _ => some (.new "still present") }

/-- A reconciler that has done nothing yet. -/
def Example.idle : State := ⟨[], []⟩

/-- The four invocations of `onAddOrUpdate` for a domain not marked for deletion, in source
order (lines 270 to 281). -/
def setupSteps (m : ComputeDomainManager) (cd : ComputeDomain) : List Call :=
  [.cdAddFinalizer cd, .nodeRemoveStaleComputeDomainLabelsAsync,
   .dsCreate m.driverNamespace cd, .rctCreate cd.Namespace cd.ResourceClaimTemplateName cd]

/-- The invocation is a `Delete`, a `RemoveFinalizer`, an `AssertRemoved` or the removal of
the domain's node labels. -/
def Call.isTeardown : Call → Bool
  | .rctDelete _ => true
  | .dsDelete _ => true
  | .nodeRemoveComputeDomainLabels _ => true
  | .rctRemoveFinalizer _ => true
  | .rctAssertRemoved _ => true
  | .dsRemoveFinalizer _ => true
  | .dsAssertRemoved _ => true
  | .cdRemoveFinalizer _ => true
  | _ => false

/-- A domain that is not marked for deletion and does not hold the driver's finalizer yet. -/
def Example.fresh : ComputeDomain where
  Namespace := "ns"
  Name := "cd"
  UID := "uid-2"
  Finalizers := ["other"]
  DeletionTimestamp := none
  ResourceClaimTemplateName := "cd-channel"

/-- A domain that is not marked for deletion and holds the driver's finalizer. -/
def Example.active : ComputeDomain where
  Namespace := "ns"
  Name := "cd"
  UID := "uid-3"
  Finalizers := ["other", computeDomainFinalizer]
  DeletionTimestamp := none
  ResourceClaimTemplateName := "cd-channel"

end Controller

/-! ## The kubelet plugin: `device_state.go`, `cdi.go`, `cdi_mock.go` -/

namespace Plugin

/-! ### Kubernetes API types (`resourceapi`, `kubeletplugin`) -/

/-- The constant `resourceapi.AllocationConfigSourceClass`. -/
def AllocationConfigSourceClass : String := "FromClass"

/-- The constant `resourceapi.AllocationConfigSourceClaim`. -/
def AllocationConfigSourceClaim : String := "FromClaim"

/-- The struct `resourceapi.DeviceRequestAllocationResult`. -/
structure DeviceRequestAllocationResult where
  Request : String
  Driver : String
  Pool : String
  Device : String
  deriving DecidableEq, Repr

/-- The struct `resourceapi.OpaqueDeviceConfiguration`; `Parameters` is `Parameters.Raw`. -/
structure OpaqueDeviceConfiguration where
  Driver : String
  Parameters : String
  deriving DecidableEq, Repr

/-- The struct `resourceapi.DeviceAllocationConfiguration`. -/
structure DeviceAllocationConfiguration where
  Source : String
  Requests : List String
  Opaque : Option OpaqueDeviceConfiguration
  deriving DecidableEq, Repr

/-- The struct `resourceapi.DeviceAllocationResult`. -/
structure DeviceAllocationResult where
  Results : List DeviceRequestAllocationResult
  Config : List DeviceAllocationConfiguration
  deriving DecidableEq, Repr

/-- The struct `resourceapi.AllocationResult`. -/
structure AllocationResult where
  Devices : DeviceAllocationResult
  deriving DecidableEq, Repr

/-- The struct `resourceapi.ResourceClaimStatus`; `Allocation` is a pointer. -/
structure ResourceClaimStatus where
  Allocation : Option AllocationResult
  ReservedFor : List String
  deriving DecidableEq, Repr

/-- The struct `resourceapi.ResourceClaim`. -/
structure ResourceClaim where
  Namespace : String
  Name : String
  UID : String
  Status : ResourceClaimStatus
  deriving DecidableEq, Repr

/-- The struct `kubeletplugin.NamespacedObject`. -/
structure NamespacedObject where
  Namespace : String
  Name : String
  UID : String
  deriving DecidableEq, Repr

/-- The struct `kubeletplugin.Device`. -/
structure Device where
  Requests : List String
  PoolName : String
  DeviceName : String
  CDIDeviceIDs : List String
  deriving DecidableEq, Repr

/-! ### Driver types -/

/-- The values of `Type()`: `ComputeDomainChannelType`, `ComputeDomainDaemonType`, and any
other string. -/
inductive DeviceType where
  | channel
  | daemon
  | unknown
  deriving DecidableEq, Repr

/-- The constant `ComputeDomainChannelType`. -/
def ComputeDomainChannelType : DeviceType := .channel

/-- The constant `ComputeDomainDaemonType`. -/
def ComputeDomainDaemonType : DeviceType := .daemon

/-- The struct `ComputeDomainChannelInfo`. -/
structure ComputeDomainChannelInfo where
  ID : Nat
  deriving DecidableEq, Repr

/-- The struct `ComputeDomainDaemonInfo`. -/
structure ComputeDomainDaemonInfo where
  ID : Nat
  deriving DecidableEq, Repr

/-- The struct `AllocatableDevice`, with the two pointer fields `device_state.go`
dereferences. -/
structure AllocatableDevice where
  Channel : Option ComputeDomainChannelInfo
  Daemon : Option ComputeDomainDaemonInfo
  deriving DecidableEq, Repr

/-- Modelled from the spec: the method `AllocatableDevice.Type` is declared outside the
embedded files.  The spec makes the device a tagged union of `Channel` and `Daemon`; the tag
is read off the pointer that is set. -/
def AllocatableDevice.Type_ (d : AllocatableDevice) : DeviceType :=
  if d.Channel.isSome then ComputeDomainChannelType
  else if d.Daemon.isSome then ComputeDomainDaemonType
  else .unknown

/-- The type `cdiapi.ContainerEdits`, as the list of its edit entries. -/
abbrev ContainerEdits := List String

/-- The method `(*cdiapi.ContainerEdits).Append`: a nil receiver is replaced by an empty
value, a nil argument adds nothing, and the receiver is returned. -/
def ContainerEdits.Append (e : Option ContainerEdits) (o : Option ContainerEdits) :
    Option ContainerEdits :=
  some (e.getD [] ++ o.getD [])

/-- The struct `DeviceConfigState`. -/
structure DeviceConfigState where
  Type_ : DeviceType
  ComputeDomain : String
  containerEdits : Option ContainerEdits
  deriving DecidableEq, Repr

/-- The struct `PreparedComputeDomainChannel`. -/
structure PreparedComputeDomainChannel where
  Info : Option ComputeDomainChannelInfo
  Device : Device
  deriving DecidableEq, Repr

/-- The struct `PreparedComputeDomainDaemon`. -/
structure PreparedComputeDomainDaemon where
  Info : Option ComputeDomainDaemonInfo
  Device : Device
  deriving DecidableEq, Repr

/-- The struct `PreparedDevice`. -/
structure PreparedDevice where
  Channel : Option PreparedComputeDomainChannel
  Daemon : Option PreparedComputeDomainDaemon
  deriving DecidableEq, Repr

/-- The struct `PreparedDeviceGroup`. -/
structure PreparedDeviceGroup where
  Devices : List PreparedDevice
  ConfigState : DeviceConfigState
  deriving DecidableEq, Repr

/-- The type `PreparedDevices`. -/
abbrev PreparedDevices := List PreparedDeviceGroup

/-- Modelled from the spec: `PreparedDevice.GetDevice` is declared outside the embedded
files.  A prepared device carries one kubelet-facing device descriptor, of the channel or
the daemon variant. -/
def PreparedDevice.GetDevice (d : PreparedDevice) : Option Device :=
  match d.Channel, d.Daemon with
  | some c, _ => some c.Device
  | none, some dm => some dm.Device
  | none, none => none

/-- Modelled from the spec: `PreparedDevices.GetDevices` is declared outside the embedded
files.  It flattens the groups, in order, into the kubelet-facing device descriptors of their
devices. -/
def PreparedDevices.GetDevices (ds : PreparedDevices) : List Device :=
  ds.flatMap fun g => g.Devices.filterMap PreparedDevice.GetDevice

/-- The struct `PreparedClaim`. -/
structure PreparedClaim where
  Status : ResourceClaimStatus
  PreparedDevices : PreparedDevices
  deriving DecidableEq, Repr

/-- The map `checkpoint.V1.PreparedClaims`, claim UID to prepared claim; keys are unique. -/
abbrev Checkpoint := List (String × PreparedClaim)

/-- The constructor `newCheckpoint`. -/
def newCheckpoint : Checkpoint := []

/-- Map index `m[uid]` with the comma-ok form. -/
def Checkpoint.get? (cp : Checkpoint) (uid : String) : Option PreparedClaim :=
  cp.lookup uid

/-- Map assignment `m[uid] = pc`. -/
def Checkpoint.set : Checkpoint → String → PreparedClaim → Checkpoint
  | [], uid, pc => [(uid, pc)]
  | (k, v) :: rest, uid, pc =>
    if k = uid then (k, pc) :: rest else (k, v) :: Checkpoint.set rest uid pc

/-- Map removal `delete(m, uid)`. -/
def Checkpoint.delete (cp : Checkpoint) (uid : String) : Checkpoint :=
  cp.filter fun kv => kv.1 ≠ uid

/-- The struct `configapi.ComputeDomainChannelConfig`. -/
structure ComputeDomainChannelConfig where
  DomainID : String
  deriving DecidableEq, Repr

/-- The struct `configapi.ComputeDomainDaemonConfig`. -/
structure ComputeDomainDaemonConfig where
  DomainID : String
  deriving DecidableEq, Repr

/-- A decoded `runtime.Object`: one of the two config types of this driver, or another
type. -/
inductive RuntimeObject where
  | channelConfig (c : ComputeDomainChannelConfig)
  | daemonConfig (c : ComputeDomainDaemonConfig)
  | other (kind : String)
  deriving DecidableEq, Repr

/-- The type assertion `c.Config.(*configapi.ComputeDomainChannelConfig)`. -/
def RuntimeObject.isChannelConfig : RuntimeObject → Bool
  | .channelConfig _ => true
  | _ => false

/-- The type assertion `c.Config.(*configapi.ComputeDomainDaemonConfig)`. -/
def RuntimeObject.isDaemonConfig : RuntimeObject → Bool
  | .daemonConfig _ => true
  | _ => false

/-- The interface `configapi.Interface`, implemented by the two config types. -/
inductive Interface where
  | channel (c : ComputeDomainChannelConfig)
  | daemon (c : ComputeDomainDaemonConfig)
  deriving DecidableEq, Repr

/-- The struct `OpaqueDeviceConfig`. -/
structure OpaqueDeviceConfig where
  Requests : List String
  Config : RuntimeObject
  deriving DecidableEq, Repr

/-- The map `map[runtime.Object][]*DeviceRequestAllocationResult`.  Its keys are pointers:
every entry of the config list is a freshly allocated object, so a key is identified by the
position of its config in that list, and the entry keeps the object itself.  Entries are
listed in order of first insertion. -/
abbrev ConfigResultsMap := List (Nat × RuntimeObject × List DeviceRequestAllocationResult)

/-- The statement `m[key] = append(m[key], &result)`. -/
def ConfigResultsMap.append : ConfigResultsMap → Nat → RuntimeObject →
    DeviceRequestAllocationResult → ConfigResultsMap
  | [], i, c, r => [(i, c, [r])]
  | (j, cj, rs) :: rest, i, c, r =>
    if j = i then (j, cj, rs ++ [r]) :: rest
    else (j, cj, rs) :: ConfigResultsMap.append rest i c r

/-- The order in which one `for ... range` loop visits a map: Go leaves it unspecified, so
it is any rearrangement of the entries. -/
structure MapOrder where
  order : ConfigResultsMap → ConfigResultsMap
  perm : ∀ m, (order m).Perm m

/-- Visiting the entries in order of insertion. -/
def MapOrder.insertion : MapOrder := ⟨fun m => m, fun m => List.Perm.refl m⟩

/-- Visiting the entries in reverse order of insertion. -/
def MapOrder.reversed : MapOrder := ⟨fun m => m.reverse, fun m => List.reverse_perm m⟩

/-! ### Collaborators and the node state -/

/-- The type `cdispec.Device`. -/
structure CDIDevice where
  Name : String
  ContainerEdits : ContainerEdits
  deriving DecidableEq, Repr

/-- The fields of `cdispec.Spec` the handler sets: `Kind` is `vendor/class`. -/
structure CDISpec where
  Version : String
  Kind : String
  Devices : List CDIDevice
  deriving DecidableEq, Repr

/-- Calls made to collaborators, with their arguments. -/
inductive Call where
  | getCheckpoint
  | createCheckpoint (cp : Checkpoint)
  | assertComputeDomainNamespace (claimNamespace : String) (domainID : String)
  | addNodeLabel (domainID : String)
  | assertComputeDomainReady (domainID : String)
  | removeNodeLabel (domainID : String)
  | createComputeDomainChannelDevice (channelID : Nat)
  | parseNVCapDeviceInfo
  | createNvCapDevice
  | daemonSettingsPrepare (domainID : String)
  | daemonSettingsGetCDIContainerEdits (domainID : String)
  | daemonSettingsUnprepare (domainID : String)
  | cdiWriteSpec (specName : String) (spec : CDISpec)
  | cdiRemoveSpec (specName : String)
  | getResourceClaim (ns : String) (name : String)
  deriving DecidableEq, Repr

/-- One collaborator call and whether it returned without error. -/
structure Event where
  call : Call
  ok : Bool
  deriving DecidableEq, Repr

/-- The node as the plugin sees it: the content of the persisted checkpoint file and the
collaborator calls made so far, in order. -/
structure Node where
  checkpoint : Checkpoint
  trace : List Event
  deriving DecidableEq, Repr

/-- An answer of a collaborator: it may depend on everything that happened before. -/
abbrev Answer (α : Type) := List Event → α

/-- The interface `checkpointmanager.CheckpointManager`, with whole-document semantics:
`GetCheckpoint` yields the persisted document or fails, `CreateCheckpoint` replaces the
persisted document or fails and leaves it as it was. -/
structure CheckpointManager where
  GetCheckpoint : Answer (Option GoError)
  CreateCheckpoint : Answer (Checkpoint → Option GoError)

/-- The kubelet plugin's `ComputeDomainManager` (declared outside the embedded files) and
the daemon settings it hands out with `NewSettings(domainID)`. -/
structure ComputeDomainManager where
  cliqueID : String
  AssertComputeDomainNamespace : Answer (String → String → Option GoError)
  AddNodeLabel : Answer (String → Option GoError)
  AssertComputeDomainReady : Answer (String → Option GoError)
  RemoveNodeLabel : Answer (String → Option GoError)
  GetComputeDomainChannelContainerEdits : ComputeDomainChannelInfo → Option ContainerEdits
  SettingsPrepare : Answer (String → Option GoError)
  SettingsUnprepare : Answer (String → Option GoError)
  SettingsGetCDIContainerEdits : Answer (String → Nat → Except GoError (Option ContainerEdits))

/-- The struct `deviceLib` (declared outside the embedded files); the nvcap device info is
kept as a number. -/
structure deviceLib where
  createComputeDomainChannelDevice : Answer (Nat → Option GoError)
  parseNVCapDeviceInfo : Answer (Except GoError Nat)
  createNvCapDevice : Answer (Option GoError)

/-- The API client `config.clientsets.Core.ResourceV1beta1().ResourceClaims(ns).Get`. -/
structure Clientsets where
  GetResourceClaim : Answer (String → String → Except GoError ResourceClaim)

/-- The package `configapi`: its decoder, the two default configs and the methods
`Normalize` and `Validate` of the two config types (all declared outside the embedded
files). -/
structure ConfigAPI where
  Decoder : String → Except GoError RuntimeObject
  DefaultComputeDomainChannelConfig : ComputeDomainChannelConfig
  DefaultComputeDomainDaemonConfig : ComputeDomainDaemonConfig
  channelNormalize : ComputeDomainChannelConfig → Except GoError ComputeDomainChannelConfig
  channelValidate : ComputeDomainChannelConfig → Option GoError
  daemonNormalize : ComputeDomainDaemonConfig → Except GoError ComputeDomainDaemonConfig
  daemonValidate : ComputeDomainDaemonConfig → Option GoError

/-- The method `Normalize` of `configapi.Interface`; it updates the config in place. -/
def ConfigAPI.Normalize (api : ConfigAPI) : Interface → Except GoError Interface
  | .channel c => (api.channelNormalize c).map Interface.channel
  | .daemon c => (api.daemonNormalize c).map Interface.daemon

/-- The method `Validate` of `configapi.Interface`. -/
def ConfigAPI.Validate (api : ConfigAPI) : Interface → Option GoError
  | .channel c => api.channelValidate c
  | .daemon c => api.daemonValidate c

/-- The struct `CDIHandler` of `cdi.go`: the fields its claim methods read, the canonical
device names (methods declared outside the embedded files) and the CDI library calls it
makes. -/
structure RealCDIHandler where
  vendor : String
  claimClass : String
  /-- The method `AllocatableDevice.CanonicalName`. -/
  allocatableCanonicalName : AllocatableDevice → String
  /-- The method `PreparedDevice.CanonicalName`. -/
  preparedCanonicalName : PreparedDevice → String
  /-- The constructor `spec.New`, which may reject the spec. -/
  specNew : CDISpec → Option GoError
  /-- The root transformer applied to the container edits of a device. -/
  transformRoot : ContainerEdits → Except GoError ContainerEdits
  /-- The function `cdiapi.MinimumRequiredVersion`. -/
  MinimumRequiredVersion : CDISpec → Except GoError String
  /-- The method `cache.WriteSpec`. -/
  WriteSpec : Answer (CDISpec → String → Option GoError)
  /-- The method `cache.RemoveSpec`. -/
  RemoveSpec : Answer (String → Option GoError)

/-- The handler stored in `DeviceState.cdi`: the one of `cdi.go` or the one of
`cdi_mock.go`. -/
inductive CDIHandler where
  | real (h : RealCDIHandler)
  | mock

/-- The struct `DeviceState` together with the package-level names its methods use. -/
structure DeviceState where
  /-- The constant `DriverName`. -/
  DriverName : String
  cdi : CDIHandler
  computeDomainManager : ComputeDomainManager
  /-- The map `allocatable`, device name to device. -/
  allocatable : String → Option AllocatableDevice
  nvdevlib : deviceLib
  checkpointManager : CheckpointManager
  clientsets : Clientsets
  configapi : ConfigAPI
  /-- The visiting order of the first `range configResultsMap` in `prepareDevices`. -/
  applyOrder : MapOrder
  /-- The visiting order of the second `range configResultsMap` in `prepareDevices`. -/
  buildOrder : MapOrder
  /-- The visiting order of `range configResultsMap` in `unprepareDevices`. -/
  unprepareOrder : MapOrder

/-- Make a collaborator call that returns only an error, and record it. -/
def call (c : Call) (answer : Answer (Option GoError)) : Act Node Unit := fun n =>
  match answer n.trace with
  | none => (.ok (), { n with trace := n.trace ++ [⟨c, true⟩] })
  | some e => (.error e, { n with trace := n.trace ++ [⟨c, false⟩] })

/-- Make a collaborator call that returns a value or an error, and record it. -/
def callV {α : Type} (c : Call) (answer : Answer (Except GoError α)) : Act Node α := fun n =>
  match answer n.trace with
  | .ok a => (.ok a, { n with trace := n.trace ++ [⟨c, true⟩] })
  | .error e => (.error e, { n with trace := n.trace ++ [⟨c, false⟩] })

/-- The call `s.checkpointManager.GetCheckpoint(DriverPluginCheckpointFileBasename, checkpoint)`
on a fresh `newCheckpoint()`. -/
def DeviceState.GetCheckpoint (s : DeviceState) : Act Node Checkpoint := fun n =>
  match s.checkpointManager.GetCheckpoint n.trace with
  | none => (.ok n.checkpoint, { n with trace := n.trace ++ [⟨.getCheckpoint, true⟩] })
  | some e => (.error e, { n with trace := n.trace ++ [⟨.getCheckpoint, false⟩] })

/-- The call
`s.checkpointManager.CreateCheckpoint(DriverPluginCheckpointFileBasename, checkpoint)`. -/
def DeviceState.CreateCheckpoint (s : DeviceState) (cp : Checkpoint) : Act Node Unit := fun n =>
  match s.checkpointManager.CreateCheckpoint n.trace cp with
  | none => (.ok (), { checkpoint := cp, trace := n.trace ++ [⟨.createCheckpoint cp, true⟩] })
  | some e => (.error e, { n with trace := n.trace ++ [⟨.createCheckpoint cp, false⟩] })

/-! ### The CDI handlers: `cdi.go` and `cdi_mock.go` -/

/-- The constant `cdiVendor`, `"k8s." + DriverName`. -/
def cdiVendor (driverName : String) : String := "k8s." ++ driverName

/-- The constant `cdiDeviceClass`. -/
def cdiDeviceClass : String := "device"

/-- The constant `cdiClaimClass`. -/
def cdiClaimClass : String := "claim"

/-- Modelled from the spec: `cdiparser.QualifiedName` is a library function outside the
embedded files.  It gives the qualified identifier of a device, `vendor/class=name`. -/
def QualifiedName (vendor cls name : String) : String :=
  vendor ++ "/" ++ cls ++ "=" ++ name

/-- Modelled from the spec: `cdiapi.GenerateTransientSpecName` is a library function outside
the embedded files.  It gives the deterministic file name derived from vendor, class and
claim UID. -/
def GenerateTransientSpecName (vendor cls transientID : String) : String :=
  vendor ++ "-" ++ cls ++ "_" ++ transientID.replace "/" "_"

/-- The first loop of `CDIHandler.CreateClaimSpecFile` (lines 207 to 223): the claim-specific
device specs, one per device of every group that has container edits. -/
def RealCDIHandler.claimDeviceSpecs (h : RealCDIHandler) (claimUID : String)
    (preparedDevices : PreparedDevices) : List CDIDevice :=
  preparedDevices.flatMap fun group =>
    match group.ConfigState.containerEdits with
    | none => []
    | some edits =>
      group.Devices.map fun device =>
        { Name := claimUID ++ "-" ++ h.preparedCanonicalName device, ContainerEdits := edits }

/-- The root transformer over the devices of a spec: it rewrites the container edits of each
device and stops at the first failure. -/
def RealCDIHandler.transformDevices (h : RealCDIHandler) :
    List CDIDevice → Except GoError (List CDIDevice)
  | [] => .ok []
  | d :: rest =>
    match h.transformRoot d.ContainerEdits with
    | .error e => .error e
    | .ok edits =>
      match RealCDIHandler.transformDevices h rest with
      | .error e => .error e
      | .ok ds => .ok ({ d with ContainerEdits := edits } :: ds)

/-- The method `CDIHandler.CreateClaimSpecFile` of `cdi.go`. -/
def RealCDIHandler.CreateClaimSpecFile (h : RealCDIHandler) (claimUID : String)
    (preparedDevices : PreparedDevices) : Act Node Unit :=
  let deviceSpecs := h.claimDeviceSpecs claimUID preparedDevices
  if deviceSpecs.length = 0 then pure ()
  else do
    let spec : CDISpec :=
      { Version := "", Kind := h.vendor ++ "/" ++ h.claimClass, Devices := deviceSpecs }
    Act.mapErr (GoError.wrapW "failed to creat CDI spec") (Act.ofErr (h.specNew spec))
    let devices ← Act.mapErr (GoError.wrapW "failed to transform driver root in CDI spec")
      (Act.ofExcept (h.transformDevices spec.Devices))
    let spec := { spec with Devices := devices }
    let minVersion ← Act.mapErr (GoError.wrapV "failed to get minimum required CDI spec version")
      (Act.ofExcept (h.MinimumRequiredVersion spec))
    let spec := { spec with Version := minVersion }
    let specName := GenerateTransientSpecName h.vendor h.claimClass claimUID
    call (.cdiWriteSpec specName spec) fun t => h.WriteSpec t spec specName

/-- The method `CDIHandler.DeleteClaimSpecFile` of `cdi.go`. -/
def RealCDIHandler.DeleteClaimSpecFile (h : RealCDIHandler) (claimUID : String) :
    Act Node Unit :=
  let specName := GenerateTransientSpecName h.vendor h.claimClass claimUID
  call (.cdiRemoveSpec specName) fun t => h.RemoveSpec t specName

/-- The method `CDIHandler.GetStandardDevice` of `cdi.go`. -/
def RealCDIHandler.GetStandardDevice (_h : RealCDIHandler) (driverName : String)
    (device : AllocatableDevice) : String :=
  if device.Type_ = ComputeDomainChannelType then ""
  else QualifiedName (cdiVendor driverName) cdiDeviceClass "all"

/-- The method `CDIHandler.GetClaimDevice` of `cdi.go`. -/
def RealCDIHandler.GetClaimDevice (h : RealCDIHandler) (claimUID : String)
    (device : AllocatableDevice) (containerEdits : Option ContainerEdits) : String :=
  match containerEdits with
  | none => ""
  | some _ =>
    QualifiedName h.vendor h.claimClass (claimUID ++ "-" ++ h.allocatableCanonicalName device)

/-- The method `CreateClaimSpecFile` of the handler in use; `cdiMockHandler` returns `nil`. -/
def CDIHandler.CreateClaimSpecFile (cdi : CDIHandler) (claimUID : String)
    (preparedDevices : PreparedDevices) : Act Node Unit :=
  match cdi with
  | .real h => h.CreateClaimSpecFile claimUID preparedDevices
  | .mock => pure ()

/-- The method `DeleteClaimSpecFile` of the handler in use; `cdiMockHandler` returns `nil`. -/
def CDIHandler.DeleteClaimSpecFile (cdi : CDIHandler) (claimUID : String) : Act Node Unit :=
  match cdi with
  | .real h => h.DeleteClaimSpecFile claimUID
  | .mock => pure ()

/-- The method `GetStandardDevice` of the handler in use; `cdiMockHandler` returns `""`. -/
def CDIHandler.GetStandardDevice (cdi : CDIHandler) (driverName : String)
    (device : AllocatableDevice) : String :=
  match cdi with
  | .real h => h.GetStandardDevice driverName device
  | .mock => ""

/-- The method `GetClaimDevice` of the handler in use; `cdiMockHandler` returns `""`. -/
def CDIHandler.GetClaimDevice (cdi : CDIHandler) (claimUID : String)
    (device : AllocatableDevice) (containerEdits : Option ContainerEdits) : String :=
  match cdi with
  | .real h => h.GetClaimDevice claimUID device containerEdits
  | .mock => ""

/-! ### Config resolution: `GetOpaqueDeviceConfigs`, `getConfigResultsMap` -/

/-- The first loop of `GetOpaqueDeviceConfigs` (lines 530 to 539), started with the class
and claim configs collected so far. -/
def GetOpaqueDeviceConfigs.bySource
    (classConfigs claimConfigs : List DeviceAllocationConfiguration) :
    List DeviceAllocationConfiguration →
      Except GoError (List DeviceAllocationConfiguration × List DeviceAllocationConfiguration)
  | [] => .ok (classConfigs, claimConfigs)
  | config :: rest =>
    if config.Source = AllocationConfigSourceClass then
      GetOpaqueDeviceConfigs.bySource (classConfigs ++ [config]) claimConfigs rest
    else if config.Source = AllocationConfigSourceClaim then
      GetOpaqueDeviceConfigs.bySource classConfigs (claimConfigs ++ [config]) rest
    else .error (.new "invalid config source")

/-- The second loop of `GetOpaqueDeviceConfigs` (lines 545 to 571), started with the result
configs collected so far. -/
def GetOpaqueDeviceConfigs.decodeAll (decoder : String → Except GoError RuntimeObject)
    (driverName : String) (resultConfigs : List OpaqueDeviceConfig) :
    List DeviceAllocationConfiguration → Except GoError (List OpaqueDeviceConfig)
  | [] => .ok resultConfigs
  | config :: rest =>
    match config.Opaque with
    | none => .error (.new "only opaque parameters are supported by this driver")
    | some opq =>
      if opq.Driver ≠ driverName then
        GetOpaqueDeviceConfigs.decodeAll decoder driverName resultConfigs rest
      else
        match decoder opq.Parameters with
        | .error e => .error (e.wrapW "error decoding config parameters")
        | .ok decodedConfig =>
          GetOpaqueDeviceConfigs.decodeAll decoder driverName
            (resultConfigs ++ [{ Requests := config.Requests, Config := decodedConfig }]) rest

/-- The function `GetOpaqueDeviceConfigs`. -/
def GetOpaqueDeviceConfigs (decoder : String → Except GoError RuntimeObject)
    (driverName : String) (possibleConfigs : List DeviceAllocationConfiguration) :
    Except GoError (List OpaqueDeviceConfig) :=
  match GetOpaqueDeviceConfigs.bySource [] [] possibleConfigs with
  | .error e => .error e
  | .ok (classConfigs, claimConfigs) =>
    let candidateConfigs := classConfigs ++ claimConfigs
    GetOpaqueDeviceConfigs.decodeAll decoder driverName [] candidateConfigs

/-- The inner loop of `getConfigResultsMap` (lines 484 to 505) over the configs still to
visit, highest precedence first, each with its position in the config list: the config
chosen for a result with request name `request` on `device`, `none` when the loop ends
without a choice. -/
def getConfigResultsMap.choose (device : AllocatableDevice) (request : String) :
    List (Nat × OpaqueDeviceConfig) → Except GoError (Option (Nat × OpaqueDeviceConfig))
  | [] => .ok none
  | (i, c) :: rest =>
    if c.Requests.contains request then
      if c.Config.isChannelConfig && device.Type_ != ComputeDomainChannelType then
        .error (.new "cannot apply ComputeDomainChannelConfig to request")
      else if c.Config.isDaemonConfig && device.Type_ != ComputeDomainDaemonType then
        .error (.new "cannot apply ComputeDomainDaemonConfig to request")
      else .ok (some (i, c))
    else if c.Requests.length = 0 then
      if c.Config.isChannelConfig && device.Type_ != ComputeDomainChannelType then
        getConfigResultsMap.choose device request rest
      else if c.Config.isDaemonConfig && device.Type_ != ComputeDomainDaemonType then
        getConfigResultsMap.choose device request rest
      else .ok (some (i, c))
    else getConfigResultsMap.choose device request rest

/-- The outer loop of `getConfigResultsMap` (lines 476 to 506), started with the map built
so far. -/
def getConfigResultsMap.group (driverName : String)
    (allocatable : String → Option AllocatableDevice) (configs : List OpaqueDeviceConfig)
    (configResultsMap : ConfigResultsMap) :
    List DeviceRequestAllocationResult → Except GoError ConfigResultsMap
  | [] => .ok configResultsMap
  | result :: rest =>
    if result.Driver ≠ driverName then
      getConfigResultsMap.group driverName allocatable configs configResultsMap rest
    else
      match allocatable result.Device with
      | none => .error (.new "requested device is not allocatable")
      | some device =>
        match getConfigResultsMap.choose device result.Request configs.enum.reverse with
        | .error e => .error e
        | .ok none =>
          getConfigResultsMap.group driverName allocatable configs configResultsMap rest
        | .ok (some (i, c)) =>
          getConfigResultsMap.group driverName allocatable configs
            (configResultsMap.append i c.Config result) rest

/-- The method `DeviceState.getConfigResultsMap`.  Reading `rcs.Allocation.Devices` through
a nil `Allocation` is a nil-pointer dereference. -/
def DeviceState.getConfigResultsMap (s : DeviceState) (rcs : ResourceClaimStatus) :
    Except GoError ConfigResultsMap :=
  match rcs.Allocation with
  | none => .error (.panic "invalid memory address or nil pointer dereference")
  | some allocation =>
    match GetOpaqueDeviceConfigs s.configapi.Decoder s.DriverName allocation.Devices.Config with
    | .error e => .error (e.wrapV "error getting opaque device configs")
    | .ok configs =>
      let configs : List OpaqueDeviceConfig :=
        { Requests := [],
          Config := .channelConfig s.configapi.DefaultComputeDomainChannelConfig } :: configs
      let configs : List OpaqueDeviceConfig :=
        { Requests := [],
          Config := .daemonConfig s.configapi.DefaultComputeDomainDaemonConfig } :: configs
      getConfigResultsMap.group s.DriverName s.allocatable configs [] allocation.Devices.Results

/-! ### Applying configs: `applyConfig` and its two cases -/

/-- The loop of `applyComputeDomainChannelConfig` (lines 373 to 390), started with the
config state built so far. -/
def DeviceState.applyComputeDomainChannelConfig.loop (s : DeviceState)
    (config : ComputeDomainChannelConfig) (claim : ResourceClaim)
    (configState : DeviceConfigState) :
    List DeviceRequestAllocationResult → Act Node DeviceConfigState
  | [] => pure configState
  | r :: rest => do
    let channel ← (match s.allocatable r.Device with
      | none => Act.fail (.panic "invalid memory address or nil pointer dereference")
      | some d => pure d.Channel)
    Act.mapErr (fun e => (e.wrapW "error asserting ComputeDomain's namespace").permanentError)
      (call (.assertComputeDomainNamespace claim.Namespace config.DomainID) fun t =>
        s.computeDomainManager.AssertComputeDomainNamespace t claim.Namespace config.DomainID)
    Act.mapErr (GoError.wrapW "error adding Node label for ComputeDomain")
      (call (.addNodeLabel config.DomainID) fun t =>
        s.computeDomainManager.AddNodeLabel t config.DomainID)
    Act.mapErr (GoError.wrapW "error asserting ComputeDomain Ready")
      (call (.assertComputeDomainReady config.DomainID) fun t =>
        s.computeDomainManager.AssertComputeDomainReady t config.DomainID)
    if s.computeDomainManager.cliqueID ≠ "" then
      match channel with
      | none => Act.fail (.panic "invalid memory address or nil pointer dereference")
      | some ch => do
        Act.mapErr (GoError.wrapW "error creating ComputeDomain channel device")
          (call (.createComputeDomainChannelDevice ch.ID) fun t =>
            s.nvdevlib.createComputeDomainChannelDevice t ch.ID)
        DeviceState.applyComputeDomainChannelConfig.loop s config claim
          { configState with
            containerEdits := ContainerEdits.Append configState.containerEdits
              (s.computeDomainManager.GetComputeDomainChannelContainerEdits ch) } rest
    else DeviceState.applyComputeDomainChannelConfig.loop s config claim configState rest

/-- The method `DeviceState.applyComputeDomainChannelConfig`. -/
def DeviceState.applyComputeDomainChannelConfig (s : DeviceState)
    (config : ComputeDomainChannelConfig) (claim : ResourceClaim)
    (results : List DeviceRequestAllocationResult) : Act Node DeviceConfigState :=
  let configState : DeviceConfigState :=
    { Type_ := ComputeDomainChannelType, ComputeDomain := config.DomainID, containerEdits := none }
  DeviceState.applyComputeDomainChannelConfig.loop s config claim configState results

/-- The method `DeviceState.applyComputeDomainDaemonConfig`.  The map `allocatableDevices`
is keyed by device name, so its length is the number of distinct device names. -/
def DeviceState.applyComputeDomainDaemonConfig (s : DeviceState)
    (config : ComputeDomainDaemonConfig) (_claim : ResourceClaim)
    (results : List DeviceRequestAllocationResult) : Act Node DeviceConfigState :=
  let allocatableDevices := (results.map fun r => r.Device).dedup
  if allocatableDevices.length ≠ 1 then
    Act.fail (.new "only expected 1 device for requests in claim")
  else
    let configState : DeviceConfigState :=
      { Type_ := ComputeDomainDaemonType, ComputeDomain := config.DomainID,
        containerEdits := none }
    if s.computeDomainManager.cliqueID ≠ "" then do
      let nvcapDeviceInfo ← Act.mapErr
        (GoError.wrapW "error parsing nvcap device info for fabic-imex-mgmt")
        (callV .parseNVCapDeviceInfo s.nvdevlib.parseNVCapDeviceInfo)
      Act.mapErr (GoError.wrapW "error creating nvcap device for fabic-imex-mgmt")
        (call .createNvCapDevice s.nvdevlib.createNvCapDevice)
      Act.mapErr (GoError.wrapW "error preparing ComputeDomain daemon settings")
        (call (.daemonSettingsPrepare config.DomainID) fun t =>
          s.computeDomainManager.SettingsPrepare t config.DomainID)
      let edits ← Act.mapErr
        (GoError.wrapW "error getting container edits for ComputeDomain daemon")
        (callV (.daemonSettingsGetCDIContainerEdits config.DomainID) fun t =>
          s.computeDomainManager.SettingsGetCDIContainerEdits t config.DomainID nvcapDeviceInfo)
      pure { configState with
        containerEdits := ContainerEdits.Append configState.containerEdits edits }
    else pure configState

/-- The method `DeviceState.applyConfig`; its `default` case needs a third implementation of
`configapi.Interface`, which does not exist. -/
def DeviceState.applyConfig (s : DeviceState) (config : Interface) (claim : ResourceClaim)
    (results : List DeviceRequestAllocationResult) : Act Node DeviceConfigState :=
  match config with
  | .channel castConfig => s.applyComputeDomainChannelConfig castConfig claim results
  | .daemon castConfig => s.applyComputeDomainDaemonConfig castConfig claim results

/-! ### `prepareDevices` and `unprepareDevices` -/

/-- The first loop of `prepareDevices` (lines 249 to 279) over the map entries still to
visit, started with the map `preparedDeviceGroupConfigState` built so far. -/
def DeviceState.prepareDevices.applyAll (s : DeviceState) (claim : ResourceClaim)
    (preparedDeviceGroupConfigState : List (Nat × DeviceConfigState)) :
    ConfigResultsMap → Act Node (List (Nat × DeviceConfigState))
  | [] => pure preparedDeviceGroupConfigState
  | (i, c, results) :: rest => do
    let config ← (match c with
      | .channelConfig castConfig => pure (Interface.channel castConfig)
      | .daemonConfig castConfig => pure (Interface.daemon castConfig)
      | .other _ => Act.fail (.new "runtime object is not a recognized configuration"))
    let config ← Act.mapErr (GoError.wrapW "error normalizing config")
      (Act.ofExcept (s.configapi.Normalize config))
    Act.mapErr (GoError.wrapW "error validating config")
      (Act.ofErr (s.configapi.Validate config))
    let configState ← Act.mapErr (GoError.wrapW "error applying config")
      (s.applyConfig config claim results)
    DeviceState.prepareDevices.applyAll s claim
      (preparedDeviceGroupConfigState ++ [(i, configState)]) rest

/-- The body of the inner loop of `prepareDevices` (lines 290 to 319): the prepared device
of one allocation result. -/
def DeviceState.prepareDevices.buildDevice (s : DeviceState) (claim : ResourceClaim)
    (configState : DeviceConfigState) (result : DeviceRequestAllocationResult) :
    Except GoError PreparedDevice :=
  match s.allocatable result.Device with
  | none => .error (.panic "invalid memory address or nil pointer dereference")
  | some allocatableDevice =>
    let cdiDevices : List String := []
    let d := s.cdi.GetStandardDevice s.DriverName allocatableDevice
    let cdiDevices := if d ≠ "" then cdiDevices ++ [d] else cdiDevices
    let d := s.cdi.GetClaimDevice claim.UID allocatableDevice configState.containerEdits
    let cdiDevices := if d ≠ "" then cdiDevices ++ [d] else cdiDevices
    let device : Device :=
      { Requests := [result.Request], PoolName := result.Pool, DeviceName := result.Device,
        CDIDeviceIDs := cdiDevices }
    match allocatableDevice.Type_ with
    | .channel =>
      .ok { Channel := some { Info := allocatableDevice.Channel, Device := device },
            Daemon := none }
    | .daemon =>
      .ok { Channel := none,
            Daemon := some { Info := allocatableDevice.Daemon, Device := device } }
    | .unknown => .ok { Channel := none, Daemon := none }

/-- The inner loop of `prepareDevices` (lines 289 to 320), started with the devices of the
group built so far. -/
def DeviceState.prepareDevices.buildDevices (s : DeviceState) (claim : ResourceClaim)
    (configState : DeviceConfigState) (devices : List PreparedDevice) :
    List DeviceRequestAllocationResult → Except GoError (List PreparedDevice)
  | [] => .ok devices
  | result :: rest =>
    match DeviceState.prepareDevices.buildDevice s claim configState result with
    | .error e => .error e
    | .ok preparedDevice =>
      DeviceState.prepareDevices.buildDevices s claim configState (devices ++ [preparedDevice])
        rest

/-- The second loop of `prepareDevices` (lines 284 to 323) over the map entries still to
visit, started with the prepared devices built so far. -/
def DeviceState.prepareDevices.buildAll (s : DeviceState) (claim : ResourceClaim)
    (preparedDeviceGroupConfigState : List (Nat × DeviceConfigState))
    (preparedDevices : PreparedDevices) : ConfigResultsMap → Except GoError PreparedDevices
  | [] => .ok preparedDevices
  | (i, _, results) :: rest =>
    match preparedDeviceGroupConfigState.lookup i with
    | none => .error (.panic "invalid memory address or nil pointer dereference")
    | some configState =>
      match DeviceState.prepareDevices.buildDevices s claim configState [] results with
      | .error e => .error e
      | .ok devices =>
        DeviceState.prepareDevices.buildAll s claim preparedDeviceGroupConfigState
          (preparedDevices ++ [{ Devices := devices, ConfigState := configState }]) rest

/-- The method `DeviceState.prepareDevices`. -/
def DeviceState.prepareDevices (s : DeviceState) (claim : ResourceClaim) :
    Act Node PreparedDevices := do
  let configResultsMap ← Act.mapErr (GoError.wrapW "error generating configResultsMap")
    (Act.ofExcept (s.getConfigResultsMap claim.Status))
  let preparedDeviceGroupConfigState ←
    DeviceState.prepareDevices.applyAll s claim [] (s.applyOrder.order configResultsMap)
  Act.ofExcept (DeviceState.prepareDevices.buildAll s claim preparedDeviceGroupConfigState []
    (s.buildOrder.order configResultsMap))

/-- The loop of `unprepareDevices` (lines 335 to 349) over the map entries still to visit. -/
def DeviceState.unprepareDevices.loop (s : DeviceState) : ConfigResultsMap → Act Node Unit
  | [] => pure ()
  | (_, c, _) :: rest => do
    (match c with
    | .channelConfig config =>
      Act.mapErr (GoError.wrapW "error removing Node label for ComputeDomain")
        (call (.removeNodeLabel config.DomainID) fun t =>
          s.computeDomainManager.RemoveNodeLabel t config.DomainID)
    | .daemonConfig config =>
      Act.mapErr (GoError.wrapW "error unpreparing ComputeDomain daemon settings")
        (call (.daemonSettingsUnprepare config.DomainID) fun t =>
          s.computeDomainManager.SettingsUnprepare t config.DomainID)
    | .other _ => pure ())
    DeviceState.unprepareDevices.loop s rest

/-- The method `DeviceState.unprepareDevices`. -/
def DeviceState.unprepareDevices (s : DeviceState) (cs : ResourceClaimStatus) :
    Act Node Unit := do
  let configResultsMap ← Act.mapErr (GoError.wrapW "error generating configResultsMap")
    (Act.ofExcept (s.getConfigResultsMap cs))
  DeviceState.unprepareDevices.loop s (s.unprepareOrder.order configResultsMap)

/-! ### `Prepare` and `Unprepare` -/

/-- The method `DeviceState.Prepare` (the mutex is not modelled: calls are serialised). -/
def DeviceState.Prepare (s : DeviceState) (claim : ResourceClaim) : Act Node (List Device) := do
  let claimUID := claim.UID
  let checkpoint ← Act.mapErr (GoError.wrapW "unable to get checkpoint") s.GetCheckpoint
  match checkpoint.get? claimUID with
  | some preparedClaim => pure preparedClaim.PreparedDevices.GetDevices
  | none => do
    let preparedDevices ← Act.mapErr (GoError.wrapW "prepare devices failed")
      (s.prepareDevices claim)
    Act.mapErr (GoError.wrapW "unable to create CDI spec file for claim")
      (s.cdi.CreateClaimSpecFile claimUID preparedDevices)
    let checkpoint := checkpoint.set claimUID
      { Status := claim.Status, PreparedDevices := preparedDevices }
    Act.mapErr (GoError.wrapW "unable to create checkpoint") (s.CreateCheckpoint checkpoint)
    pure preparedDevices.GetDevices

/-- Lines 203 to 217 of `Unprepare`: the status to unprepare with.  It is the status of the
checkpoint entry, unless that has no allocation; then it is fetched from the API server. -/
def DeviceState.Unprepare.status (s : DeviceState) (claimRef : NamespacedObject)
    (pc : PreparedClaim) : Act Node ResourceClaimStatus :=
  match pc.Status.Allocation with
  | some _ => pure pc.Status
  | none => do
    let claim ← Act.mapErr
      (fun e => (e.wrapW "failed to fetch ResourceClaim").permanentError)
      (callV (.getResourceClaim claimRef.Namespace claimRef.Name) fun t =>
        s.clientsets.GetResourceClaim t claimRef.Namespace claimRef.Name)
    match claim.Status.Allocation with
    | none => Act.fail (GoError.new "no allocation set in ResourceClaim").permanentError
    | some _ => pure claim.Status

/-- The method `DeviceState.Unprepare` (the mutex is not modelled: calls are serialised). -/
def DeviceState.Unprepare (s : DeviceState) (claimRef : NamespacedObject) : Act Node Unit := do
  let claimUID := claimRef.UID
  let checkpoint ← Act.mapErr (GoError.wrapW "unable to get checkpoint") s.GetCheckpoint
  match checkpoint.get? claimUID with
  | none => pure ()
  | some pc => do
    let status ← DeviceState.Unprepare.status s claimRef pc
    Act.mapErr (GoError.wrapW "unprepare devices failed") (s.unprepareDevices status)
    Act.mapErr (GoError.wrapW "unable to delete CDI spec file for claim")
      (s.cdi.DeleteClaimSpecFile claimUID)
    let checkpoint := checkpoint.delete claimUID
    Act.mapErr (GoError.wrapW "create checkpoint failed") (s.CreateCheckpoint checkpoint)
    pure ()

/-! ### Vocabulary for the statements about `Prepare` and `Unprepare` -/

/-- The body `x` leaves the persisted checkpoint as it is and makes only collaborator calls
that satisfy `P`. -/
def Frames {α : Type} (P : Call → Prop) (x : Act Node α) : Prop :=
  ∀ n, (x n).2.checkpoint = n.checkpoint ∧
    ∃ evs, (x n).2.trace = n.trace ++ evs ∧ ∀ ev ∈ evs, P ev.call

/-- The call is a checkpoint write. -/
def Call.isCreateCheckpoint : Call → Bool
  | .createCheckpoint _ => true
  | _ => false

/-- The call reads a claim from the API server. -/
def Call.isGetResourceClaim : Call → Bool
  | .getResourceClaim _ _ => true
  | _ => false

/-- The calls `prepareDevices` can make: the assertions on the domain and the device side
effects of the two config types. -/
def Call.isDeviceSetup : Call → Bool
  | .assertComputeDomainNamespace _ _ => true
  | .addNodeLabel _ => true
  | .assertComputeDomainReady _ => true
  | .createComputeDomainChannelDevice _ => true
  | .parseNVCapDeviceInfo => true
  | .createNvCapDevice => true
  | .daemonSettingsPrepare _ => true
  | .daemonSettingsGetCDIContainerEdits _ => true
  | _ => false

/-- The calls `unprepareDevices` can make. -/
def Call.isDeviceTeardown : Call → Bool
  | .removeNodeLabel _ => true
  | .daemonSettingsUnprepare _ => true
  | _ => false

/-- The call writes a CDI spec file. -/
def Call.isCDIWrite : Call → Bool
  | .cdiWriteSpec _ _ => true
  | _ => false

/-- The call removes a CDI spec file. -/
def Call.isCDIRemove : Call → Bool
  | .cdiRemoveSpec _ => true
  | _ => false

/-- A device side effect that `Prepare` applies to the node. -/
def Call.appliesDevice : Call → Bool
  | .addNodeLabel _ => true
  | .createComputeDomainChannelDevice _ => true
  | .createNvCapDevice => true
  | .daemonSettingsPrepare _ => true
  | _ => false

/-- A device side effect that `Unprepare` reverses on the node. -/
def Call.reversesDevice : Call → Bool
  | .removeNodeLabel _ => true
  | .daemonSettingsUnprepare _ => true
  | _ => false

/-- One request of the kubelet, with the plugin and its collaborators as they are when the
request arrives. -/
inductive Request where
  | prepare (s : DeviceState) (claim : ResourceClaim)
  | unprepare (s : DeviceState) (claimRef : NamespacedObject)

/-- The record of a served request: the claim UID, whether it was a `Prepare`, whether it
returned without error, and the collaborator calls made while serving it. -/
structure Served where
  uid : String
  isPrepare : Bool
  ok : Bool
  events : List Event
  deriving DecidableEq, Repr

/-- Serve one request on node `n`: its record and the node afterwards. -/
def Request.serve (r : Request) (n : Node) : Served × Node :=
  match r with
  | .prepare s claim =>
    let out := s.Prepare claim n
    ({ uid := claim.UID, isPrepare := true, ok := out.1.toBool,
       events := out.2.trace.drop n.trace.length }, out.2)
  | .unprepare s claimRef =>
    let out := s.Unprepare claimRef n
    ({ uid := claimRef.UID, isPrepare := false, ok := out.1.toBool,
       events := out.2.trace.drop n.trace.length }, out.2)

/-- Serve requests one after the other, starting with the records `log` on node `n`. -/
def serveAll : List Request → List Served × Node → List Served × Node
  | [], st => st
  | r :: rest, (log, n) => serveAll rest (log ++ [(r.serve n).1], (r.serve n).2)

/-- How one served request changes whether the devices of claim `uid` are prepared: a
`Prepare` of the claim that applied a device side effect prepares them, an `Unprepare` of the
claim that reversed a device side effect takes that away, anything else changes nothing. -/
def devicesPrepared.step (uid : String) (prepared : Bool) (r : Served) : Bool :=
  if r.uid ≠ uid then prepared
  else if r.isPrepare then prepared || r.events.any fun ev => ev.ok && ev.call.appliesDevice
  else prepared && !(r.events.any fun ev => ev.ok && ev.call.reversesDevice)

/-- Whether the devices of claim `uid` are prepared on the node after the served requests:
its device side effects have been applied and not reversed. -/
def devicesPrepared (uid : String) (log : List Served) : Bool :=
  log.foldl (devicesPrepared.step uid) false

/-- Whether claim `uid` is committed after the served requests: the latest request for the
claim that returned without error is a `Prepare`. -/
def committed (uid : String) (log : List Served) : Bool :=
  match (log.filter fun r => r.uid == uid && r.ok).getLast? with
  | some r => r.isPrepare
  | none => false

/-! ### Vocabulary for the statements about config resolution -/

/-- The config carries opaque parameters for driver `driverName`. -/
def DeviceAllocationConfiguration.isFor (c : DeviceAllocationConfiguration)
    (driverName : String) : Bool :=
  match c.Opaque with
  | some opq => opq.Driver == driverName
  | none => false

/-- The config `o` is the decoded form of `c`: it keeps the request list of `c`, and its
object is what the decoder makes of the opaque parameters of `c`. -/
def DecodesTo (decoder : String → Except GoError RuntimeObject) (o : OpaqueDeviceConfig)
    (c : DeviceAllocationConfiguration) : Prop :=
  o.Requests = c.Requests ∧
    ∃ opq, c.Opaque = some opq ∧ decoder opq.Parameters = .ok o.Config

/-- The walk of `getConfigResultsMap` passes over config `c` for a result with request name
`request` on `device`: `c` does not list the request, and it is not a wildcard either, or it
is a wildcard of a config type that does not fit the device type. -/
def OpaqueDeviceConfig.passedOver (c : OpaqueDeviceConfig) (device : AllocatableDevice)
    (request : String) : Bool :=
  !c.Requests.contains request &&
    (c.Requests.length != 0 ||
      (c.Config.isChannelConfig && device.Type_ != ComputeDomainChannelType) ||
      (c.Config.isDaemonConfig && device.Type_ != ComputeDomainDaemonType))

/-- The config the walk of `getConfigResultsMap` settles on for `result`, with its position
in the config list: `none` when the result belongs to another driver, names no allocatable
device, or the walk ends without a choice or with an error. -/
def getConfigResultsMap.chosen (driverName : String)
    (allocatable : String → Option AllocatableDevice) (configs : List OpaqueDeviceConfig)
    (result : DeviceRequestAllocationResult) : Option (Nat × OpaqueDeviceConfig) :=
  if result.Driver ≠ driverName then none
  else
    match allocatable result.Device with
    | none => none
    | some device =>
      match getConfigResultsMap.choose device result.Request configs.enum.reverse with
      | .ok (some p) => some p
      | _ => none

/-- One round of the outer loop of `getConfigResultsMap` that ends without error. -/
def getConfigResultsMap.step (driverName : String)
    (allocatable : String → Option AllocatableDevice) (configs : List OpaqueDeviceConfig)
    (configResultsMap : ConfigResultsMap) (result : DeviceRequestAllocationResult) :
    ConfigResultsMap :=
  match getConfigResultsMap.chosen driverName allocatable configs result with
  | some (i, c) => configResultsMap.append i c.Config result
  | none => configResultsMap

/-- The config list `getConfigResultsMap` walks: the default `DaemonConfig`, the default
`ChannelConfig`, then the configs of the claim status, lowest precedence first. -/
def DeviceState.configList (s : DeviceState) (configs : List OpaqueDeviceConfig) :
    List OpaqueDeviceConfig :=
  { Requests := [], Config := .daemonConfig s.configapi.DefaultComputeDomainDaemonConfig } ::
    { Requests := [], Config := .channelConfig s.configapi.DefaultComputeDomainChannelConfig } ::
      configs

/-- The device type a config object is for: a `ComputeDomainChannelConfig` is for channel
devices, a `ComputeDomainDaemonConfig` for daemon devices, any other object for none. -/
def RuntimeObject.deviceType? : RuntimeObject → Option DeviceType
  | .channelConfig _ => some ComputeDomainChannelType
  | .daemonConfig _ => some ComputeDomainDaemonType
  | .other _ => none

/-- Follows the spec's words: the walk stops at a config that either lists the request of
the result explicitly, or has an empty request list and a type equal to the type of the
device. -/
def OpaqueDeviceConfig.stopsWalk (c : OpaqueDeviceConfig) (device : AllocatableDevice)
    (request : String) : Bool :=
  c.Requests.contains request ||
    (c.Requests.isEmpty && decide (c.Config.deviceType? = some device.Type_))

/-- Follows the spec's words: the config was reached by an explicit listing of the request
and its type differs from the type of the device. -/
def OpaqueDeviceConfig.explicitMismatch (c : OpaqueDeviceConfig) (device : AllocatableDevice)
    (request : String) : Bool :=
  c.Requests.contains request && !decide (c.Config.deviceType? = some device.Type_)

/-- Whether a config object may govern a device of type `t`: a `ComputeDomainChannelConfig`
only a channel device, a `ComputeDomainDaemonConfig` only a daemon device, an object of any
other type every device. -/
def RuntimeObject.fits (o : RuntimeObject) (t : DeviceType) : Bool :=
  match o.deviceType? with
  | some t1 => decide (t1 = t)
  | none => true

/-- The walk stops at a config that either lists the request of the result explicitly, or has
an empty request list and fits the type of the device. -/
def OpaqueDeviceConfig.stopsAt (c : OpaqueDeviceConfig) (device : AllocatableDevice)
    (request : String) : Bool :=
  c.Requests.contains request || (c.Requests.isEmpty && c.Config.fits device.Type_)

/-- The config lists the request of the result explicitly and does not fit the type of the
device. -/
def OpaqueDeviceConfig.listedUnfit (c : OpaqueDeviceConfig) (device : AllocatableDevice)
    (request : String) : Bool :=
  c.Requests.contains request && !c.Config.fits device.Type_

/-! ### Vocabulary for the statements about reversing side effects -/

/-- A side effect on the node that is tied to a compute domain: `Prepare` adds the node label
of a domain and prepares the daemon settings of a domain, `Unprepare` removes the label and
unprepares the settings. -/
inductive Effect where
  | labelAdded (domainID : String)
  | settingsPrepared (domainID : String)
  | labelRemoved (domainID : String)
  | settingsUnprepared (domainID : String)
  deriving DecidableEq, Repr

/-- The side effect of a collaborator call that returned without error, if it has one. -/
def Event.effect? : Event → Option Effect
  | ⟨.addNodeLabel d, true⟩ => some (.labelAdded d)
  | ⟨.daemonSettingsPrepare d, true⟩ => some (.settingsPrepared d)
  | ⟨.removeNodeLabel d, true⟩ => some (.labelRemoved d)
  | ⟨.daemonSettingsUnprepare d, true⟩ => some (.settingsUnprepared d)
  | _ => none

/-- The side effects of a list of collaborator calls, in order. -/
def effects (evs : List Event) : List Effect := evs.filterMap Event.effect?

/-- Whenever the body `x` returns without error, the collaborator calls it made have the
side effects `E`, in this order. -/
def Emits {α : Type} (E : List Effect) (x : Act Node α) : Prop :=
  ∀ n a n1, x n = (.ok a, n1) → ∃ evs, n1.trace = n.trace ++ evs ∧ effects evs = E

/-- The side effects a successful first loop of `prepareDevices` has for one group: a label
per result of a ChannelConfig group, and the daemon settings of a DaemonConfig group when
the node has fabric support. -/
def prepareEffects.entry (cliqueID : String)
    (e : Nat × RuntimeObject × List DeviceRequestAllocationResult) : List Effect :=
  match e.2.1 with
  | .channelConfig c => e.2.2.map fun _ => Effect.labelAdded c.DomainID
  | .daemonConfig c => if cliqueID ≠ "" then [Effect.settingsPrepared c.DomainID] else []
  | .other _ => []

/-- The side effects a successful loop of `unprepareDevices` has for one group. -/
def unprepareEffects.entry
    (e : Nat × RuntimeObject × List DeviceRequestAllocationResult) : List Effect :=
  match e.2.1 with
  | .channelConfig c => [Effect.labelRemoved c.DomainID]
  | .daemonConfig c => [Effect.settingsUnprepared c.DomainID]
  | .other _ => []

/-- The side effects of the collaborator calls `Prepare` makes for `claim` on node `n`. -/
def DeviceState.prepareEffects (s : DeviceState) (claim : ResourceClaim) (n : Node) :
    List Effect :=
  effects ((s.Prepare claim n).2.trace.drop n.trace.length)

/-- The side effects of the collaborator calls `Unprepare` makes for `claimRef` on node
`n`. -/
def DeviceState.unprepareEffects (s : DeviceState) (claimRef : NamespacedObject) (n : Node) :
    List Effect :=
  effects ((s.Unprepare claimRef n).2.trace.drop n.trace.length)

end Plugin

/-! ### Concrete plugins and claims, used to run the embedding -/

namespace Plugin.Example

/-- The driver name of the example node. -/
def driverName : String := "compute-domain.nvidia.com"

/-- A decoder that knows three documents: a channel config and a daemon config for domain
`cd-1`, and an object of another type; it rejects the rest. -/
def decoder (raw : String) : Except GoError RuntimeObject :=
  if raw = "channel:cd-1" then .ok (.channelConfig ⟨"cd-1"⟩)
  else if raw = "daemon:cd-1" then .ok (.daemonConfig ⟨"cd-1"⟩)
  else if raw = "other" then .ok (.other "other")
  else .error (.new "cannot decode")

/-- A node with one channel device and one daemon device, fabric support, the mock CDI
handler, and collaborators that always succeed. -/
def plugin : DeviceState where
  DriverName := driverName
  cdi := .mock
  computeDomainManager :=
    { cliqueID := "clique-1"
      AssertComputeDomainNamespace := fun _ _ _ => none
      AddNodeLabel := fun _ _ => none
      AssertComputeDomainReady := fun _ _ => none
      RemoveNodeLabel := fun _ _ => none
      GetComputeDomainChannelContainerEdits := fun _ => some ["channel-edits"]
      SettingsPrepare := fun _ _ => none
      SettingsUnprepare := fun _ _ => none
      SettingsGetCDIContainerEdits := fun _ _ _ => .ok (some ["daemon-edits"]) }
  allocatable := fun name =>
    if name = "channel-0" then some ⟨some ⟨0⟩, none⟩
    else if name = "daemon" then some ⟨none, some ⟨0⟩⟩
    else none
  nvdevlib :=
    { createComputeDomainChannelDevice := fun _ _ => none
      parseNVCapDeviceInfo := fun _ => .ok 7
      createNvCapDevice := fun _ => none }
  checkpointManager :=
    { GetCheckpoint := fun _ => none
      CreateCheckpoint := fun _ _ => none }
  clientsets := { GetResourceClaim := fun _ _ _ => .error (.new "not found") }
  configapi :=
    { Decoder := decoder
      DefaultComputeDomainChannelConfig := ⟨""⟩
      DefaultComputeDomainDaemonConfig := ⟨""⟩
      channelNormalize := fun c => .ok c
      channelValidate := fun _ => none
      daemonNormalize := fun c => .ok c
      daemonValidate := fun _ => none }
  applyOrder := MapOrder.insertion
  buildOrder := MapOrder.insertion
  unprepareOrder := MapOrder.insertion

/-- The handler of `cdi.go` with a CDI library that always succeeds. -/
def realCDI : RealCDIHandler where
  vendor := cdiVendor driverName
  claimClass := cdiClaimClass
  allocatableCanonicalName := fun d =>
    match d.Channel, d.Daemon with
    | some _, _ => "channel"
    | none, some _ => "daemon"
    | none, none => ""
  preparedCanonicalName := fun d =>
    match d.Channel, d.Daemon with
    | some _, _ => "channel"
    | none, some _ => "daemon"
    | none, none => ""
  specNew := fun _ => none
  transformRoot := fun e => .ok e
  MinimumRequiredVersion := fun _ => .ok "0.5.0"
  WriteSpec := fun _ _ _ => none
  RemoveSpec := fun _ _ => none

/-- A claim in namespace `ns` with one channel allocated under request `r`, governed by a
claim-level channel config for domain `cd-1`. -/
def channelClaim : ResourceClaim where
  Namespace := "ns"
  Name := "claim-a"
  UID := "uid-a"
  Status :=
    { Allocation := some
        { Devices :=
            { Results := [⟨"r", driverName, "pool", "channel-0"⟩]
              Config := [⟨AllocationConfigSourceClaim, ["r"], some ⟨driverName, "channel:cd-1"⟩⟩] } }
      ReservedFor := ["pod-a"] }

/-- The reference the kubelet passes to `Unprepare` for `channelClaim`. -/
def channelClaimRef : NamespacedObject := ⟨"ns", "claim-a", "uid-a"⟩

/-- A node with an empty checkpoint and no collaborator call made. -/
def emptyNode : Node := ⟨newCheckpoint, []⟩

/-- The node after `plugin` has prepared `channelClaim` on `emptyNode`. -/
def preparedNode : Node := (plugin.Prepare channelClaim emptyNode).2

/-- The devices `plugin` returns for `channelClaim`. -/
def preparedDevices : List Device :=
  [{ Requests := ["r"], PoolName := "pool", DeviceName := "channel-0", CDIDeviceIDs := [] }]

/-- The checkpoint entry `plugin` records for `channelClaim`. -/
def preparedClaim : PreparedClaim where
  Status := channelClaim.Status
  PreparedDevices :=
    [{ Devices :=
         [{ Channel := some
              { Info := some ⟨0⟩
                Device :=
                  { Requests := ["r"], PoolName := "pool", DeviceName := "channel-0",
                    CDIDeviceIDs := [] } }
            Daemon := none }]
       ConfigState :=
         { Type_ := .channel, ComputeDomain := "cd-1", containerEdits := some ["channel-edits"] } }]

/-- The plugin on a node whose checkpoint file cannot be written. -/
def failingWrite : DeviceState :=
  { plugin with
    checkpointManager :=
      { GetCheckpoint := fun _ => none
        CreateCheckpoint := fun _ _ => some (.new "no space left on device") } }

/-- The plugin while the compute domain is not ready yet. -/
def notReady : DeviceState :=
  { plugin with
    computeDomainManager :=
      { plugin.computeDomainManager with
        AssertComputeDomainReady := fun _ _ => some (.new "not ready") } }

/-- The plugin while node labels cannot be removed. -/
def labelStuck : DeviceState :=
  { plugin with
    computeDomainManager :=
      { plugin.computeDomainManager with
        RemoveNodeLabel := fun _ _ => some (.new "conflict") } }

/-- An API client that finds every claim, without allocation. -/
def otherAPI : Clientsets :=
  { GetResourceClaim := fun _ ns name => .ok ⟨ns, name, "", ⟨none, []⟩⟩ }

/-- A result for request `r` on the channel device. -/
def channelResult : DeviceRequestAllocationResult := ⟨"r", driverName, "pool", "channel-0"⟩

/-- A result for request `r` on the daemon device. -/
def daemonResult : DeviceRequestAllocationResult := ⟨"r", driverName, "pool", "daemon"⟩

/-- A claim-level wildcard ChannelConfig and a class-level DaemonConfig that names request
`r`, as the claim lists them. -/
def wildcardOverExplicit : List DeviceAllocationConfiguration :=
  [⟨AllocationConfigSourceClaim, [], some ⟨driverName, "channel:cd-1"⟩⟩,
   ⟨AllocationConfigSourceClass, ["r"], some ⟨driverName, "daemon:cd-1"⟩⟩]

/-- The status of a claim with the configs `wildcardOverExplicit` whose request `r` got the
channel device. -/
def wildcardChannelStatus : ResourceClaimStatus :=
  { Allocation := some { Devices := { Results := [channelResult], Config := wildcardOverExplicit } }
    ReservedFor := [] }

/-- The status of a claim with the configs `wildcardOverExplicit` whose request `r` got the
daemon device. -/
def wildcardDaemonStatus : ResourceClaimStatus :=
  { Allocation := some { Devices := { Results := [daemonResult], Config := wildcardOverExplicit } }
    ReservedFor := [] }

/-- The status of a claim whose ChannelConfig names request `r`, which got the daemon
device. -/
def mismatchStatus : ResourceClaimStatus :=
  { Allocation := some
      { Devices :=
          { Results := [daemonResult]
            Config := [⟨AllocationConfigSourceClaim, ["r"], some ⟨driverName, "channel:cd-1"⟩⟩] } }
    ReservedFor := [] }

/-- The status of a claim whose class-level ChannelConfig names request `r`, which got the
daemon device, under a claim-level wildcard DaemonConfig. -/
def shadowedMismatchStatus : ResourceClaimStatus :=
  { Allocation := some
      { Devices :=
          { Results := [daemonResult]
            Config :=
              [⟨AllocationConfigSourceClass, ["r"], some ⟨driverName, "channel:cd-1"⟩⟩,
               ⟨AllocationConfigSourceClaim, [], some ⟨driverName, "daemon:cd-1"⟩⟩] } }
    ReservedFor := [] }

/-- A claim whose status has no allocation. -/
def unallocatedClaim : ResourceClaim where
  Namespace := "ns"
  Name := "claim-b"
  UID := "uid-b"
  Status := { Allocation := none, ReservedFor := [] }

/-- Two results, for requests `r1` and `r2`, that name the same daemon device. -/
def sameDeviceResults : List DeviceRequestAllocationResult :=
  [⟨"r1", driverName, "pool", "daemon"⟩, ⟨"r2", driverName, "pool", "daemon"⟩]

/-- The plugin when the compute domain lives in another namespace than the claim. -/
def otherNamespace : DeviceState :=
  { plugin with
    computeDomainManager :=
      { plugin.computeDomainManager with
        AssertComputeDomainNamespace := fun _ _ _ => some (.new "namespace differs") } }

/-- The status of a claim with the configs `wildcardOverExplicit` that got the channel
device under request `w`, the daemon device under request `r`, and a device of another
driver. -/
def mixedStatus : ResourceClaimStatus :=
  { Allocation := some
      { Devices :=
          { Results :=
              [⟨"w", driverName, "pool", "channel-0"⟩, daemonResult,
               ⟨"x", "gpu.nvidia.com", "pool", "gpu-0"⟩]
            Config := wildcardOverExplicit } }
    ReservedFor := [] }

/-- A claim with the status `mismatchStatus`. -/
def mismatchClaim : ResourceClaim where
  Namespace := "ns"
  Name := "claim-c"
  UID := "uid-c"
  Status := mismatchStatus

/-- The plugin on a node without fabric support: the clique identifier is empty. -/
def noFabric : DeviceState :=
  { plugin with
    computeDomainManager := { plugin.computeDomainManager with cliqueID := "" } }

/-- A claim whose request `r` got the daemon device, with the configs
`wildcardOverExplicit`. -/
def daemonClaim : ResourceClaim where
  Namespace := "ns"
  Name := "claim-d"
  UID := "uid-d"
  Status := wildcardDaemonStatus

/-- The reference the kubelet passes to `Unprepare` for `daemonClaim`. -/
def daemonClaimRef : NamespacedObject := ⟨"ns", "claim-d", "uid-d"⟩

/-- A claim with the status `mixedStatus`: a channel under request `w` and the daemon under
request `r`, both for domain `cd-1`. -/
def mixedClaim : ResourceClaim where
  Namespace := "ns"
  Name := "claim-m"
  UID := "uid-m"
  Status := mixedStatus

/-- The reference the kubelet passes to `Unprepare` for `mixedClaim`. -/
def mixedClaimRef : NamespacedObject := ⟨"ns", "claim-m", "uid-m"⟩

/-- The status of a claim whose request `r` got the channel device, with a claim-level
config without requests that decodes to an object of another type. -/
def otherWildcardStatus : ResourceClaimStatus :=
  { Allocation := some
      { Devices :=
          { Results := [channelResult]
            Config := [⟨AllocationConfigSourceClaim, [], some ⟨driverName, "other"⟩⟩] } }
    ReservedFor := [] }

/-- The status of a claim whose request `r` got the channel device, with a claim-level
config naming `r` that decodes to an object of another type. -/
def otherExplicitStatus : ResourceClaimStatus :=
  { Allocation := some
      { Devices :=
          { Results := [channelResult]
            Config := [⟨AllocationConfigSourceClaim, ["r"], some ⟨driverName, "other"⟩⟩] } }
    ReservedFor := [] }

end Plugin.Example

/-! # Theorems -/

namespace Act

variable {σ α β : Type}

@[simp] theorem pure_run (a : α) (s : σ) : (pure a : Act σ α) s = (.ok a, s) := rfl

@[simp] theorem ret_run (a : α) (s : σ) : (ret a : Act σ α) s = (.ok a, s) := rfl

@[simp] theorem bind_run (x : Act σ α) (f : α → Act σ β) (s : σ) :
    (x >>= f) s = match x s with
      | (.ok a, s1) => f a s1
      | (.error e, s1) => (.error e, s1) := rfl

@[simp] theorem fail_run (e : GoError) (s : σ) : (fail e : Act σ α) s = (.error e, s) := rfl

@[simp] theorem ofExcept_run (r : Except GoError α) (s : σ) : (ofExcept r : Act σ α) s = (r, s) :=
  rfl

@[simp] theorem ofErr_none (s : σ) : (ofErr none : Act σ Unit) s = (.ok (), s) := rfl

@[simp] theorem ofErr_some (e : GoError) (s : σ) :
    (ofErr (some e) : Act σ Unit) s = (.error e, s) := rfl

@[simp] theorem get_run (s : σ) : (get : Act σ σ) s = (.ok s, s) := rfl

@[simp] theorem modify_run (f : σ → σ) (s : σ) : (modify f : Act σ Unit) s = (.ok (), f s) := rfl

@[simp] theorem mapErr_run (f : GoError → GoError) (x : Act σ α) (s : σ) :
    mapErr f x s = match x s with
      | (.ok a, s1) => (.ok a, s1)
      | (.error e, s1) => (.error (f e), s1) := rfl

end Act

namespace Controller

theorem RemoveFinalizer_calls (m : ComputeDomainManager) (uid : String) (s : State) :
    (m.RemoveFinalizer uid s).2.calls = s.calls := by
  unfold ComputeDomainManager.RemoveFinalizer submitUpdate
  simp only [Act.bind_run, Act.mapErr_run, Act.ofExcept_run]
  cases m.Get uid with
  | error e => rfl
  | ok cd? =>
    cases cd? with
    | none => rfl
    | some cd =>
      dsimp only
      split_ifs <;> simp only [Act.fail_run, Act.pure_run, Act.mapErr_run, Act.bind_run, Act.modify_run]
      cases m.update cd.Namespace _ <;> rfl

/-- C1: for a ComputeDomain with a deletion timestamp, when each of the eight teardown
invocations returns success, `onAddOrUpdate` returns success and has made exactly these
invocations in this order: claim-template `Delete`, daemon-workload `Delete`, removal of the
domain's node labels, claim-template `RemoveFinalizer`, claim-template `AssertRemoved`,
daemon-workload `RemoveFinalizer`, daemon-workload `AssertRemoved`, and last the domain's own
`RemoveFinalizer`. -/
theorem onAddOrUpdate_teardown_order (m : ComputeDomainManager) (cd : ComputeDomain) (s : State)
    (hdel : cd.DeletionTimestamp ≠ none)
    (hok : ∀ k, k < 8 → teardownOutcome m cd.UID s k = none) :
    (m.onAddOrUpdate (.computeDomain cd) s).1 = .ok () ∧
      (m.onAddOrUpdate (.computeDomain cd) s).2.calls = s.calls ++ teardownSteps cd.UID := by
  have h0 := hok 0 (by norm_num)
  have h1 := hok 1 (by norm_num)
  have h2 := hok 2 (by norm_num)
  have h3 := hok 3 (by norm_num)
  have h4 := hok 4 (by norm_num)
  have h5 := hok 5 (by norm_num)
  have h6 := hok 6 (by norm_num)
  have h7 := hok 7 (by norm_num)
  simp only [teardownOutcome] at h0 h1 h2 h3 h4 h5 h6 h7
  have hd : cd.DeletionTimestamp.isSome = true := by
    cases h : cd.DeletionTimestamp with
    | none => exact absurd h hdel
    | some _ => rfl
  have hc := RemoveFinalizer_calls m cd.UID { s with calls := s.calls ++ teardownSteps cd.UID }
  simp only [ComputeDomainManager.onAddOrUpdate, hd, invoke, h0, h1, h2, h3, h4, h5, h6, if_true,
    Act.bind_run, Act.mapErr_run, Act.modify_run, Act.ofErr_none, Act.pure_run,
    List.append_assoc, List.cons_append, List.nil_append]
  simp only [teardownSteps] at h7 hc ⊢
  generalize m.RemoveFinalizer cd.UID _ = r at h7 hc ⊢
  obtain ⟨res, s1⟩ := r
  cases res with
  | error e => simp at h7
  | ok u => exact ⟨rfl, hc⟩

/-- The teardown of `Example.deleting` with collaborators that all succeed. -/
theorem onAddOrUpdate_teardown_order_witness :
    Example.deleting.DeletionTimestamp ≠ none ∧
      ((Example.manager [.computeDomain Example.deleting]).onAddOrUpdate
          (.computeDomain Example.deleting) Example.idle).1 = .ok () ∧
      ((Example.manager [.computeDomain Example.deleting]).onAddOrUpdate
          (.computeDomain Example.deleting) Example.idle).2.calls
        = Example.idle.calls ++ teardownSteps Example.deleting.UID :=
  ⟨by decide,
    onAddOrUpdate_teardown_order (Example.manager [.computeDomain Example.deleting])
      Example.deleting Example.idle (by decide) (by decide)⟩

/-- C2: for a ComputeDomain with a deletion timestamp and every `k` from 1 to 8, if the
`k`-th teardown invocation is the first one to fail, `onAddOrUpdate` returns an error and has
made exactly the first `k` invocations and none of the later ones; when `k` is below 8 the
domain's own `RemoveFinalizer` has not been invoked and no update has been submitted. -/
theorem onAddOrUpdate_teardown_abort (m : ComputeDomainManager) (cd : ComputeDomain)
    (s : State) (k : Nat) (e : GoError)
    (hdel : cd.DeletionTimestamp ≠ none) (hk1 : 1 ≤ k) (hk8 : k ≤ 8)
    (hprev : ∀ j, j + 1 < k → teardownOutcome m cd.UID s j = none)
    (hfail : teardownOutcome m cd.UID s (k - 1) = some e) :
    (∃ e', (m.onAddOrUpdate (.computeDomain cd) s).1 = .error e') ∧
      (m.onAddOrUpdate (.computeDomain cd) s).2.calls
        = s.calls ++ (teardownSteps cd.UID).take k ∧
      (k < 8 → Call.cdRemoveFinalizer cd.UID ∉ (teardownSteps cd.UID).take k ∧
        (m.onAddOrUpdate (.computeDomain cd) s).2.updates = s.updates) := by
  have h0 := hprev 0
  have h1 := hprev 1
  have h2 := hprev 2
  have h3 := hprev 3
  have h4 := hprev 4
  have h5 := hprev 5
  have h6 := hprev 6
  have hd : cd.DeletionTimestamp.isSome = true := by
    cases h : cd.DeletionTimestamp with
    | none => exact absurd h hdel
    | some _ => rfl
  have hc := RemoveFinalizer_calls m cd.UID { s with calls := s.calls ++ teardownSteps cd.UID }
  clear hprev
  obtain hk | hk : k < 8 ∨ k = 8 := by omega
  · interval_cases k <;>
      simp only [teardownOutcome, Nat.reduceAdd, Nat.reduceLT, Nat.reduceSub, Nat.lt_irrefl,
        forall_true_left, false_implies] at h0 h1 h2 h3 h4 h5 h6 hfail <;>
      simp only [ComputeDomainManager.onAddOrUpdate, hd, invoke, h0, h1, h2, h3, h4, h5, h6,
        hfail, if_true, Act.bind_run, Act.mapErr_run, Act.modify_run, Act.ofErr_none,
        Act.ofErr_some, Act.pure_run, List.append_assoc, List.cons_append, List.nil_append,
        teardownSteps, List.take_succ_cons, List.take_zero, List.take_nil] <;>
      exact ⟨⟨_, rfl⟩, trivial, fun _ => ⟨by simp, trivial⟩⟩
  · subst hk
    simp only [teardownOutcome, Nat.reduceAdd, Nat.reduceLT, Nat.reduceSub,
      forall_true_left] at h0 h1 h2 h3 h4 h5 h6 hfail
    simp only [ComputeDomainManager.onAddOrUpdate, hd, invoke, h0, h1, h2, h3, h4, h5, h6,
      if_true, Act.bind_run, Act.mapErr_run, Act.modify_run, Act.ofErr_none,
      Act.pure_run, List.append_assoc, List.cons_append, List.nil_append,
      teardownSteps, List.take_succ_cons, List.take_zero, List.take_nil]
    simp only [teardownSteps] at hc hfail
    generalize m.RemoveFinalizer cd.UID _ = r at hfail hc ⊢
    obtain ⟨res, s1⟩ := r
    cases res with
    | ok u => simp at hfail
    | error e1 => exact ⟨⟨_, rfl⟩, hc, fun h => absurd h (by norm_num)⟩

/-- The teardown of `Example.deleting` when the fifth invocation fails. -/
theorem onAddOrUpdate_teardown_abort_witness :
    Example.deleting.DeletionTimestamp ≠ none ∧
      teardownOutcome Example.stuckManager Example.deleting.UID Example.idle (5 - 1)
        = some (.new "still present") ∧
      (Example.stuckManager.onAddOrUpdate (.computeDomain Example.deleting) Example.idle).2.calls
        = Example.idle.calls ++ (teardownSteps Example.deleting.UID).take 5 :=
  ⟨by decide, by decide,
    (onAddOrUpdate_teardown_abort Example.stuckManager Example.deleting Example.idle 5
      (.new "still present") (by decide) (by decide) (by decide)
      (by intro j hj; have hj4 : j < 4 := by omega
          interval_cases j <;> rfl) (by decide)).2.1⟩

theorem addFinalizer_calls (m : ComputeDomainManager) (cd : ComputeDomain) (s : State) :
    (m.addFinalizer cd s).2.calls = s.calls := by
  unfold ComputeDomainManager.addFinalizer submitUpdate
  split
  · rfl
  · simp only [Act.mapErr_run, Act.bind_run, Act.modify_run]
    cases m.update cd.Namespace _ <;> rfl

/-- C18: for a ComputeDomain without a deletion timestamp, `onAddOrUpdate` adds the
finalizer: unless the domain already holds it, it submits one update that carries the
finalizer list with the driver's finalizer appended, and it submits no other update.  The
invocations it makes are an initial part of: add the finalizer, trigger the stale-label
sweep, create the daemon workload, create the claim-template, so none of them is a `Delete`,
`RemoveFinalizer` or `AssertRemoved`.  If the update that adds the finalizer fails, it returns
an error having invoked nothing after `addFinalizer`; if the daemon workload creation fails
it returns an error without invoking the claim-template creation; otherwise all four are
invoked, and it returns success exactly when the claim-template creation does. -/
theorem onAddOrUpdate_setup_order (m : ComputeDomainManager) (cd : ComputeDomain) (s : State)
    (hlive : cd.DeletionTimestamp = none) :
    (∃ k, (m.onAddOrUpdate (.computeDomain cd) s).2.calls
        = s.calls ++ (setupSteps m cd).take k) ∧
      (∀ c ∈ (m.onAddOrUpdate (.computeDomain cd) s).2.calls.drop s.calls.length,
        c.isTeardown = false) ∧
      (m.onAddOrUpdate (.computeDomain cd) s).2.updates
        = s.updates ++
          (if computeDomainFinalizer ∈ cd.Finalizers then []
            else [(cd.Namespace,
              { cd with Finalizers := cd.Finalizers ++ [computeDomainFinalizer] })]) ∧
      (computeDomainFinalizer ∉ cd.Finalizers →
        ∀ e, m.update cd.Namespace
            { cd with Finalizers := cd.Finalizers ++ [computeDomainFinalizer] } = some e →
          (∃ e1, (m.onAddOrUpdate (.computeDomain cd) s).1 = .error e1) ∧
            (m.onAddOrUpdate (.computeDomain cd) s).2.calls
              = s.calls ++ [.cdAddFinalizer cd]) ∧
      ((computeDomainFinalizer ∈ cd.Finalizers ∨
          m.update cd.Namespace
            { cd with Finalizers := cd.Finalizers ++ [computeDomainFinalizer] } = none) →
        (∀ e, m.dsCreate m.driverNamespace cd = some e →
          (∃ e1, (m.onAddOrUpdate (.computeDomain cd) s).1 = .error e1) ∧
            (m.onAddOrUpdate (.computeDomain cd) s).2.calls
              = s.calls ++ (setupSteps m cd).take 3) ∧
        (m.dsCreate m.driverNamespace cd = none →
          (m.onAddOrUpdate (.computeDomain cd) s).2.calls = s.calls ++ setupSteps m cd ∧
            ((m.onAddOrUpdate (.computeDomain cd) s).1 = .ok () ↔
              m.rctCreate cd.Namespace cd.ResourceClaimTemplateName cd = none))) := by
  have hsome : cd.DeletionTimestamp.isSome = false := by rw [hlive]; rfl
  by_cases hmem : computeDomainFinalizer ∈ cd.Finalizers
  · have hany : cd.Finalizers.any (fun f => f == computeDomainFinalizer) = true := by
      simpa using hmem
    simp only [ComputeDomainManager.onAddOrUpdate, hsome,
      Bool.false_eq_true, if_false, invoke, Act.bind_run, Act.mapErr_run, Act.modify_run,
      Act.pure_run, setupSteps, ComputeDomainManager.addFinalizer, hany, if_true, hmem,
      List.append_nil, List.append_assoc, List.cons_append, List.nil_append]
    cases hds : m.dsCreate m.driverNamespace cd with
    | some e =>
      simp only [Act.ofErr_some]
      refine ⟨⟨3, by simp⟩, ?_, trivial, ?_, ?_⟩
      · simp [Call.isTeardown]
      · intro h; exact absurd trivial h
      · intro _
        exact ⟨fun e1 _ => ⟨⟨_, rfl⟩, by simp⟩, fun h => by simp at h⟩
    | none =>
      simp only [Act.ofErr_none]
      cases hrct : m.rctCreate cd.Namespace cd.ResourceClaimTemplateName cd with
      | some e =>
        simp only [Act.ofErr_some]
        refine ⟨⟨4, by simp⟩, ?_, trivial, ?_, ?_⟩
        · simp [Call.isTeardown]
        · intro h; exact absurd trivial h
        · intro _
          exact ⟨fun e1 h => by simp at h, fun _ => ⟨by simp, by simp⟩⟩
      | none =>
        simp only [Act.ofErr_none]
        refine ⟨⟨4, by simp⟩, ?_, trivial, ?_, ?_⟩
        · simp [Call.isTeardown]
        · intro h; exact absurd trivial h
        · intro _
          exact ⟨fun e1 h => by simp at h, fun _ => ⟨by simp, by simp⟩⟩
  · have hany : ¬ cd.Finalizers.any (fun f => f == computeDomainFinalizer) = true := by
      simpa using hmem
    simp only [ComputeDomainManager.onAddOrUpdate, hsome,
      Bool.false_eq_true, if_false, invoke, Act.bind_run, Act.mapErr_run, Act.modify_run,
      Act.pure_run, setupSteps, ComputeDomainManager.addFinalizer, hany, hmem, submitUpdate,
      List.append_assoc, List.cons_append, List.nil_append, false_or]
    cases hup : m.update cd.Namespace
        { cd with Finalizers := cd.Finalizers ++ [computeDomainFinalizer] } with
    | some e =>
      simp only [Act.ofErr_some]
      refine ⟨⟨1, by simp⟩, ?_, trivial, ?_, ?_⟩
      · simp [Call.isTeardown]
      · intro _ e1 _; exact ⟨⟨_, rfl⟩, by simp⟩
      · intro h; simp at h
    | none =>
      simp only [Act.ofErr_none]
      cases hds : m.dsCreate m.driverNamespace cd with
      | some e =>
        simp only [Act.ofErr_some]
        refine ⟨⟨3, by simp⟩, ?_, trivial, ?_, ?_⟩
        · simp [Call.isTeardown]
        · intro _ e1 h; simp at h
        · intro _
          exact ⟨fun e1 _ => ⟨⟨_, rfl⟩, by simp⟩, fun h => by simp at h⟩
      | none =>
        simp only [Act.ofErr_none]
        cases hrct : m.rctCreate cd.Namespace cd.ResourceClaimTemplateName cd with
        | some e =>
          simp only [Act.ofErr_some]
          refine ⟨⟨4, by simp⟩, ?_, trivial, ?_, ?_⟩
          · simp [Call.isTeardown]
          · intro _ e1 h; simp at h
          · intro _
            exact ⟨fun e1 h => by simp at h, fun _ => ⟨by simp, by simp⟩⟩
        | none =>
          simp only [Act.ofErr_none]
          refine ⟨⟨4, by simp⟩, ?_, trivial, ?_, ?_⟩
          · simp [Call.isTeardown]
          · intro _ e1 h; simp at h
          · intro _
            exact ⟨fun e1 h => by simp at h, fun _ => ⟨by simp, by simp⟩⟩

/-- The set-up of `Example.fresh` with collaborators that all succeed: the finalizer is
added by one update, and the four invocations are made in order. -/
theorem onAddOrUpdate_setup_order_witness :
    Example.fresh.DeletionTimestamp = none ∧
      ((Example.manager []).onAddOrUpdate (.computeDomain Example.fresh) Example.idle).2.updates
        = [("ns", { Example.fresh with Finalizers := ["other", computeDomainFinalizer] })] ∧
      ((Example.manager []).onAddOrUpdate (.computeDomain Example.fresh) Example.idle).2.calls
        = Example.idle.calls ++ setupSteps (Example.manager []) Example.fresh :=
  ⟨rfl,
    by
      rw [(onAddOrUpdate_setup_order (Example.manager []) Example.fresh Example.idle rfl).2.2.1]
      decide,
    ((onAddOrUpdate_setup_order (Example.manager []) Example.fresh Example.idle rfl).2.2.2.2
      (Or.inr (by decide))).2 (by decide) |>.1⟩

/-- C19: for a finalizer list that holds the driver's finalizer at most once, the list after
`addFinalizer` holds it exactly once.  If it is present, no update is issued and the list
stays; otherwise the one update submitted carries the old list with the driver's finalizer
appended (all other finalizers kept, in order), and `addFinalizer` succeeds exactly when that
update does. -/
theorem addFinalizer_exactly_once (m : ComputeDomainManager) (cd : ComputeDomain) (s : State)
    (hcount : cd.Finalizers.count computeDomainFinalizer ≤ 1) :
    (computeDomainFinalizer ∈ cd.Finalizers →
        m.addFinalizer cd s = (.ok (), s) ∧
          cd.Finalizers.count computeDomainFinalizer = 1) ∧
      (computeDomainFinalizer ∉ cd.Finalizers →
        (m.addFinalizer cd s).2
            = { s with
                updates := s.updates ++
                  [(cd.Namespace,
                    { cd with Finalizers := cd.Finalizers ++ [computeDomainFinalizer] })] } ∧
          (cd.Finalizers ++ [computeDomainFinalizer]).count computeDomainFinalizer = 1 ∧
          ((m.addFinalizer cd s).1 = .ok () ↔
            m.update cd.Namespace
              { cd with Finalizers := cd.Finalizers ++ [computeDomainFinalizer] } = none)) := by
  constructor
  · intro hmem
    have hany : cd.Finalizers.any (fun f => f == computeDomainFinalizer) = true := by
      simpa using hmem
    refine ⟨by simp [ComputeDomainManager.addFinalizer, hany], ?_⟩
    have := List.count_pos_iff.2 hmem
    omega
  · intro hmem
    have hany : ¬ cd.Finalizers.any (fun f => f == computeDomainFinalizer) = true := by
      simpa using hmem
    simp only [ComputeDomainManager.addFinalizer, hany, if_false, submitUpdate, Act.mapErr_run,
      Act.bind_run, Act.modify_run]
    refine ⟨?_, ?_, ?_⟩
    · cases m.update cd.Namespace _ <;> rfl
    · simp [List.count_append, List.count_eq_zero_of_not_mem hmem]
    · cases m.update cd.Namespace _ <;> simp

/-- The driver's finalizer is added to `Example.fresh`, which does not hold it. -/
theorem addFinalizer_exactly_once_witness :
    Example.fresh.Finalizers.count computeDomainFinalizer ≤ 1 ∧
      ((Example.manager []).addFinalizer Example.fresh Example.idle).2.updates
        = [("ns", { Example.fresh with Finalizers := ["other", computeDomainFinalizer] })] :=
  ⟨by decide,
    by
      rw [((addFinalizer_exactly_once (Example.manager []) Example.fresh Example.idle
        (by decide)).2 (by decide)).1]
      rfl⟩

theorem Get_of_cached (m : ComputeDomainManager) (uid : String) (cd : ComputeDomain)
    (h : m.byIndex uid = .ok [.computeDomain cd]) : m.Get uid = .ok (some cd) := by
  simp [ComputeDomainManager.Get, h]

/-- C20: for a cached ComputeDomain with a deletion timestamp, `RemoveFinalizer` submits one
update whose finalizer list is the original list with every occurrence of the driver's
finalizer removed and all other finalizers kept in their order; when the driver's finalizer
does not occur it issues no update and returns success.  Hence, once the cache holds the
domain as submitted, a repeated removal is a no-op. -/
theorem RemoveFinalizer_filters (m : ComputeDomainManager) (uid : String) (cd : ComputeDomain)
    (s : State) (hcached : m.byIndex uid = .ok [.computeDomain cd])
    (hdel : cd.DeletionTimestamp ≠ none) :
    (computeDomainFinalizer ∈ cd.Finalizers →
        (m.RemoveFinalizer uid s).2
            = { s with
                updates := s.updates ++
                  [(cd.Namespace,
                    { cd with
                      Finalizers := cd.Finalizers.filter
                        (fun f => f ≠ computeDomainFinalizer) })] } ∧
          ((m.RemoveFinalizer uid s).1 = .ok () ↔
            m.update cd.Namespace
              { cd with
                Finalizers := cd.Finalizers.filter
                  (fun f => f ≠ computeDomainFinalizer) } = none)) ∧
      (computeDomainFinalizer ∉ cd.Finalizers → m.RemoveFinalizer uid s = (.ok (), s)) ∧
      (∀ (m2 : ComputeDomainManager) (s2 : State),
        m2.byIndex uid = .ok [.computeDomain
          { cd with
            Finalizers := cd.Finalizers.filter (fun f => f ≠ computeDomainFinalizer) }] →
        m2.RemoveFinalizer uid s2 = (.ok (), s2)) := by
  have hsome : cd.DeletionTimestamp.isNone = false := by
    cases h : cd.DeletionTimestamp with
    | none => exact absurd h hdel
    | some _ => rfl
  have noop : ∀ (m2 : ComputeDomainManager) (s2 : State) (cd2 : ComputeDomain),
      m2.byIndex uid = .ok [.computeDomain cd2] → cd2.DeletionTimestamp.isNone = false →
      computeDomainFinalizer ∉ cd2.Finalizers → m2.RemoveFinalizer uid s2 = (.ok (), s2) := by
    intro m2 s2 cd2 h2 hd2 hmem
    have hfil : cd2.Finalizers.filter (fun f => f ≠ computeDomainFinalizer) = cd2.Finalizers := by
      rw [List.filter_eq_self]
      intro f hf
      have hne : f ≠ computeDomainFinalizer := fun h => hmem (h ▸ hf)
      simpa using hne
    simp only [ComputeDomainManager.RemoveFinalizer, Get_of_cached m2 uid cd2 h2, Act.bind_run,
      Act.mapErr_run, Act.ofExcept_run, hd2, Bool.false_eq_true, if_false, hfil, if_true,
      Act.pure_run]
  refine ⟨?_, noop m s cd hcached hsome, ?_⟩
  · intro hmem
    have hlen : ¬ cd.Finalizers.length
        = (cd.Finalizers.filter (fun f => f ≠ computeDomainFinalizer)).length := by
      intro h
      have hfil := List.filter_length_eq_length.1 h.symm
      simpa using hfil _ hmem
    simp only [ComputeDomainManager.RemoveFinalizer, Get_of_cached m uid cd hcached,
      Act.bind_run, Act.mapErr_run, Act.ofExcept_run, hsome, Bool.false_eq_true, if_false,
      hlen, submitUpdate, Act.modify_run]
    constructor
    · cases m.update cd.Namespace _ <;> rfl
    · cases m.update cd.Namespace _ <;> simp
  · intro m2 s2 h2
    exact noop m2 s2 _ h2 hsome (by simp)

/-- The driver's finalizer is removed from `Example.deleting`, the other one stays. -/
theorem RemoveFinalizer_filters_witness :
    (Example.manager [.computeDomain Example.deleting]).byIndex "uid-1"
        = .ok [.computeDomain Example.deleting] ∧
      Example.deleting.DeletionTimestamp ≠ none ∧
      ((Example.manager [.computeDomain Example.deleting]).RemoveFinalizer "uid-1"
          Example.idle).2.updates
        = [("ns", { Example.deleting with Finalizers := ["other"] })] :=
  ⟨rfl, by decide,
    by
      rw [((RemoveFinalizer_filters (Example.manager [.computeDomain Example.deleting]) "uid-1"
        Example.deleting Example.idle rfl (by decide)).1 (by decide)).1]
      rfl⟩

/-! ### The lookup `Get` and the guard of `RemoveFinalizer` -/

/-- C21: when the cache index answers the lookup of `uid` with the objects `cds`, `Get`
returns `(nil, nil)` (no domain, no error) if `cds` is empty, returns the domain if `cds`
holds exactly one ComputeDomain, and returns an error if `cds` holds more than one
object. -/
theorem Get_by_count (m : ComputeDomainManager) (uid : String) (cds : List Obj)
    (hidx : m.byIndex uid = .ok cds) :
    (cds = [] → m.Get uid = .ok none) ∧
      (∀ cd, cds = [.computeDomain cd] → m.Get uid = .ok (some cd)) ∧
      (2 ≤ cds.length →
        m.Get uid = .error (.new "multiple ComputeDomains with the same UID")) := by
  refine ⟨?_, ?_, ?_⟩
  · intro h
    simp [ComputeDomainManager.Get, hidx, h]
  · intro cd h
    simp [ComputeDomainManager.Get, hidx, h]
  · intro h
    have h0 : cds.length ≠ 0 := by omega
    have h1 : cds.length ≠ 1 := by omega
    simp [ComputeDomainManager.Get, hidx, h0, h1]

/-- An empty cache, a cache with the domain `deleting`, and a cache that holds it twice. -/
theorem Get_by_count_witness :
    (Example.manager []).Get "uid-1" = .ok none ∧
      (Example.manager [.computeDomain Example.deleting]).Get "uid-1"
        = .ok (some Example.deleting) ∧
      (Example.manager [.computeDomain Example.deleting, .computeDomain Example.deleting]).Get
          "uid-1"
        = .error (.new "multiple ComputeDomains with the same UID") :=
  ⟨(Get_by_count (Example.manager []) "uid-1" [] rfl).1 rfl,
    (Get_by_count (Example.manager [.computeDomain Example.deleting]) "uid-1" _ rfl).2.1
      Example.deleting rfl,
    (Get_by_count
      (Example.manager [.computeDomain Example.deleting, .computeDomain Example.deleting])
      "uid-1" _ rfl).2.2 (by decide)⟩

/-- C25: when the cache index answers the lookup of `uid` with the objects `cds`: if `cds`
is one ComputeDomain without deletion timestamp, `RemoveFinalizer` returns an error and
leaves the reconciler state as it is (no update is submitted, so the finalizer stays); if
`cds` is empty, it returns success and leaves the state as it is. -/
theorem RemoveFinalizer_guard (m : ComputeDomainManager) (uid : String) (cds : List Obj)
    (s : State) (hidx : m.byIndex uid = .ok cds) :
    (∀ cd, cds = [.computeDomain cd] → cd.DeletionTimestamp = none →
        m.RemoveFinalizer uid s
          = (.error (.new
              "attempting to remove finalizer before ComputeDomain marked for deletion"), s)) ∧
      (cds = [] → m.RemoveFinalizer uid s = (.ok (), s)) := by
  constructor
  · intro cd hcds hlive
    have hget : m.Get uid = .ok (some cd) := Get_of_cached m uid cd (hcds ▸ hidx)
    simp [ComputeDomainManager.RemoveFinalizer, hget, hlive, Act.bind_run, Act.mapErr_run,
      Act.ofExcept_run, Act.fail_run]
  · intro hcds
    have hget : m.Get uid = .ok none := by
      simp [ComputeDomainManager.Get, hidx, hcds]
    simp [ComputeDomainManager.RemoveFinalizer, hget, Act.bind_run, Act.mapErr_run,
      Act.ofExcept_run, Act.pure_run]

/-- A cached domain that holds the finalizer and is not marked for deletion, and an empty
cache. -/
theorem RemoveFinalizer_guard_witness :
    (Example.manager [.computeDomain Example.active]).RemoveFinalizer "uid-3" Example.idle
        = (.error (.new
            "attempting to remove finalizer before ComputeDomain marked for deletion"),
            Example.idle) ∧
      (Example.manager []).RemoveFinalizer "uid-3" Example.idle = (.ok (), Example.idle) :=
  ⟨(RemoveFinalizer_guard (Example.manager [.computeDomain Example.active]) "uid-3" _
      Example.idle rfl).1 Example.active rfl rfl,
    (RemoveFinalizer_guard (Example.manager []) "uid-3" [] Example.idle rfl).2 rfl⟩

end Controller

namespace Plugin

/-! ### Frame lemmas: which bodies leave the checkpoint alone -/

section frames

variable {α β : Type} {P : Call → Prop}

theorem Frames.mono {Q : Call → Prop} {x : Act Node α} (h : Frames P x)
    (hPQ : ∀ c, P c → Q c) : Frames Q x := by
  intro n
  obtain ⟨h1, evs, h2, h3⟩ := h n
  exact ⟨h1, evs, h2, fun ev hev => hPQ _ (h3 ev hev)⟩

theorem frames_pure (a : α) : Frames P (pure a : Act Node α) :=
  fun n => ⟨rfl, [], by simp, by simp⟩

theorem frames_fail (e : GoError) : Frames P (Act.fail e : Act Node α) :=
  fun n => ⟨rfl, [], by simp, by simp⟩

theorem frames_ofExcept (r : Except GoError α) : Frames P (Act.ofExcept r : Act Node α) :=
  fun n => ⟨rfl, [], by simp, by simp⟩

theorem frames_ofErr (r : Option GoError) : Frames P (Act.ofErr r : Act Node Unit) := by
  intro n
  cases r <;> exact ⟨rfl, [], by simp, by simp⟩

theorem frames_bind {x : Act Node α} {f : α → Act Node β} (hx : Frames P x)
    (hf : ∀ a, Frames P (f a)) : Frames P (x >>= f) := by
  intro n
  obtain ⟨h1, evs, h2, h3⟩ := hx n
  rw [Act.bind_run]
  rcases hxn : x n with ⟨_ | a, n1⟩
  · rw [hxn] at h1 h2
    exact ⟨h1, evs, h2, h3⟩
  · rw [hxn] at h1 h2
    obtain ⟨g1, evs', g2, g3⟩ := hf a n1
    refine ⟨g1.trans h1, evs ++ evs', ?_, ?_⟩
    · simp only [g2]
      simp only [] at h2
      rw [h2, List.append_assoc]
    · intro ev hev
      rcases List.mem_append.1 hev with h | h
      · exact h3 ev h
      · exact g3 ev h

theorem frames_mapErr (f : GoError → GoError) {x : Act Node α} (hx : Frames P x) :
    Frames P (Act.mapErr f x) := by
  intro n
  obtain ⟨h1, evs, h2, h3⟩ := hx n
  rw [Act.mapErr_run]
  rcases hxn : x n with ⟨_ | a, n1⟩ <;> rw [hxn] at h1 h2 <;> exact ⟨h1, evs, h2, h3⟩

theorem frames_call (c : Call) (answer : Answer (Option GoError)) (hc : P c) :
    Frames P (call c answer) := by
  intro n
  unfold call
  cases answer n.trace <;> exact ⟨rfl, [_], rfl, by simpa using hc⟩

theorem frames_callV (c : Call) (answer : Answer (Except GoError α)) (hc : P c) :
    Frames P (callV c answer) := by
  intro n
  unfold callV
  cases answer n.trace <;> exact ⟨rfl, [_], rfl, by simpa using hc⟩

end frames

theorem frames_applyChannel_loop (s : DeviceState) (config : ComputeDomainChannelConfig)
    (claim : ResourceClaim) :
    ∀ (results : List DeviceRequestAllocationResult) (configState : DeviceConfigState),
      Frames (fun c => c.isDeviceSetup = true)
        (DeviceState.applyComputeDomainChannelConfig.loop s config claim configState results)
  | [], _ => frames_pure _
  | r :: rest, configState => by
    unfold DeviceState.applyComputeDomainChannelConfig.loop
    refine frames_bind ?_ fun channel => ?_
    · cases s.allocatable r.Device
      · exact frames_fail _
      · exact frames_pure _
    refine frames_bind (frames_mapErr _ (frames_call _ _ rfl)) fun _ => ?_
    refine frames_bind (frames_mapErr _ (frames_call _ _ rfl)) fun _ => ?_
    refine frames_bind (frames_mapErr _ (frames_call _ _ rfl)) fun _ => ?_
    split
    · cases channel with
      | none => exact frames_fail _
      | some ch =>
        exact frames_bind (frames_mapErr _ (frames_call _ _ rfl)) fun _ =>
          frames_applyChannel_loop s config claim rest _
    · exact frames_applyChannel_loop s config claim rest _

theorem frames_applyDaemon (s : DeviceState) (config : ComputeDomainDaemonConfig)
    (claim : ResourceClaim) (results : List DeviceRequestAllocationResult) :
    Frames (fun c => c.isDeviceSetup = true)
      (s.applyComputeDomainDaemonConfig config claim results) := by
  unfold DeviceState.applyComputeDomainDaemonConfig
  dsimp only
  split
  · exact frames_fail _
  · split
    · refine frames_bind (frames_mapErr _ (frames_callV _ _ rfl)) fun _ => ?_
      refine frames_bind (frames_mapErr _ (frames_call _ _ rfl)) fun _ => ?_
      refine frames_bind (frames_mapErr _ (frames_call _ _ rfl)) fun _ => ?_
      exact frames_bind (frames_mapErr _ (frames_callV _ _ rfl)) fun _ => frames_pure _
    · exact frames_pure _

theorem frames_applyConfig (s : DeviceState) (config : Interface) (claim : ResourceClaim)
    (results : List DeviceRequestAllocationResult) :
    Frames (fun c => c.isDeviceSetup = true) (s.applyConfig config claim results) := by
  cases config with
  | channel c => exact frames_applyChannel_loop s c claim results _
  | daemon c => exact frames_applyDaemon s c claim results

theorem frames_applyAll (s : DeviceState) (claim : ResourceClaim) :
    ∀ (entries : ConfigResultsMap) (states : List (Nat × DeviceConfigState)),
      Frames (fun c => c.isDeviceSetup = true)
        (DeviceState.prepareDevices.applyAll s claim states entries)
  | [], _ => frames_pure _
  | (i, c, results) :: rest, states => by
    unfold DeviceState.prepareDevices.applyAll
    refine frames_bind ?_ fun config => ?_
    · cases c
      · exact frames_pure _
      · exact frames_pure _
      · exact frames_fail _
    refine frames_bind (frames_mapErr _ (frames_ofExcept _)) fun config1 => ?_
    refine frames_bind (frames_mapErr _ (frames_ofErr _)) fun _ => ?_
    refine frames_bind (frames_mapErr _ (frames_applyConfig s _ claim results)) fun _ => ?_
    exact frames_applyAll s claim rest _

theorem frames_prepareDevices (s : DeviceState) (claim : ResourceClaim) :
    Frames (fun c => c.isDeviceSetup = true) (s.prepareDevices claim) := by
  unfold DeviceState.prepareDevices
  refine frames_bind (frames_mapErr _ (frames_ofExcept _)) fun m => ?_
  exact frames_bind (frames_applyAll s claim _ _) fun _ => frames_ofExcept _

theorem frames_CreateClaimSpecFile (cdi : CDIHandler) (claimUID : String)
    (preparedDevices : PreparedDevices) :
    Frames (fun c => c.isCDIWrite = true) (cdi.CreateClaimSpecFile claimUID preparedDevices) := by
  cases cdi with
  | mock => exact frames_pure _
  | real h =>
    unfold CDIHandler.CreateClaimSpecFile RealCDIHandler.CreateClaimSpecFile
    dsimp only
    split
    · exact frames_pure _
    · refine frames_bind (frames_mapErr _ (frames_ofErr _)) fun _ => ?_
      refine frames_bind (frames_mapErr _ (frames_ofExcept _)) fun _ => ?_
      refine frames_bind (frames_mapErr _ (frames_ofExcept _)) fun _ => ?_
      exact frames_call _ _ rfl

theorem frames_DeleteClaimSpecFile (cdi : CDIHandler) (claimUID : String) :
    Frames (fun c => c.isCDIRemove = true) (cdi.DeleteClaimSpecFile claimUID) := by
  cases cdi with
  | mock => exact frames_pure _
  | real h => exact frames_call (P := fun c => c.isCDIRemove = true) _ _ rfl

theorem frames_unprepare_loop (s : DeviceState) :
    ∀ entries : ConfigResultsMap,
      Frames (fun c => c.isDeviceTeardown = true) (DeviceState.unprepareDevices.loop s entries)
  | [] => frames_pure _
  | (_, c, _) :: rest => by
    unfold DeviceState.unprepareDevices.loop
    refine frames_bind ?_ fun _ => frames_unprepare_loop s rest
    cases c
    · exact frames_mapErr _ (frames_call _ _ rfl)
    · exact frames_mapErr _ (frames_call _ _ rfl)
    · exact frames_pure _

theorem frames_unprepareDevices (s : DeviceState) (cs : ResourceClaimStatus) :
    Frames (fun c => c.isDeviceTeardown = true) (s.unprepareDevices cs) := by
  unfold DeviceState.unprepareDevices
  exact frames_bind (frames_mapErr _ (frames_ofExcept _)) fun m => frames_unprepare_loop s _

theorem frames_Unprepare_status (s : DeviceState) (claimRef : NamespacedObject)
    (pc : PreparedClaim) :
    Frames (fun c => c.isGetResourceClaim = true)
      (DeviceState.Unprepare.status s claimRef pc) := by
  unfold DeviceState.Unprepare.status
  split
  · exact frames_pure _
  · refine frames_bind (frames_mapErr _ (frames_callV _ _ rfl)) fun claim => ?_
    split
    · exact frames_fail _
    · exact frames_pure _

/-! ### The checkpoint map -/

theorem Checkpoint.get?_set_self (cp : Checkpoint) (uid : String) (pc : PreparedClaim) :
    (cp.set uid pc).get? uid = some pc := by
  induction cp with
  | nil => simp [Checkpoint.set, Checkpoint.get?, List.lookup]
  | cons kv rest ih =>
    obtain ⟨k, v⟩ := kv
    by_cases h : k = uid
    · simp [Checkpoint.set, Checkpoint.get?, List.lookup, h]
    · have h' : (uid == k) = false := by simpa using fun h1 => h h1.symm
      simpa [Checkpoint.set, Checkpoint.get?, List.lookup, h, h'] using ih

theorem Checkpoint.get?_set_other (cp : Checkpoint) (uid : String) (pc : PreparedClaim)
    (uid' : String) (h : uid' ≠ uid) : (cp.set uid pc).get? uid' = cp.get? uid' := by
  induction cp with
  | nil =>
    have h' : (uid' == uid) = false := by simpa using h
    simp [Checkpoint.set, Checkpoint.get?, List.lookup, h']
  | cons kv rest ih =>
    obtain ⟨k, v⟩ := kv
    by_cases hk : k = uid
    · subst hk
      have h' : (uid' == k) = false := by simpa using h
      simp [Checkpoint.set, Checkpoint.get?, List.lookup, h']
    · simp only [Checkpoint.set, hk, if_false, Checkpoint.get?, List.lookup]
      cases uid' == k
      · exact ih
      · rfl

theorem Checkpoint.set_of_absent (cp : Checkpoint) (uid : String) (pc : PreparedClaim)
    (h : cp.get? uid = none) : cp.set uid pc = cp ++ [(uid, pc)] := by
  induction cp with
  | nil => rfl
  | cons kv rest ih =>
    obtain ⟨k, v⟩ := kv
    simp only [Checkpoint.get?, List.lookup] at h
    cases hk : uid == k with
    | true => simp [hk] at h
    | false =>
      rw [hk] at h
      have hne : ¬ k = uid := fun h1 => by simp [h1] at hk
      simp only [Checkpoint.set, hne, if_false, List.cons_append]
      rw [ih h]

theorem Checkpoint.get?_delete_self (cp : Checkpoint) (uid : String) :
    (cp.delete uid).get? uid = none := by
  induction cp with
  | nil => rfl
  | cons kv rest ih =>
    obtain ⟨k, v⟩ := kv
    by_cases hk : k = uid
    · simpa [Checkpoint.delete, List.filter, hk] using ih
    · have h' : (uid == k) = false := by simpa using fun h1 => hk h1.symm
      simpa [Checkpoint.delete, List.filter, hk, Checkpoint.get?, List.lookup, h'] using ih

theorem Checkpoint.get?_delete_other (cp : Checkpoint) (uid uid' : String) (h : uid' ≠ uid) :
    (cp.delete uid).get? uid' = cp.get? uid' := by
  induction cp with
  | nil => rfl
  | cons kv rest ih =>
    obtain ⟨k, v⟩ := kv
    by_cases hk : k = uid
    · subst hk
      have h' : (uid' == k) = false := by simpa using h
      simpa [Checkpoint.delete, List.filter, Checkpoint.get?, List.lookup, h'] using ih
    · have hd : decide (k ≠ uid) = true := by simpa using hk
      simp only [Checkpoint.delete, List.filter, hd, Checkpoint.get?, List.lookup]
      cases uid' == k
      · exact ih
      · rfl

/-! ### `Prepare` and `Unprepare`, statement by statement -/

theorem Prepare_unfold (s : DeviceState) (claim : ResourceClaim) (n : Node) :
    s.Prepare claim n =
      match s.checkpointManager.GetCheckpoint n.trace with
      | some e =>
        (.error (e.wrapW "unable to get checkpoint"),
          { n with trace := n.trace ++ [⟨.getCheckpoint, false⟩] })
      | none =>
        match n.checkpoint.get? claim.UID with
        | some pc =>
          (.ok pc.PreparedDevices.GetDevices,
            { n with trace := n.trace ++ [⟨.getCheckpoint, true⟩] })
        | none =>
          match s.prepareDevices claim { n with trace := n.trace ++ [⟨.getCheckpoint, true⟩] } with
          | (.error e, n1) => (.error (e.wrapW "prepare devices failed"), n1)
          | (.ok pd, n1) =>
            match s.cdi.CreateClaimSpecFile claim.UID pd n1 with
            | (.error e, n2) =>
              (.error (e.wrapW "unable to create CDI spec file for claim"), n2)
            | (.ok _, n2) =>
              match s.checkpointManager.CreateCheckpoint n2.trace
                  (n.checkpoint.set claim.UID ⟨claim.Status, pd⟩) with
              | some e =>
                (.error (e.wrapW "unable to create checkpoint"),
                  { n2 with trace := n2.trace ++
                      [⟨.createCheckpoint (n.checkpoint.set claim.UID ⟨claim.Status, pd⟩),
                        false⟩] })
              | none =>
                (.ok pd.GetDevices,
                  { checkpoint := n.checkpoint.set claim.UID ⟨claim.Status, pd⟩
                    trace := n2.trace ++
                      [⟨.createCheckpoint (n.checkpoint.set claim.UID ⟨claim.Status, pd⟩),
                        true⟩] }) := by
  unfold DeviceState.Prepare
  simp only [Act.bind_run, Act.mapErr_run, DeviceState.GetCheckpoint]
  cases s.checkpointManager.GetCheckpoint n.trace with
  | some e => rfl
  | none =>
    dsimp only
    cases n.checkpoint.get? claim.UID with
    | some pc => rfl
    | none =>
      simp only [Act.bind_run, Act.mapErr_run]
      rcases s.prepareDevices claim _ with ⟨_ | pd, n1⟩
      · rfl
      · dsimp only
        rcases s.cdi.CreateClaimSpecFile claim.UID pd n1 with ⟨_ | u, n2⟩
        · rfl
        · simp only [DeviceState.CreateCheckpoint]
          cases s.checkpointManager.CreateCheckpoint n2.trace _ <;> rfl

theorem Unprepare_unfold (s : DeviceState) (claimRef : NamespacedObject) (n : Node) :
    s.Unprepare claimRef n =
      match s.checkpointManager.GetCheckpoint n.trace with
      | some e =>
        (.error (e.wrapW "unable to get checkpoint"),
          { n with trace := n.trace ++ [⟨.getCheckpoint, false⟩] })
      | none =>
        match n.checkpoint.get? claimRef.UID with
        | none => (.ok (), { n with trace := n.trace ++ [⟨.getCheckpoint, true⟩] })
        | some pc =>
          match DeviceState.Unprepare.status s claimRef pc
              { n with trace := n.trace ++ [⟨.getCheckpoint, true⟩] } with
          | (.error e, n1) => (.error e, n1)
          | (.ok status, n1) =>
            match s.unprepareDevices status n1 with
            | (.error e, n2) => (.error (e.wrapW "unprepare devices failed"), n2)
            | (.ok _, n2) =>
              match s.cdi.DeleteClaimSpecFile claimRef.UID n2 with
              | (.error e, n3) =>
                (.error (e.wrapW "unable to delete CDI spec file for claim"), n3)
              | (.ok _, n3) =>
                match s.checkpointManager.CreateCheckpoint n3.trace
                    (n.checkpoint.delete claimRef.UID) with
                | some e =>
                  (.error (e.wrapW "create checkpoint failed"),
                    { n3 with trace := n3.trace ++
                        [⟨.createCheckpoint (n.checkpoint.delete claimRef.UID), false⟩] })
                | none =>
                  (.ok (),
                    { checkpoint := n.checkpoint.delete claimRef.UID
                      trace := n3.trace ++
                        [⟨.createCheckpoint (n.checkpoint.delete claimRef.UID), true⟩] }) := by
  unfold DeviceState.Unprepare
  simp only [Act.bind_run, Act.mapErr_run, DeviceState.GetCheckpoint]
  cases s.checkpointManager.GetCheckpoint n.trace with
  | some e => rfl
  | none =>
    dsimp only
    cases n.checkpoint.get? claimRef.UID with
    | none => rfl
    | some pc =>
      simp only [Act.bind_run, Act.mapErr_run]
      rcases DeviceState.Unprepare.status s claimRef pc _ with ⟨_ | status, n1⟩
      · rfl
      · dsimp only
        rcases s.unprepareDevices status n1 with ⟨_ | u, n2⟩
        · rfl
        · dsimp only
          rcases s.cdi.DeleteClaimSpecFile claimRef.UID n2 with ⟨_ | u, n3⟩
          · rfl
          · simp only [DeviceState.CreateCheckpoint]
            cases s.checkpointManager.CreateCheckpoint n3.trace _ <;> rfl

/-! ### Claims about `Prepare` and `Unprepare` -/

/-- C3: when the checkpoint read succeeds and holds the claim's UID, `Prepare` returns the
device list recorded in that entry, makes no collaborator call besides the checkpoint read
(no device set-up, no label, no CDI write, no checkpoint write) whatever the claim's status
and configs are, and leaves the checkpoint as it is.  Hence a `Prepare` issued on the node
left by a successful `Prepare` of the same claim UID returns the same device list and only
adds the checkpoint read to the record. -/
theorem Prepare_idempotent (s : DeviceState) (claim : ResourceClaim) (n : Node)
    (hread : s.checkpointManager.GetCheckpoint n.trace = none) :
    (∀ pc, n.checkpoint.get? claim.UID = some pc →
        s.Prepare claim n =
          (.ok pc.PreparedDevices.GetDevices,
            { n with trace := n.trace ++ [⟨.getCheckpoint, true⟩] })) ∧
      (∀ (s0 : DeviceState) (claim0 : ResourceClaim) (n0 : Node) (devices : List Device),
        claim0.UID = claim.UID → s0.Prepare claim0 n0 = (.ok devices, n) →
        s.Prepare claim n =
          (.ok devices, { n with trace := n.trace ++ [⟨.getCheckpoint, true⟩] })) := by
  have first : ∀ pc, n.checkpoint.get? claim.UID = some pc →
      s.Prepare claim n =
        (.ok pc.PreparedDevices.GetDevices,
          { n with trace := n.trace ++ [⟨.getCheckpoint, true⟩] }) := by
    intro pc hpc
    rw [Prepare_unfold, hread]
    simp only [hpc]
  refine ⟨first, ?_⟩
  intro s0 claim0 n0 devices huid h0
  rw [Prepare_unfold] at h0
  cases hr : s0.checkpointManager.GetCheckpoint n0.trace with
  | some e => rw [hr] at h0; simp at h0
  | none =>
    rw [hr] at h0
    dsimp only at h0
    cases hg : n0.checkpoint.get? claim0.UID with
    | some pc =>
      rw [hg] at h0
      simp only [Prod.mk.injEq, Except.ok.injEq] at h0
      obtain ⟨hd, hn⟩ := h0
      have hpc : n.checkpoint.get? claim.UID = some pc := by
        rw [← hn, ← huid]; exact hg
      rw [first pc hpc, hd]
    | none =>
      rw [hg] at h0
      dsimp only at h0
      rcases hp : s0.prepareDevices claim0 _ with ⟨_ | pd, n1⟩
      · rw [hp] at h0; simp at h0
      · rw [hp] at h0
        dsimp only at h0
        rcases hc : s0.cdi.CreateClaimSpecFile claim0.UID pd n1 with ⟨_ | u, n2⟩
        · rw [hc] at h0; simp at h0
        · rw [hc] at h0
          dsimp only at h0
          cases hw : s0.checkpointManager.CreateCheckpoint n2.trace
              (n0.checkpoint.set claim0.UID ⟨claim0.Status, pd⟩) with
          | some e => rw [hw] at h0; simp at h0
          | none =>
            rw [hw] at h0
            simp only [Prod.mk.injEq, Except.ok.injEq] at h0
            obtain ⟨hd, hn⟩ := h0
            have hpc : n.checkpoint.get? claim.UID = some ⟨claim0.Status, pd⟩ := by
              rw [← hn, ← huid]
              exact Checkpoint.get?_set_self _ _ _
            rw [first _ hpc, ← hd]

/-- C4: when the checkpoint read succeeds and does not hold the UID of the claim reference,
`Unprepare` returns success, makes no collaborator call besides the checkpoint read (no
label removal, no daemon-settings unprepare, no CDI spec deletion, no API read) and leaves
the checkpoint as it is. -/
theorem Unprepare_absent_noop (s : DeviceState) (claimRef : NamespacedObject) (n : Node)
    (hread : s.checkpointManager.GetCheckpoint n.trace = none)
    (habsent : n.checkpoint.get? claimRef.UID = none) :
    s.Unprepare claimRef n = (.ok (), { n with trace := n.trace ++ [⟨.getCheckpoint, true⟩] }) := by
  rw [Unprepare_unfold, hread]
  simp only [habsent]

theorem unprepare_loop_clientsets (s : DeviceState) (api : Clientsets) :
    ∀ entries : ConfigResultsMap,
      DeviceState.unprepareDevices.loop { s with clientsets := api } entries
        = DeviceState.unprepareDevices.loop s entries
  | [] => rfl
  | (_, c, _) :: rest => by
    unfold DeviceState.unprepareDevices.loop
    rw [unprepare_loop_clientsets s api rest]

theorem unprepareDevices_clientsets (s : DeviceState) (api : Clientsets)
    (cs : ResourceClaimStatus) :
    DeviceState.unprepareDevices { s with clientsets := api } cs = s.unprepareDevices cs := by
  unfold DeviceState.unprepareDevices
  have h : DeviceState.getConfigResultsMap { s with clientsets := api } cs
      = s.getConfigResultsMap cs := rfl
  rw [h]
  simp only [unprepare_loop_clientsets]

theorem Unprepare_status_of_allocation (s : DeviceState) (claimRef : NamespacedObject)
    (pc : PreparedClaim) (n : Node) (h : pc.Status.Allocation ≠ none) :
    DeviceState.Unprepare.status s claimRef pc n = (.ok pc.Status, n) := by
  unfold DeviceState.Unprepare.status
  cases hs : pc.Status.Allocation with
  | none => exact absurd hs h
  | some a => rfl

theorem Unprepare_of_allocation (s : DeviceState) (claimRef : NamespacedObject) (n : Node)
    (pc : PreparedClaim) (hpresent : n.checkpoint.get? claimRef.UID = some pc)
    (halloc : pc.Status.Allocation ≠ none) (api : Clientsets) :
    DeviceState.Unprepare { s with clientsets := api } claimRef n = s.Unprepare claimRef n := by
  rw [Unprepare_unfold, Unprepare_unfold]
  simp only [hpresent, Unprepare_status_of_allocation _ _ _ _ halloc,
    unprepareDevices_clientsets]

theorem Call.not_read_of_teardown (c : Call) (h : c.isDeviceTeardown = true) :
    c.isGetResourceClaim = false := by
  cases c <;> simp_all [Call.isDeviceTeardown, Call.isGetResourceClaim]

theorem Call.not_read_of_cdiRemove (c : Call) (h : c.isCDIRemove = true) :
    c.isGetResourceClaim = false := by
  cases c <;> simp_all [Call.isCDIRemove, Call.isGetResourceClaim]

/-- C5: for a checkpoint entry whose status snapshot carries an allocation, `Unprepare` does
not depend on the API server: with any two API clients in place of the plugin's, it returns
the same result and reaches the same node (same checkpoint, same record of calls), and it
makes no call that reads a claim from the API server. -/
theorem Unprepare_uses_local_state (s : DeviceState) (claimRef : NamespacedObject) (n : Node)
    (pc : PreparedClaim) (hpresent : n.checkpoint.get? claimRef.UID = some pc)
    (halloc : pc.Status.Allocation ≠ none) (api1 api2 : Clientsets) :
    DeviceState.Unprepare { s with clientsets := api1 } claimRef n
        = DeviceState.Unprepare { s with clientsets := api2 } claimRef n ∧
      ∀ ev ∈ (s.Unprepare claimRef n).2.trace.drop n.trace.length,
        ev.call.isGetResourceClaim = false := by
  refine ⟨by rw [Unprepare_of_allocation s claimRef n pc hpresent halloc api1,
    Unprepare_of_allocation s claimRef n pc hpresent halloc api2], ?_⟩
  rw [Unprepare_unfold]
  cases hr : s.checkpointManager.GetCheckpoint n.trace with
  | some e =>
    simp only [List.drop_left, List.forall_mem_singleton]
    rfl
  | none =>
    simp only [hpresent, Unprepare_status_of_allocation _ _ _ _ halloc]
    obtain ⟨-, evs2, ht2, hP2⟩ := frames_unprepareDevices s pc.Status
      { n with trace := n.trace ++ [⟨.getCheckpoint, true⟩] }
    have hQ2 : ∀ ev ∈ evs2, ev.call.isGetResourceClaim = false :=
      fun ev hev => Call.not_read_of_teardown _ (hP2 ev hev)
    rcases hu : s.unprepareDevices pc.Status _ with ⟨r2, ⟨cp2, tr2⟩⟩
    rw [hu] at ht2
    simp only [] at ht2
    subst ht2
    cases r2 with
    | error e =>
      simp only [List.append_assoc, List.drop_left, List.forall_mem_append,
        List.forall_mem_singleton]
      exact ⟨rfl, hQ2⟩
    | ok u =>
      simp only []
      obtain ⟨-, evs3, ht3, hP3⟩ := frames_DeleteClaimSpecFile s.cdi claimRef.UID
        ⟨cp2, n.trace ++ [⟨.getCheckpoint, true⟩] ++ evs2⟩
      have hQ3 : ∀ ev ∈ evs3, ev.call.isGetResourceClaim = false :=
        fun ev hev => Call.not_read_of_cdiRemove _ (hP3 ev hev)
      rcases hd : s.cdi.DeleteClaimSpecFile claimRef.UID _ with ⟨r3, ⟨cp3, tr3⟩⟩
      rw [hd] at ht3
      simp only [] at ht3
      subst ht3
      cases r3 with
      | error e =>
        simp only [List.append_assoc, List.drop_left, List.forall_mem_append,
          List.forall_mem_singleton]
        exact ⟨rfl, hQ2, hQ3⟩
      | ok u =>
        simp only []
        cases s.checkpointManager.CreateCheckpoint _ _ <;>
          · simp only [List.append_assoc, List.drop_left, List.forall_mem_append,
              List.forall_mem_singleton]
            exact ⟨rfl, hQ2, hQ3, rfl⟩

theorem Call.not_write_of_setup (c : Call) (h : c.isDeviceSetup = true) :
    c.isCreateCheckpoint = false := by
  cases c <;> simp_all [Call.isDeviceSetup, Call.isCreateCheckpoint]

theorem Call.not_write_of_cdiWrite (c : Call) (h : c.isCDIWrite = true) :
    c.isCreateCheckpoint = false := by
  cases c <;> simp_all [Call.isCDIWrite, Call.isCreateCheckpoint]

theorem Call.not_write_of_teardown (c : Call) (h : c.isDeviceTeardown = true) :
    c.isCreateCheckpoint = false := by
  cases c <;> simp_all [Call.isDeviceTeardown, Call.isCreateCheckpoint]

theorem Call.not_write_of_cdiRemove (c : Call) (h : c.isCDIRemove = true) :
    c.isCreateCheckpoint = false := by
  cases c <;> simp_all [Call.isCDIRemove, Call.isCreateCheckpoint]

theorem Call.not_write_of_read (c : Call) (h : c.isGetResourceClaim = true) :
    c.isCreateCheckpoint = false := by
  cases c <;> simp_all [Call.isGetResourceClaim, Call.isCreateCheckpoint]

theorem filter_writes_eq_nil (evs : List Event)
    (h : ∀ ev ∈ evs, ev.call.isCreateCheckpoint = false) :
    evs.filter (fun ev => ev.call.isCreateCheckpoint) = [] := by
  rw [List.filter_eq_nil_iff]
  intro ev hev
  simp [h ev hev]

/-- What the part of `Prepare` before the checkpoint write does, from the node `n0` reached
after the checkpoint read: the checkpoint stays, and the calls made are device set-up calls
and CDI writes. -/
theorem Prepare_build_frames (s : DeviceState) (claim : ResourceClaim) (n0 : Node) :
    ∃ evs1, (s.prepareDevices claim n0).2 = ⟨n0.checkpoint, n0.trace ++ evs1⟩ ∧
      (∀ ev ∈ evs1, ev.call.isCreateCheckpoint = false) ∧
      ∀ pd n1, s.prepareDevices claim n0 = (.ok pd, n1) →
        ∃ evs2, (s.cdi.CreateClaimSpecFile claim.UID pd n1).2
            = ⟨n0.checkpoint, n0.trace ++ evs1 ++ evs2⟩ ∧
          ∀ ev ∈ evs2, ev.call.isCreateCheckpoint = false := by
  obtain ⟨hc1, evs1, ht1, hP1⟩ := frames_prepareDevices s claim n0
  have e1 : (s.prepareDevices claim n0).2 = ⟨n0.checkpoint, n0.trace ++ evs1⟩ := by
    rcases h : (s.prepareDevices claim n0).2 with ⟨cp, tr⟩
    rw [h] at hc1 ht1
    simp only [] at hc1 ht1
    rw [hc1, ht1]
  refine ⟨evs1, e1, fun ev hev => Call.not_write_of_setup _ (hP1 ev hev), ?_⟩
  intro pd n1 hpd
  rw [hpd] at e1
  simp only [] at e1
  subst e1
  obtain ⟨hc2, evs2, ht2, hP2⟩ := frames_CreateClaimSpecFile s.cdi claim.UID pd
    ⟨n0.checkpoint, n0.trace ++ evs1⟩
  refine ⟨evs2, ?_, fun ev hev => Call.not_write_of_cdiWrite _ (hP2 ev hev)⟩
  rcases h : (s.cdi.CreateClaimSpecFile claim.UID pd ⟨n0.checkpoint, n0.trace ++ evs1⟩).2
    with ⟨cp, tr⟩
  rw [h] at hc2 ht2
  simp only [] at hc2 ht2
  rw [hc2, ht2]

/-- C6: when the claim's UID is absent from the checkpoint and `Prepare` succeeds, the
checkpoint written is the previous checkpoint plus one new entry under the claim's UID that
holds the claim's status as passed in and the prepared devices `prepareDevices` built; the
entry of every other claim is unchanged, the devices returned are those of the new entry,
and that write is the only checkpoint write of the call. -/
theorem Prepare_commits_one_entry (s : DeviceState) (claim : ResourceClaim) (n n' : Node)
    (devices : List Device) (habsent : n.checkpoint.get? claim.UID = none)
    (hok : s.Prepare claim n = (.ok devices, n')) :
    ∃ (pd : PreparedDevices) (n1 : Node),
      s.prepareDevices claim { n with trace := n.trace ++ [⟨.getCheckpoint, true⟩] }
          = (.ok pd, n1) ∧
        n'.checkpoint = n.checkpoint ++ [(claim.UID, ⟨claim.Status, pd⟩)] ∧
        n'.checkpoint.get? claim.UID = some ⟨claim.Status, pd⟩ ∧
        (∀ uid, uid ≠ claim.UID → n'.checkpoint.get? uid = n.checkpoint.get? uid) ∧
        devices = pd.GetDevices ∧
        (n'.trace.drop n.trace.length).filter (fun ev => ev.call.isCreateCheckpoint)
          = [⟨.createCheckpoint n'.checkpoint, true⟩] := by
  rw [Prepare_unfold] at hok
  cases hr : s.checkpointManager.GetCheckpoint n.trace with
  | some e => rw [hr] at hok; simp at hok
  | none =>
    rw [hr] at hok
    simp only [habsent] at hok
    obtain ⟨evs1, e1, hQ1, hrest⟩ := Prepare_build_frames s claim
      { n with trace := n.trace ++ [⟨.getCheckpoint, true⟩] }
    rcases hp : s.prepareDevices claim _ with ⟨_ | pd, n1⟩
    · rw [hp] at hok; simp at hok
    · rw [hp] at hok e1
      simp only [] at hok e1
      obtain ⟨evs2, e2, hQ2⟩ := hrest pd n1 hp
      rcases hc : s.cdi.CreateClaimSpecFile claim.UID pd n1 with ⟨_ | u, n2⟩
      · rw [hc] at hok; simp at hok
      · rw [hc] at hok e2
        simp only [] at hok e2
        subst e2
        cases hw : s.checkpointManager.CreateCheckpoint _
            (n.checkpoint.set claim.UID ⟨claim.Status, pd⟩) with
        | some e => rw [hw] at hok; simp at hok
        | none =>
          rw [hw] at hok
          simp only [Prod.mk.injEq, Except.ok.injEq] at hok
          obtain ⟨hd, hn⟩ := hok
          subst hn
          refine ⟨pd, n1, rfl, Checkpoint.set_of_absent _ _ _ habsent,
            Checkpoint.get?_set_self _ _ _,
            fun uid huid => Checkpoint.get?_set_other _ _ _ _ huid, hd.symm, ?_⟩
          simp only [List.append_assoc, List.drop_left, List.filter_append,
            filter_writes_eq_nil _ hQ1, filter_writes_eq_nil _ hQ2, List.nil_append]
          rfl

/-- What the part of `Unprepare` between the checkpoint look-up and the checkpoint write
does, from the node `n0` reached after the checkpoint read: the checkpoint stays and no
checkpoint write is made. -/
theorem Unprepare_teardown_frames (s : DeviceState) (claimRef : NamespacedObject)
    (pc : PreparedClaim) (n0 : Node) :
    ∃ evs1, (DeviceState.Unprepare.status s claimRef pc n0).2
        = ⟨n0.checkpoint, n0.trace ++ evs1⟩ ∧
      (∀ ev ∈ evs1, ev.call.isCreateCheckpoint = false) ∧
      ∀ st n1, DeviceState.Unprepare.status s claimRef pc n0 = (.ok st, n1) →
        ∃ evs2, (s.unprepareDevices st n1).2 = ⟨n0.checkpoint, n0.trace ++ evs1 ++ evs2⟩ ∧
          (∀ ev ∈ evs2, ev.call.isCreateCheckpoint = false) ∧
          ∀ n2, s.unprepareDevices st n1 = (.ok (), n2) →
            ∃ evs3, (s.cdi.DeleteClaimSpecFile claimRef.UID n2).2
                = ⟨n0.checkpoint, n0.trace ++ evs1 ++ evs2 ++ evs3⟩ ∧
              ∀ ev ∈ evs3, ev.call.isCreateCheckpoint = false := by
  obtain ⟨hc1, evs1, ht1, hP1⟩ := frames_Unprepare_status s claimRef pc n0
  have e1 : (DeviceState.Unprepare.status s claimRef pc n0).2
      = ⟨n0.checkpoint, n0.trace ++ evs1⟩ := by
    rcases h : (DeviceState.Unprepare.status s claimRef pc n0).2 with ⟨cp, tr⟩
    rw [h] at hc1 ht1
    simp only [] at hc1 ht1
    rw [hc1, ht1]
  refine ⟨evs1, e1, fun ev hev => Call.not_write_of_read _ (hP1 ev hev), ?_⟩
  intro st n1 hst
  rw [hst] at e1
  simp only [] at e1
  subst e1
  obtain ⟨hc2, evs2, ht2, hP2⟩ := frames_unprepareDevices s st
    ⟨n0.checkpoint, n0.trace ++ evs1⟩
  have e2 : (s.unprepareDevices st ⟨n0.checkpoint, n0.trace ++ evs1⟩).2
      = ⟨n0.checkpoint, n0.trace ++ evs1 ++ evs2⟩ := by
    rcases h : (s.unprepareDevices st ⟨n0.checkpoint, n0.trace ++ evs1⟩).2 with ⟨cp, tr⟩
    rw [h] at hc2 ht2
    simp only [] at hc2 ht2
    rw [hc2, ht2]
  refine ⟨evs2, e2, fun ev hev => Call.not_write_of_teardown _ (hP2 ev hev), ?_⟩
  intro n2 hn2
  rw [hn2] at e2
  simp only [] at e2
  subst e2
  obtain ⟨hc3, evs3, ht3, hP3⟩ := frames_DeleteClaimSpecFile s.cdi claimRef.UID
    ⟨n0.checkpoint, n0.trace ++ evs1 ++ evs2⟩
  refine ⟨evs3, ?_, fun ev hev => Call.not_write_of_cdiRemove _ (hP3 ev hev)⟩
  rcases h : (s.cdi.DeleteClaimSpecFile claimRef.UID
    ⟨n0.checkpoint, n0.trace ++ evs1 ++ evs2⟩).2 with ⟨cp, tr⟩
  rw [h] at hc3 ht3
  simp only [] at hc3 ht3
  rw [hc3, ht3]

/-- C7: when the UID of the claim reference is present in the checkpoint and `Unprepare`
succeeds, the checkpoint written is the previous checkpoint with the entry of that UID
removed; the entry of every other claim is unchanged, and that write is the only checkpoint
write of the call. -/
theorem Unprepare_removes_entry (s : DeviceState) (claimRef : NamespacedObject) (n n' : Node)
    (pc : PreparedClaim) (hpresent : n.checkpoint.get? claimRef.UID = some pc)
    (hok : s.Unprepare claimRef n = (.ok (), n')) :
    n'.checkpoint = n.checkpoint.filter (fun kv => kv.1 ≠ claimRef.UID) ∧
      n'.checkpoint.get? claimRef.UID = none ∧
      (∀ uid, uid ≠ claimRef.UID → n'.checkpoint.get? uid = n.checkpoint.get? uid) ∧
      (n'.trace.drop n.trace.length).filter (fun ev => ev.call.isCreateCheckpoint)
        = [⟨.createCheckpoint n'.checkpoint, true⟩] := by
  rw [Unprepare_unfold] at hok
  cases hr : s.checkpointManager.GetCheckpoint n.trace with
  | some e => rw [hr] at hok; simp at hok
  | none =>
    rw [hr] at hok
    simp only [hpresent] at hok
    obtain ⟨evs1, e1, hQ1, hrest1⟩ := Unprepare_teardown_frames s claimRef pc
      { n with trace := n.trace ++ [⟨.getCheckpoint, true⟩] }
    rcases hs : DeviceState.Unprepare.status s claimRef pc _ with ⟨_ | st, n1⟩
    · rw [hs] at hok; simp at hok
    · rw [hs] at hok
      simp only [] at hok
      obtain ⟨evs2, e2, hQ2, hrest2⟩ := hrest1 st n1 hs
      rcases hu : s.unprepareDevices st n1 with ⟨_ | u, n2⟩
      · rw [hu] at hok; simp at hok
      · rw [hu] at hok
        simp only [] at hok
        obtain ⟨evs3, e3, hQ3⟩ := hrest2 n2 hu
        rcases hd : s.cdi.DeleteClaimSpecFile claimRef.UID n2 with ⟨_ | u, n3⟩
        · rw [hd] at hok; simp at hok
        · rw [hd] at hok e3
          simp only [] at hok e3
          subst e3
          cases hw : s.checkpointManager.CreateCheckpoint _
              (n.checkpoint.delete claimRef.UID) with
          | some e => rw [hw] at hok; simp at hok
          | none =>
            rw [hw] at hok
            simp only [Prod.mk.injEq, true_and] at hok
            subst hok
            refine ⟨rfl, Checkpoint.get?_delete_self _ _,
              fun uid huid => Checkpoint.get?_delete_other _ _ _ huid, ?_⟩
            simp only [List.append_assoc, List.drop_left, List.filter_append,
              filter_writes_eq_nil _ hQ1, filter_writes_eq_nil _ hQ2,
              filter_writes_eq_nil _ hQ3, List.nil_append]
            rfl

/-- C8: when `Prepare` fails in `prepareDevices` (config resolution or config application)
or in the write of the claim CDI spec, it returns an error, no checkpoint write has been
attempted, the persisted checkpoint is the one before the call, and it holds no entry for
the claim. -/
theorem Prepare_failure_writes_nothing (s : DeviceState) (claim : ResourceClaim) (n : Node)
    (e : GoError) (hread : s.checkpointManager.GetCheckpoint n.trace = none)
    (habsent : n.checkpoint.get? claim.UID = none)
    (hfail :
      (s.prepareDevices claim { n with trace := n.trace ++ [⟨.getCheckpoint, true⟩] }).1
          = .error e ∨
        ∃ pd n1,
          s.prepareDevices claim { n with trace := n.trace ++ [⟨.getCheckpoint, true⟩] }
              = (.ok pd, n1) ∧
            (s.cdi.CreateClaimSpecFile claim.UID pd n1).1 = .error e) :
    (∃ e', (s.Prepare claim n).1 = .error e') ∧
      (s.Prepare claim n).2.checkpoint = n.checkpoint ∧
      (∀ ev ∈ (s.Prepare claim n).2.trace.drop n.trace.length,
        ev.call.isCreateCheckpoint = false) ∧
      (s.Prepare claim n).2.checkpoint.get? claim.UID = none := by
  rw [Prepare_unfold, hread]
  simp only [habsent]
  obtain ⟨evs1, e1, hQ1, hrest⟩ := Prepare_build_frames s claim
    { n with trace := n.trace ++ [⟨.getCheckpoint, true⟩] }
  rcases hp : s.prepareDevices claim _ with ⟨r1, n1⟩
  rw [hp] at e1 hfail
  simp only [] at e1
  subst e1
  cases r1 with
  | error e1 =>
    simp only [List.append_assoc, List.drop_left, List.forall_mem_append,
      List.forall_mem_singleton]
    exact ⟨⟨_, rfl⟩, trivial, ⟨rfl, hQ1⟩, habsent⟩
  | ok pd =>
    obtain ⟨evs2, e2, hQ2⟩ := hrest pd _ hp
    rcases hfail with h | ⟨pd', n1', h1, h2⟩
    · simp at h
    · simp only [Prod.mk.injEq, Except.ok.injEq] at h1
      obtain ⟨h1a, h1b⟩ := h1
      subst h1a h1b
      simp only []
      rcases hc : s.cdi.CreateClaimSpecFile claim.UID pd _ with ⟨r2, n2⟩
      rw [hc] at e2 h2
      simp only [] at e2 h2
      subst e2 h2
      simp only [List.append_assoc, List.drop_left, List.forall_mem_append,
        List.forall_mem_singleton]
      exact ⟨⟨_, rfl⟩, trivial, ⟨rfl, hQ1, hQ2⟩, habsent⟩

/-- C9: when `Unprepare` fails before its checkpoint write (in the status fallback of a
legacy entry, in `unprepareDevices`, or in the deletion of the claim CDI spec), it returns an
error, no checkpoint write has been attempted, and the persisted checkpoint is the one
before the call, so the entry of the claim is still there. -/
theorem Unprepare_failure_keeps_entry (s : DeviceState) (claimRef : NamespacedObject)
    (n : Node) (pc : PreparedClaim) (e : GoError)
    (hread : s.checkpointManager.GetCheckpoint n.trace = none)
    (hpresent : n.checkpoint.get? claimRef.UID = some pc)
    (hfail :
      (DeviceState.Unprepare.status s claimRef pc
          { n with trace := n.trace ++ [⟨.getCheckpoint, true⟩] }).1 = .error e ∨
        ∃ st n1,
          DeviceState.Unprepare.status s claimRef pc
              { n with trace := n.trace ++ [⟨.getCheckpoint, true⟩] } = (.ok st, n1) ∧
            ((s.unprepareDevices st n1).1 = .error e ∨
              ∃ n2, s.unprepareDevices st n1 = (.ok (), n2) ∧
                (s.cdi.DeleteClaimSpecFile claimRef.UID n2).1 = .error e)) :
    (∃ e', (s.Unprepare claimRef n).1 = .error e') ∧
      (s.Unprepare claimRef n).2.checkpoint = n.checkpoint ∧
      (∀ ev ∈ (s.Unprepare claimRef n).2.trace.drop n.trace.length,
        ev.call.isCreateCheckpoint = false) ∧
      (s.Unprepare claimRef n).2.checkpoint.get? claimRef.UID = some pc := by
  rw [Unprepare_unfold, hread]
  simp only [hpresent]
  obtain ⟨evs1, e1, hQ1, hrest1⟩ := Unprepare_teardown_frames s claimRef pc
    { n with trace := n.trace ++ [⟨.getCheckpoint, true⟩] }
  rcases hs : DeviceState.Unprepare.status s claimRef pc _ with ⟨r1, n1⟩
  rw [hs] at e1 hfail
  simp only [] at e1
  subst e1
  cases r1 with
  | error e1 =>
    simp only [List.append_assoc, List.drop_left, List.forall_mem_append,
      List.forall_mem_singleton]
    exact ⟨⟨_, rfl⟩, trivial, ⟨rfl, hQ1⟩, hpresent⟩
  | ok st =>
    obtain ⟨evs2, e2, hQ2, hrest2⟩ := hrest1 st _ hs
    rcases hfail with h | ⟨st', n1', h1, h2⟩
    · simp at h
    · simp only [Prod.mk.injEq, Except.ok.injEq] at h1
      obtain ⟨h1a, h1b⟩ := h1
      subst h1a h1b
      simp only []
      rcases hu : s.unprepareDevices st _ with ⟨r2, n2⟩
      rw [hu] at e2 h2
      simp only [] at e2
      subst e2
      cases r2 with
      | error e2 =>
        simp only [List.append_assoc, List.drop_left, List.forall_mem_append,
          List.forall_mem_singleton]
        exact ⟨⟨_, rfl⟩, trivial, ⟨rfl, hQ1, hQ2⟩, hpresent⟩
      | ok u =>
        obtain ⟨evs3, e3, hQ3⟩ := hrest2 _ hu
        rcases h2 with h | ⟨n2', h3, h4⟩
        · simp at h
        · simp only [Prod.mk.injEq, true_and] at h3
          subst h3
          simp only []
          rcases hd : s.cdi.DeleteClaimSpecFile claimRef.UID _ with ⟨r3, n3⟩
          rw [hd] at e3 h4
          simp only [] at e3 h4
          subst e3 h4
          simp only [List.append_assoc, List.drop_left, List.forall_mem_append,
            List.forall_mem_singleton]
          exact ⟨⟨_, rfl⟩, trivial, ⟨rfl, hQ1, hQ2, hQ3⟩, hpresent⟩

/-! ### The checkpoint over sequences of requests -/

theorem Prepare_checkpoint (s : DeviceState) (claim : ResourceClaim) (n : Node) :
    ((s.Prepare claim n).1.toBool = true →
        ((s.Prepare claim n).2.checkpoint.get? claim.UID).isSome = true ∧
          ∀ uid, uid ≠ claim.UID →
            (s.Prepare claim n).2.checkpoint.get? uid = n.checkpoint.get? uid) ∧
      ((s.Prepare claim n).1.toBool = false → (s.Prepare claim n).2.checkpoint = n.checkpoint) := by
  rw [Prepare_unfold]
  cases s.checkpointManager.GetCheckpoint n.trace with
  | some e => simp [Except.toBool]
  | none =>
    cases hg : n.checkpoint.get? claim.UID with
    | some pc => simp [Except.toBool, hg]
    | none =>
      simp only []
      obtain ⟨evs1, e1, -, hrest⟩ := Prepare_build_frames s claim
        { n with trace := n.trace ++ [⟨.getCheckpoint, true⟩] }
      rcases hp : s.prepareDevices claim _ with ⟨r1, n1⟩
      rw [hp] at e1
      simp only [] at e1
      subst e1
      cases r1 with
      | error e1 => simp [Except.toBool]
      | ok pd =>
        obtain ⟨evs2, e2, -⟩ := hrest pd _ hp
        simp only []
        rcases hc : s.cdi.CreateClaimSpecFile claim.UID pd _ with ⟨r2, n2⟩
        rw [hc] at e2
        simp only [] at e2
        subst e2
        cases r2 with
        | error e2 => simp [Except.toBool]
        | ok u =>
          simp only []
          cases s.checkpointManager.CreateCheckpoint _ _ with
          | some e => simp [Except.toBool]
          | none =>
            simp only [Except.toBool, Checkpoint.get?_set_self, Option.isSome_some, true_and,
              forall_true_left, false_implies, and_true, reduceCtorEq]
            exact fun uid huid => Checkpoint.get?_set_other _ _ _ _ huid

theorem Unprepare_checkpoint (s : DeviceState) (claimRef : NamespacedObject) (n : Node) :
    ((s.Unprepare claimRef n).1.toBool = true →
        ((s.Unprepare claimRef n).2.checkpoint.get? claimRef.UID).isSome = false ∧
          ∀ uid, uid ≠ claimRef.UID →
            (s.Unprepare claimRef n).2.checkpoint.get? uid = n.checkpoint.get? uid) ∧
      ((s.Unprepare claimRef n).1.toBool = false →
        (s.Unprepare claimRef n).2.checkpoint = n.checkpoint) := by
  rw [Unprepare_unfold]
  cases s.checkpointManager.GetCheckpoint n.trace with
  | some e => simp [Except.toBool]
  | none =>
    cases hg : n.checkpoint.get? claimRef.UID with
    | none => simp [Except.toBool, hg]
    | some pc =>
      simp only []
      obtain ⟨evs1, e1, -, hrest1⟩ := Unprepare_teardown_frames s claimRef pc
        { n with trace := n.trace ++ [⟨.getCheckpoint, true⟩] }
      rcases hs : DeviceState.Unprepare.status s claimRef pc _ with ⟨r1, n1⟩
      rw [hs] at e1
      simp only [] at e1
      subst e1
      cases r1 with
      | error e1 => simp [Except.toBool]
      | ok st =>
        obtain ⟨evs2, e2, -, hrest2⟩ := hrest1 st _ hs
        simp only []
        rcases hu : s.unprepareDevices st _ with ⟨r2, n2⟩
        rw [hu] at e2
        simp only [] at e2
        subst e2
        cases r2 with
        | error e2 => simp [Except.toBool]
        | ok u =>
          obtain ⟨evs3, e3, -⟩ := hrest2 _ hu
          simp only []
          rcases hd : s.cdi.DeleteClaimSpecFile claimRef.UID _ with ⟨r3, n3⟩
          rw [hd] at e3
          simp only [] at e3
          subst e3
          cases r3 with
          | error e3 => simp [Except.toBool]
          | ok u =>
            simp only []
            cases s.checkpointManager.CreateCheckpoint _ _ with
            | some e => simp [Except.toBool]
            | none =>
              simp only [Except.toBool, Checkpoint.get?_delete_self, Option.isSome_none,
                true_and, forall_true_left, false_implies, and_true, reduceCtorEq]
              exact fun uid huid => Checkpoint.get?_delete_other _ _ _ huid

theorem serve_checkpoint (r : Request) (n : Node) (uid : String) :
    ((r.serve n).2.checkpoint.get? uid).isSome =
      if (r.serve n).1.uid = uid ∧ (r.serve n).1.ok = true then (r.serve n).1.isPrepare
      else (n.checkpoint.get? uid).isSome := by
  cases r with
  | prepare s claim =>
    obtain ⟨h1, h2⟩ := Prepare_checkpoint s claim n
    simp only [Request.serve]
    cases hb : (s.Prepare claim n).1.toBool with
    | false => simp [h2 hb]
    | true =>
      obtain ⟨h3, h4⟩ := h1 hb
      by_cases hu : claim.UID = uid
      · subst hu; simp [h3]
      · simp [hu, h4 uid (Ne.symm hu)]
  | unprepare s claimRef =>
    obtain ⟨h1, h2⟩ := Unprepare_checkpoint s claimRef n
    simp only [Request.serve]
    cases hb : (s.Unprepare claimRef n).1.toBool with
    | false => simp [h2 hb]
    | true =>
      obtain ⟨h3, h4⟩ := h1 hb
      by_cases hu : claimRef.UID = uid
      · subst hu; simp [h3]
      · simp [hu, h4 uid (Ne.symm hu)]

theorem committed_append (uid : String) (log : List Served) (r : Served) :
    committed uid (log ++ [r]) =
      if r.uid = uid ∧ r.ok = true then r.isPrepare else committed uid log := by
  unfold committed
  rw [List.filter_append]
  by_cases h : r.uid = uid ∧ r.ok = true
  · have hf : (r.uid == uid && r.ok) = true := by simpa using h
    simp [List.filter, hf, h]
  · have hf : (r.uid == uid && r.ok) = false := by
      cases hb : (r.uid == uid && r.ok) with
      | false => rfl
      | true => exact absurd (by simpa using hb) h
    simp [List.filter, hf, h]

theorem serveAll_committed :
    ∀ (reqs : List Request) (log : List Served) (n : Node),
      (∀ uid, (n.checkpoint.get? uid).isSome = committed uid log) →
      ∀ uid, ((serveAll reqs (log, n)).2.checkpoint.get? uid).isSome
        = committed uid (serveAll reqs (log, n)).1
  | [], _, _, h => h
  | r :: rest, log, n, h => by
    unfold serveAll
    apply serveAll_committed rest
    intro uid
    rw [serve_checkpoint, committed_append, h uid]

/-- C10, as amended: in every state reached from an empty checkpoint by any sequence of
`Prepare` and `Unprepare` requests, succeeding or failing, a claim UID is present in the
checkpoint if and only if the latest request for that claim that returned without error is a
`Prepare`. -/
theorem checkpoint_tracks_committed (reqs : List Request) (trace0 : List Event)
    (uid : String) :
    (serveAll reqs ([], ⟨newCheckpoint, trace0⟩)).2.checkpoint.get? uid ≠ none ↔
      committed uid (serveAll reqs ([], ⟨newCheckpoint, trace0⟩)).1 = true := by
  have h := serveAll_committed reqs [] ⟨newCheckpoint, trace0⟩ (fun _ => rfl) uid
  rw [← h]
  cases (serveAll reqs ([], ⟨newCheckpoint, trace0⟩)).2.checkpoint.get? uid <;> simp

/-- A second `Prepare` of `Example.channelClaim` on the node left by the first one. -/
theorem Prepare_idempotent_witness :
    Example.plugin.checkpointManager.GetCheckpoint Example.preparedNode.trace = none ∧
      Example.plugin.Prepare Example.channelClaim Example.preparedNode =
        (.ok Example.preparedDevices,
          { Example.preparedNode with
            trace := Example.preparedNode.trace ++ [⟨.getCheckpoint, true⟩] }) :=
  ⟨rfl,
    (Prepare_idempotent Example.plugin Example.channelClaim Example.preparedNode rfl).2
      Example.plugin Example.channelClaim Example.emptyNode Example.preparedDevices rfl
      (by decide)⟩

/-- An `Unprepare` of a claim that was never prepared. -/
theorem Unprepare_absent_noop_witness :
    Example.plugin.checkpointManager.GetCheckpoint Example.emptyNode.trace = none ∧
      Example.emptyNode.checkpoint.get? Example.channelClaimRef.UID = none ∧
      Example.plugin.Unprepare Example.channelClaimRef Example.emptyNode =
        (.ok (),
          { Example.emptyNode with
            trace := Example.emptyNode.trace ++ [⟨.getCheckpoint, true⟩] }) :=
  ⟨rfl, rfl,
    Unprepare_absent_noop Example.plugin Example.channelClaimRef Example.emptyNode rfl rfl⟩

/-- An `Unprepare` of `Example.channelClaim` with two different API clients. -/
theorem Unprepare_uses_local_state_witness :
    Example.preparedNode.checkpoint.get? Example.channelClaimRef.UID
        = some Example.preparedClaim ∧
      Example.preparedClaim.Status.Allocation ≠ none ∧
      DeviceState.Unprepare { Example.plugin with clientsets := Example.plugin.clientsets }
          Example.channelClaimRef Example.preparedNode
        = DeviceState.Unprepare { Example.plugin with clientsets := Example.otherAPI }
          Example.channelClaimRef Example.preparedNode :=
  ⟨by decide, by decide,
    (Unprepare_uses_local_state Example.plugin Example.channelClaimRef Example.preparedNode
      Example.preparedClaim (by decide) (by decide) Example.plugin.clientsets
      Example.otherAPI).1⟩

/-- The first `Prepare` of `Example.channelClaim`. -/
theorem Prepare_commits_one_entry_witness :
    Example.emptyNode.checkpoint.get? Example.channelClaim.UID = none ∧
      Example.plugin.Prepare Example.channelClaim Example.emptyNode
        = (.ok Example.preparedDevices, Example.preparedNode) ∧
      Example.preparedNode.checkpoint.get? Example.channelClaim.UID ≠ none :=
  ⟨rfl, by decide,
    (Prepare_commits_one_entry Example.plugin Example.channelClaim Example.emptyNode
      Example.preparedNode Example.preparedDevices rfl (by decide)).elim
      fun _ h => h.elim fun _ h1 => by rw [h1.2.2.1]; exact Option.some_ne_none _⟩

/-- The `Unprepare` of `Example.channelClaim` after its `Prepare`. -/
theorem Unprepare_removes_entry_witness :
    Example.preparedNode.checkpoint.get? Example.channelClaimRef.UID
        = some Example.preparedClaim ∧
      Example.plugin.Unprepare Example.channelClaimRef Example.preparedNode
        = (.ok (), (Example.plugin.Unprepare Example.channelClaimRef Example.preparedNode).2) ∧
      (Example.plugin.Unprepare Example.channelClaimRef
          Example.preparedNode).2.checkpoint.get? Example.channelClaimRef.UID = none :=
  ⟨by decide, by decide,
    (Unprepare_removes_entry Example.plugin Example.channelClaimRef Example.preparedNode _
      Example.preparedClaim (by decide) (by decide)).2.1⟩

/-- A `Prepare` of `Example.channelClaim` while the domain is not ready. -/
theorem Prepare_failure_writes_nothing_witness :
    Example.notReady.checkpointManager.GetCheckpoint Example.emptyNode.trace = none ∧
      Example.emptyNode.checkpoint.get? Example.channelClaim.UID = none ∧
      (Example.notReady.prepareDevices Example.channelClaim
          { Example.emptyNode with
            trace := Example.emptyNode.trace ++ [⟨.getCheckpoint, true⟩] }).1
        = .error (.err false
            "error applying config: error asserting ComputeDomain Ready: not ready") ∧
      (Example.notReady.Prepare Example.channelClaim Example.emptyNode).2.checkpoint
        = Example.emptyNode.checkpoint :=
  ⟨rfl, rfl, by decide,
    (Prepare_failure_writes_nothing Example.notReady Example.channelClaim Example.emptyNode
      (.err false "error applying config: error asserting ComputeDomain Ready: not ready")
      rfl rfl (Or.inl (by decide))).2.1⟩

/-- An `Unprepare` of `Example.channelClaim` while the node label cannot be removed. -/
theorem Unprepare_failure_keeps_entry_witness :
    Example.labelStuck.checkpointManager.GetCheckpoint Example.preparedNode.trace = none ∧
      Example.preparedNode.checkpoint.get? Example.channelClaimRef.UID
        = some Example.preparedClaim ∧
      (Example.labelStuck.unprepareDevices Example.preparedClaim.Status
          { Example.preparedNode with
            trace := Example.preparedNode.trace ++ [⟨.getCheckpoint, true⟩] }).1
        = .error (.err false "error removing Node label for ComputeDomain: conflict") ∧
      (Example.labelStuck.Unprepare Example.channelClaimRef
          Example.preparedNode).2.checkpoint.get? Example.channelClaimRef.UID
        = some Example.preparedClaim :=
  ⟨rfl, by decide, by decide,
    (Unprepare_failure_keeps_entry Example.labelStuck Example.channelClaimRef
      Example.preparedNode Example.preparedClaim
      (.err false "error removing Node label for ComputeDomain: conflict") rfl (by decide)
      (Or.inr ⟨Example.preparedClaim.Status,
        { Example.preparedNode with
          trace := Example.preparedNode.trace ++ [⟨.getCheckpoint, true⟩] },
        by decide, Or.inl (by decide)⟩)).2.2.2⟩

/-- C10, as stated, fails: after a `Prepare` that applied every device side effect of the
claim (node label added, channel device created) and then could not write the checkpoint,
the devices are prepared and not reversed, yet the claim UID is absent from the checkpoint. -/
theorem checkpoint_iff_devicesPrepared_fails :
    ¬ ((serveAll [.prepare Example.failingWrite Example.channelClaim]
            ([], Example.emptyNode)).2.checkpoint.get? "uid-a" ≠ none ↔
        devicesPrepared "uid-a"
          (serveAll [.prepare Example.failingWrite Example.channelClaim]
            ([], Example.emptyNode)).1 = true) := by
  decide

/-! ### `GetOpaqueDeviceConfigs` -/

theorem bySource_ok :
    ∀ (l classConfigs claimConfigs a b : List DeviceAllocationConfiguration),
      GetOpaqueDeviceConfigs.bySource classConfigs claimConfigs l = .ok (a, b) →
      a = classConfigs ++ l.filter (fun c => c.Source = AllocationConfigSourceClass) ∧
        b = claimConfigs ++ l.filter (fun c => c.Source = AllocationConfigSourceClaim)
  | [], cls, clm, a, b, h => by
    simp only [GetOpaqueDeviceConfigs.bySource, Except.ok.injEq, Prod.mk.injEq] at h
    simp [h.1, h.2]
  | config :: rest, cls, clm, a, b, h => by
    unfold GetOpaqueDeviceConfigs.bySource at h
    have hne : ¬ AllocationConfigSourceClass = AllocationConfigSourceClaim := by decide
    have hne' : ¬ AllocationConfigSourceClaim = AllocationConfigSourceClass := by decide
    by_cases h1 : config.Source = AllocationConfigSourceClass
    · have h2 : ¬ config.Source = AllocationConfigSourceClaim := by
        rw [h1]; decide
      rw [if_pos h1] at h
      obtain ⟨ha, hb⟩ := bySource_ok rest _ _ a b h
      simp [ha, hb, List.filter, h1, h2, hne, hne']
    · rw [if_neg h1] at h
      by_cases h2 : config.Source = AllocationConfigSourceClaim
      · rw [if_pos h2] at h
        obtain ⟨ha, hb⟩ := bySource_ok rest _ _ a b h
        simp [ha, hb, List.filter, h1, h2, hne, hne']
      · rw [if_neg h2] at h
        simp at h

theorem decodeAll_ok (decoder : String → Except GoError RuntimeObject) (driverName : String) :
    ∀ (l : List DeviceAllocationConfiguration) (acc out : List OpaqueDeviceConfig),
      GetOpaqueDeviceConfigs.decodeAll decoder driverName acc l = .ok out →
      ∃ tail, out = acc ++ tail ∧
        List.Forall₂ (DecodesTo decoder) tail (l.filter (fun c => c.isFor driverName))
  | [], acc, out, h => by
    simp only [GetOpaqueDeviceConfigs.decodeAll, Except.ok.injEq] at h
    exact ⟨[], by simp [h], by simp⟩
  | config :: rest, acc, out, h => by
    unfold GetOpaqueDeviceConfigs.decodeAll at h
    cases hopq : config.Opaque with
    | none => rw [hopq] at h; simp at h
    | some opq =>
      rw [hopq] at h
      simp only [] at h
      by_cases hd : opq.Driver = driverName
      · have hfor : config.isFor driverName = true := by
          simp [DeviceAllocationConfiguration.isFor, hopq, hd]
        simp only [hd, ne_eq, not_true_eq_false, if_false] at h
        cases hdec : decoder opq.Parameters with
        | error e => rw [hdec] at h; simp at h
        | ok decodedConfig =>
          rw [hdec] at h
          obtain ⟨tail, ht, hf⟩ := decodeAll_ok decoder driverName rest _ out h
          refine ⟨{ Requests := config.Requests, Config := decodedConfig } :: tail, ?_, ?_⟩
          · simp [ht]
          · rw [List.filter_cons, if_pos hfor]
            exact List.Forall₂.cons ⟨rfl, opq, hopq, hdec⟩ hf
      · have hfor : ¬ config.isFor driverName = true := by
          simp [DeviceAllocationConfiguration.isFor, hopq, hd]
        simp only [ne_eq, hd, not_false_eq_true, if_true] at h
        obtain ⟨tail, ht, hf⟩ := decodeAll_ok decoder driverName rest _ out h
        refine ⟨tail, ht, ?_⟩
        rw [List.filter_cons, if_neg hfor]
        exact hf

/-- C14: on success `GetOpaqueDeviceConfigs` returns, in this order, the decoded forms of
exactly the configs whose opaque driver equals `driverName`: first the class-sourced ones in
their input order, then the claim-sourced ones in their input order, each with its request
list.  The list is ordered from lowest to highest precedence, so a claim config comes after
(outranks) every class config and, within one source, a later config comes after an earlier
one. -/
theorem GetOpaqueDeviceConfigs_order (decoder : String → Except GoError RuntimeObject)
    (driverName : String) (possibleConfigs : List DeviceAllocationConfiguration)
    (out : List OpaqueDeviceConfig)
    (hok : GetOpaqueDeviceConfigs decoder driverName possibleConfigs = .ok out) :
    List.Forall₂ (DecodesTo decoder) out
      ((possibleConfigs.filter (fun c => c.Source = AllocationConfigSourceClass) ++
          possibleConfigs.filter (fun c => c.Source = AllocationConfigSourceClaim)).filter
        (fun c => c.isFor driverName)) := by
  unfold GetOpaqueDeviceConfigs at hok
  rcases hs : GetOpaqueDeviceConfigs.bySource [] [] possibleConfigs with _ | ⟨a, b⟩
  · rw [hs] at hok; simp at hok
  · rw [hs] at hok
    simp only [] at hok
    obtain ⟨ha, hb⟩ := bySource_ok possibleConfigs [] [] a b hs
    obtain ⟨tail, ht, hf⟩ := decodeAll_ok decoder driverName _ [] out hok
    simp only [List.nil_append] at ha hb ht
    rw [ht, ← ha, ← hb]
    exact hf

/-! ### The walk over the configs: `getConfigResultsMap.choose` -/

theorem choose_mem (device : AllocatableDevice) (request : String) :
    ∀ (l : List (Nat × OpaqueDeviceConfig)) (p : Nat × OpaqueDeviceConfig),
      getConfigResultsMap.choose device request l = .ok (some p) → p ∈ l
  | [], p, h => by simp [getConfigResultsMap.choose] at h
  | (i, c) :: rest, p, h => by
    unfold getConfigResultsMap.choose at h
    split_ifs at h
    all_goals first
      | (simp only [Except.ok.injEq, Option.some.injEq] at h; simp [← h])
      | exact List.mem_cons_of_mem _ (choose_mem device request rest p h)

theorem choose_none (device : AllocatableDevice) (request : String) :
    ∀ (l : List (Nat × OpaqueDeviceConfig)),
      getConfigResultsMap.choose device request l = .ok none →
      ∀ p ∈ l, p.2.passedOver device request = true
  | [], _, p, hp => by simp at hp
  | (i, c) :: rest, h, p, hp => by
    unfold getConfigResultsMap.choose at h
    rcases List.mem_cons.1 hp with rfl | hp'
    · split_ifs at h with h1 h2 h3 h4 h5 h6 <;>
        simp_all [OpaqueDeviceConfig.passedOver]
    · split_ifs at h
      all_goals first
        | exact choose_none device request rest h p hp'
        | simp at h

theorem choose_passedOver (device : AllocatableDevice) (request : String) :
    ∀ (front rest : List (Nat × OpaqueDeviceConfig)),
      (∀ p ∈ front, p.2.passedOver device request = true) →
      getConfigResultsMap.choose device request (front ++ rest)
        = getConfigResultsMap.choose device request rest
  | [], _, _ => rfl
  | (i, c) :: front, rest, h => by
    have hc : c.passedOver device request = true := h (i, c) (List.mem_cons_self _ _)
    have ih := choose_passedOver device request front rest
      (fun p hp => h p (List.mem_cons_of_mem _ hp))
    simp only [OpaqueDeviceConfig.passedOver, Bool.and_eq_true, Bool.not_eq_true',
      Bool.or_eq_true, bne_iff_ne, ne_eq] at hc
    obtain ⟨hc1, hc2⟩ := hc
    simp only [List.cons_append]
    conv_lhs => rw [getConfigResultsMap.choose]
    simp only [hc1, Bool.false_eq_true, if_false]
    split_ifs with h1 h2 h3
    · exact ih
    · exact ih
    · exfalso
      simp only [Bool.and_eq_true, bne_iff_ne, ne_eq, not_and, Decidable.not_not] at h2 h3
      rcases hc2 with (hc2 | hc2) | hc2
      · exact hc2 h1
      · exact hc2.2 (h2 hc2.1)
      · exact hc2.2 (h3 hc2.1)
    · exact ih

theorem choose_not_permanent (device : AllocatableDevice) (request : String) :
    ∀ (l : List (Nat × OpaqueDeviceConfig)) (e : GoError),
      getConfigResultsMap.choose device request l = .error e → e.isPermanent = false
  | [], e, h => by simp [getConfigResultsMap.choose] at h
  | (i, c) :: rest, e, h => by
    unfold getConfigResultsMap.choose at h
    split_ifs at h
    all_goals first
      | exact choose_not_permanent device request rest e h
      | (simp only [Except.error.injEq] at h; rw [← h]; rfl)

/-- The walk from highest to lowest precedence over `lower ++ [x] ++ higher`, when it passes
over every config of `higher`, reaches `x`. -/
theorem choose_reaches (device : AllocatableDevice) (request : String)
    (lower higher : List OpaqueDeviceConfig) (x : OpaqueDeviceConfig)
    (h : ∀ y ∈ higher, y.passedOver device request = true) :
    getConfigResultsMap.choose device request (lower ++ [x] ++ higher).enum.reverse
      = getConfigResultsMap.choose device request ((lower.length, x) :: lower.enum.reverse) := by
  have henum : (lower ++ [x] ++ higher).enum.reverse
      = (higher.enumFrom (lower.length + 1)).reverse ++ ((lower.length, x) :: lower.enum.reverse) := by
    simp [List.enum, List.enumFrom_append, List.enumFrom_cons]
  rw [henum]
  apply choose_passedOver
  intro p hp
  obtain ⟨i, y⟩ := p
  have hy := (List.mem_enumFrom (List.mem_reverse.1 hp)).2.2
  exact h y (hy ▸ List.getElem_mem _)

/-! ### The map of configs to results: `ConfigResultsMap.append` and the outer loop -/

theorem append_keys :
    ∀ (m : ConfigResultsMap) (i : Nat) (c : RuntimeObject) (r : DeviceRequestAllocationResult),
      (m.append i c r).map (fun e => e.1)
        = if i ∈ m.map (fun e => e.1) then m.map (fun e => e.1)
          else m.map (fun e => e.1) ++ [i]
  | [], i, c, r => by simp [ConfigResultsMap.append]
  | (j, cj, rs) :: rest, i, c, r => by
    unfold ConfigResultsMap.append
    by_cases h : j = i
    · simp [h]
    · have h' : ¬ i = j := fun h1 => h h1.symm
      simp only [h, if_false, List.map_cons, List.mem_cons, h', false_or, append_keys rest i c r]
      split_ifs <;> simp

theorem append_keys_nodup (m : ConfigResultsMap) (i : Nat) (c : RuntimeObject)
    (r : DeviceRequestAllocationResult) (h : (m.map (fun e => e.1)).Nodup) :
    ((m.append i c r).map (fun e => e.1)).Nodup := by
  rw [append_keys]
  split_ifs with hi
  · exact h
  · exact List.nodup_append.2 ⟨h, List.nodup_singleton _, by
      intro a ha hb
      rw [List.mem_singleton] at hb
      exact hi (hb ▸ ha)⟩

theorem append_flatMap_perm :
    ∀ (m : ConfigResultsMap) (i : Nat) (c : RuntimeObject) (r : DeviceRequestAllocationResult),
      ((m.append i c r).flatMap (fun e => e.2.2)).Perm (m.flatMap (fun e => e.2.2) ++ [r])
  | [], i, c, r => by simp [ConfigResultsMap.append]
  | (j, cj, rs) :: rest, i, c, r => by
    unfold ConfigResultsMap.append
    by_cases h : j = i
    · simp only [h, if_true, List.flatMap_cons, List.append_assoc]
      exact List.Perm.append_left rs List.perm_append_comm
    · simp only [h, if_false, List.flatMap_cons, List.append_assoc]
      exact List.Perm.append_left rs (append_flatMap_perm rest i c r)

theorem append_mem_new :
    ∀ (m : ConfigResultsMap) (i : Nat) (c : RuntimeObject) (r : DeviceRequestAllocationResult),
      ∃ cj rs, (i, cj, rs) ∈ m.append i c r ∧ r ∈ rs
  | [], i, c, r => ⟨c, [r], by simp [ConfigResultsMap.append], by simp⟩
  | (j, cj, rs) :: rest, i, c, r => by
    unfold ConfigResultsMap.append
    by_cases h : j = i
    · exact ⟨cj, rs ++ [r], by simp [h], by simp⟩
    · obtain ⟨ck, rk, h1, h2⟩ := append_mem_new rest i c r
      exact ⟨ck, rk, by simp [h, h1], h2⟩

theorem append_mono :
    ∀ (m : ConfigResultsMap) (i : Nat) (c : RuntimeObject) (r : DeviceRequestAllocationResult)
      (j : Nat) (cj : RuntimeObject) (rs : List DeviceRequestAllocationResult),
      (j, cj, rs) ∈ m → ∃ rs', (j, cj, rs') ∈ m.append i c r ∧ ∀ x ∈ rs, x ∈ rs'
  | [], _, _, _, _, _, _, h => by simp at h
  | (k, ck, rk) :: rest, i, c, r, j, cj, rs, h => by
    unfold ConfigResultsMap.append
    rcases List.mem_cons.1 h with heq | hin
    · simp only [Prod.mk.injEq] at heq
      obtain ⟨rfl, rfl, rfl⟩ := heq
      by_cases hk : j = i
      · exact ⟨rs ++ [r], by simp [hk], fun x hx => List.mem_append_left _ hx⟩
      · exact ⟨rs, by simp [hk], fun x hx => hx⟩
    · by_cases hk : k = i
      · exact ⟨rs, by simp [hk, hin], fun x hx => hx⟩
      · obtain ⟨rs', h1, h2⟩ := append_mono rest i c r j cj rs hin
        exact ⟨rs', by simp [hk, h1], h2⟩

theorem append_config :
    ∀ (m : ConfigResultsMap) (i : Nat) (c : RuntimeObject) (r : DeviceRequestAllocationResult)
      (e : Nat × RuntimeObject × List DeviceRequestAllocationResult),
      e ∈ m.append i c r → (∃ rs0, (e.1, e.2.1, rs0) ∈ m) ∨ (e.1 = i ∧ e.2.1 = c)
  | [], i, c, r, e, h => by
    simp only [ConfigResultsMap.append, List.mem_singleton] at h
    exact Or.inr (by simp [h])
  | (k, ck, rk) :: rest, i, c, r, e, h => by
    unfold ConfigResultsMap.append at h
    by_cases hk : k = i
    · simp only [hk, if_true, List.mem_cons] at h
      rcases h with rfl | hin
      · exact Or.inl ⟨rk, by simp [hk]⟩
      · exact Or.inl ⟨e.2.2, List.mem_cons_of_mem _ hin⟩
    · simp only [hk, if_false, List.mem_cons] at h
      rcases h with rfl | hin
      · exact Or.inl ⟨rk, by simp⟩
      · rcases append_config rest i c r e hin with ⟨rs0, h0⟩ | h0
        · exact Or.inl ⟨rs0, List.mem_cons_of_mem _ h0⟩
        · exact Or.inr h0

theorem group_eq_foldl (driverName : String) (allocatable : String → Option AllocatableDevice)
    (configs : List OpaqueDeviceConfig) :
    ∀ (results : List DeviceRequestAllocationResult) (m0 m : ConfigResultsMap),
      getConfigResultsMap.group driverName allocatable configs m0 results = .ok m →
      m = results.foldl (getConfigResultsMap.step driverName allocatable configs) m0
  | [], m0, m, h => by
    simp only [getConfigResultsMap.group, Except.ok.injEq] at h
    simp [h]
  | result :: rest, m0, m, h => by
    unfold getConfigResultsMap.group at h
    simp only [List.foldl_cons, getConfigResultsMap.step, getConfigResultsMap.chosen]
    by_cases hd : result.Driver ≠ driverName
    · rw [if_pos hd] at h ⊢
      exact group_eq_foldl driverName allocatable configs rest m0 m h
    · rw [if_neg hd] at h ⊢
      cases ha : allocatable result.Device with
      | none => rw [ha] at h; simp at h
      | some device =>
        rw [ha] at h
        simp only [] at h ⊢
        rcases hc : getConfigResultsMap.choose device result.Request configs.enum.reverse
          with e | _ | ⟨i, c⟩
        · rw [hc] at h; simp at h
        · rw [hc] at h
          exact group_eq_foldl driverName allocatable configs rest m0 m h
        · rw [hc] at h
          exact group_eq_foldl driverName allocatable configs rest _ m h

theorem group_ok_each (driverName : String) (allocatable : String → Option AllocatableDevice)
    (configs : List OpaqueDeviceConfig) :
    ∀ (results : List DeviceRequestAllocationResult) (m0 m : ConfigResultsMap),
      getConfigResultsMap.group driverName allocatable configs m0 results = .ok m →
      ∀ r ∈ results, r.Driver = driverName →
        ∃ device, allocatable r.Device = some device ∧
          ∃ o, getConfigResultsMap.choose device r.Request configs.enum.reverse = .ok o
  | [], _, _, _, r, hr, _ => by simp at hr
  | result :: rest, m0, m, h, r, hr, hdr => by
    unfold getConfigResultsMap.group at h
    by_cases hd : result.Driver ≠ driverName
    · rw [if_pos hd] at h
      rcases List.mem_cons.1 hr with rfl | hr'
      · exact absurd hdr hd
      · exact group_ok_each driverName allocatable configs rest m0 m h r hr' hdr
    · rw [if_neg hd] at h
      cases ha : allocatable result.Device with
      | none => rw [ha] at h; simp at h
      | some device =>
        rw [ha] at h
        simp only [] at h
        rcases hc : getConfigResultsMap.choose device result.Request configs.enum.reverse
          with e | o
        · rw [hc] at h; simp at h
        · rw [hc] at h
          rcases List.mem_cons.1 hr with rfl | hr'
          · exact ⟨device, ha, o, hc⟩
          · cases o with
            | none => exact group_ok_each driverName allocatable configs rest m0 m h r hr' hdr
            | some p => exact group_ok_each driverName allocatable configs rest _ m h r hr' hdr

theorem group_not_permanent (driverName : String)
    (allocatable : String → Option AllocatableDevice) (configs : List OpaqueDeviceConfig) :
    ∀ (results : List DeviceRequestAllocationResult) (m0 : ConfigResultsMap) (e : GoError),
      getConfigResultsMap.group driverName allocatable configs m0 results = .error e →
      e.isPermanent = false
  | [], _, e, h => by simp [getConfigResultsMap.group] at h
  | result :: rest, m0, e, h => by
    unfold getConfigResultsMap.group at h
    by_cases hd : result.Driver ≠ driverName
    · rw [if_pos hd] at h
      exact group_not_permanent driverName allocatable configs rest m0 e h
    · rw [if_neg hd] at h
      cases ha : allocatable result.Device with
      | none =>
        rw [ha] at h
        simp only [Except.error.injEq] at h
        rw [← h]; rfl
      | some device =>
        rw [ha] at h
        simp only [] at h
        rcases hc : getConfigResultsMap.choose device result.Request configs.enum.reverse
          with e1 | _ | ⟨i, c⟩
        · rw [hc] at h
          simp only [Except.error.injEq] at h
          rw [← h]
          exact choose_not_permanent _ _ _ _ hc
        · rw [hc] at h
          exact group_not_permanent driverName allocatable configs rest m0 e h
        · rw [hc] at h
          exact group_not_permanent driverName allocatable configs rest _ e h

theorem foldl_keys_nodup (driverName : String)
    (allocatable : String → Option AllocatableDevice) (configs : List OpaqueDeviceConfig) :
    ∀ (results : List DeviceRequestAllocationResult) (m0 : ConfigResultsMap),
      (m0.map (fun e => e.1)).Nodup →
      ((results.foldl (getConfigResultsMap.step driverName allocatable configs) m0).map
        (fun e => e.1)).Nodup
  | [], _, h => h
  | r :: rest, m0, h => by
    simp only [List.foldl_cons]
    apply foldl_keys_nodup driverName allocatable configs rest
    unfold getConfigResultsMap.step
    split
    · exact append_keys_nodup _ _ _ _ h
    · exact h

theorem foldl_perm (driverName : String)
    (allocatable : String → Option AllocatableDevice) (configs : List OpaqueDeviceConfig) :
    ∀ (results : List DeviceRequestAllocationResult) (m0 : ConfigResultsMap),
      ((results.foldl (getConfigResultsMap.step driverName allocatable configs) m0).flatMap
          (fun e => e.2.2)).Perm
        (m0.flatMap (fun e => e.2.2) ++
          results.filter (fun r =>
            (getConfigResultsMap.chosen driverName allocatable configs r).isSome))
  | [], m0 => by simp
  | r :: rest, m0 => by
    simp only [List.foldl_cons]
    refine (foldl_perm driverName allocatable configs rest _).trans ?_
    unfold getConfigResultsMap.step
    cases hc : getConfigResultsMap.chosen driverName allocatable configs r with
    | none => simp [List.filter_cons, hc]
    | some p =>
      simp only [List.filter_cons, hc, Option.isSome_some, if_true]
      refine (List.Perm.append_right _ (append_flatMap_perm m0 p.1 p.2.Config r)).trans ?_
      simp

theorem foldl_mono (driverName : String)
    (allocatable : String → Option AllocatableDevice) (configs : List OpaqueDeviceConfig) :
    ∀ (results : List DeviceRequestAllocationResult) (m0 : ConfigResultsMap) (j : Nat)
      (cj : RuntimeObject) (rs : List DeviceRequestAllocationResult),
      (j, cj, rs) ∈ m0 →
      ∃ rs', (j, cj, rs') ∈
          results.foldl (getConfigResultsMap.step driverName allocatable configs) m0 ∧
        ∀ x ∈ rs, x ∈ rs'
  | [], _, _, _, rs, h => ⟨rs, h, fun _ hx => hx⟩
  | r :: rest, m0, j, cj, rs, h => by
    simp only [List.foldl_cons]
    have h1 : ∃ rs1, (j, cj, rs1) ∈ getConfigResultsMap.step driverName allocatable configs m0 r ∧
        ∀ x ∈ rs, x ∈ rs1 := by
      unfold getConfigResultsMap.step
      split
      · exact append_mono _ _ _ _ _ _ _ h
      · exact ⟨rs, h, fun _ hx => hx⟩
    obtain ⟨rs1, h2, h3⟩ := h1
    obtain ⟨rs', h4, h5⟩ := foldl_mono driverName allocatable configs rest _ j cj rs1 h2
    exact ⟨rs', h4, fun x hx => h5 x (h3 x hx)⟩

theorem foldl_mem (driverName : String)
    (allocatable : String → Option AllocatableDevice) (configs : List OpaqueDeviceConfig) :
    ∀ (results : List DeviceRequestAllocationResult) (m0 : ConfigResultsMap)
      (r : DeviceRequestAllocationResult) (i : Nat) (c : OpaqueDeviceConfig),
      r ∈ results →
      getConfigResultsMap.chosen driverName allocatable configs r = some (i, c) →
      ∃ cj rs, (i, cj, rs) ∈
          results.foldl (getConfigResultsMap.step driverName allocatable configs) m0 ∧
        r ∈ rs
  | [], _, _, _, _, h, _ => by simp at h
  | r0 :: rest, m0, r, i, c, h, hc => by
    simp only [List.foldl_cons]
    rcases List.mem_cons.1 h with rfl | hin
    · have h1 : ∃ cj rs1, (i, cj, rs1) ∈
          getConfigResultsMap.step driverName allocatable configs m0 r ∧ r ∈ rs1 := by
        simp only [getConfigResultsMap.step, hc]
        exact append_mem_new _ _ _ _
      obtain ⟨cj, rs1, h2, h3⟩ := h1
      obtain ⟨rs', h4, h5⟩ := foldl_mono driverName allocatable configs rest _ i cj rs1 h2
      exact ⟨cj, rs', h4, h5 r h3⟩
    · exact foldl_mem driverName allocatable configs rest _ r i c hin hc

theorem chosen_getElem (driverName : String)
    (allocatable : String → Option AllocatableDevice) (configs : List OpaqueDeviceConfig)
    (r : DeviceRequestAllocationResult) (i : Nat) (c : OpaqueDeviceConfig)
    (h : getConfigResultsMap.chosen driverName allocatable configs r = some (i, c)) :
    configs[i]? = some c := by
  unfold getConfigResultsMap.chosen at h
  split_ifs at h
  cases ha : allocatable r.Device with
  | none => rw [ha] at h; simp at h
  | some device =>
    rw [ha] at h
    simp only [] at h
    rcases hc : getConfigResultsMap.choose device r.Request configs.enum.reverse
      with e | _ | p
    · rw [hc] at h; simp at h
    · rw [hc] at h; simp at h
    · rw [hc] at h
      simp only [Option.some.injEq] at h
      subst h
      have := choose_mem _ _ _ _ hc
      exact List.mk_mem_enum_iff_getElem?.1 (List.mem_reverse.1 this)

theorem foldl_config (driverName : String)
    (allocatable : String → Option AllocatableDevice) (configs : List OpaqueDeviceConfig) :
    ∀ (results : List DeviceRequestAllocationResult) (m0 : ConfigResultsMap),
      (∀ e ∈ m0, ∃ x, configs[e.1]? = some x ∧ x.Config = e.2.1) →
      ∀ e ∈ results.foldl (getConfigResultsMap.step driverName allocatable configs) m0,
        ∃ x, configs[e.1]? = some x ∧ x.Config = e.2.1
  | [], _, h => h
  | r :: rest, m0, h => by
    simp only [List.foldl_cons]
    apply foldl_config driverName allocatable configs rest
    intro e he
    unfold getConfigResultsMap.step at he
    cases hc : getConfigResultsMap.chosen driverName allocatable configs r with
    | none => rw [hc] at he; exact h e he
    | some p =>
      rw [hc] at he
      rcases append_config _ _ _ _ e he with ⟨rs0, h0⟩ | ⟨h1, h2⟩
      · exact h (e.1, e.2.1, rs0) h0
      · exact ⟨p.2, by rw [h1]; exact chosen_getElem _ _ _ _ _ _ hc, h2.symm⟩

/-- What a successful `getConfigResultsMap` returns: the outer loop run over the results of
the allocation, with the configs `GetOpaqueDeviceConfigs` decoded put behind the two
defaults. -/
theorem getConfigResultsMap_ok (s : DeviceState) (status : ResourceClaimStatus)
    (m : ConfigResultsMap) (hok : s.getConfigResultsMap status = .ok m) :
    ∃ alloc configs, status.Allocation = some alloc ∧
      GetOpaqueDeviceConfigs s.configapi.Decoder s.DriverName alloc.Devices.Config
        = .ok configs ∧
      getConfigResultsMap.group s.DriverName s.allocatable (s.configList configs) []
        alloc.Devices.Results = .ok m := by
  unfold DeviceState.getConfigResultsMap at hok
  cases ha : status.Allocation with
  | none => rw [ha] at hok; simp at hok
  | some alloc =>
    rw [ha] at hok
    simp only [] at hok
    cases hc : GetOpaqueDeviceConfigs s.configapi.Decoder s.DriverName alloc.Devices.Config with
    | error e => rw [hc] at hok; simp at hok
    | ok configs =>
      rw [hc] at hok
      exact ⟨alloc, configs, rfl, hc, hok⟩

theorem getConfigResultsMap_not_permanent (s : DeviceState) (status : ResourceClaimStatus)
    (e : GoError) (h : s.getConfigResultsMap status = .error e) : e.isPermanent = false := by
  unfold DeviceState.getConfigResultsMap at h
  cases ha : status.Allocation with
  | none =>
    rw [ha] at h
    simp only [Except.error.injEq] at h
    rw [← h]; rfl
  | some alloc =>
    rw [ha] at h
    simp only [] at h
    cases hc : GetOpaqueDeviceConfigs s.configapi.Decoder s.DriverName alloc.Devices.Config with
    | error e1 =>
      rw [hc] at h
      simp only [Except.error.injEq] at h
      rw [← h]
      cases e1 <;> rfl
    | ok configs =>
      rw [hc] at h
      exact group_not_permanent _ _ _ _ _ _ h

theorem chosen_of_typed (s : DeviceState) (configs : List OpaqueDeviceConfig)
    (r : DeviceRequestAllocationResult) (device : AllocatableDevice)
    (o : Option (Nat × OpaqueDeviceConfig)) (hdriver : r.Driver = s.DriverName)
    (hdev : s.allocatable r.Device = some device)
    (htype : device.Type_ = ComputeDomainChannelType ∨ device.Type_ = ComputeDomainDaemonType)
    (hc : getConfigResultsMap.choose device r.Request (s.configList configs).enum.reverse
      = .ok o) :
    (getConfigResultsMap.chosen s.DriverName s.allocatable (s.configList configs) r).isSome
      = true := by
  cases o with
  | some p => simp [getConfigResultsMap.chosen, hdriver, hdev, hc]
  | none =>
    exfalso
    have hall := choose_none _ _ _ hc
    rcases htype with ht | ht
    · have h1 := hall
        (1, { Requests := [],
              Config := .channelConfig s.configapi.DefaultComputeDomainChannelConfig })
        (List.mem_reverse.2 (List.mk_mem_enum_iff_getElem?.2 (by simp [DeviceState.configList])))
      simp [OpaqueDeviceConfig.passedOver, RuntimeObject.isChannelConfig,
        RuntimeObject.isDaemonConfig, ht] at h1
    · have h0 := hall
        (0, { Requests := [],
              Config := .daemonConfig s.configapi.DefaultComputeDomainDaemonConfig })
        (List.mem_reverse.2 (List.mk_mem_enum_iff_getElem?.2 (by simp [DeviceState.configList])))
      simp [OpaqueDeviceConfig.passedOver, RuntimeObject.isChannelConfig,
        RuntimeObject.isDaemonConfig, ht] at h0

/-- C13: for a claim status in which each allocation result of this driver names an
allocatable device of channel or daemon type and for which `getConfigResultsMap` succeeds,
the groups have distinct configs and, taken together, hold exactly the results of this
driver, each as often as the allocation lists it: every result of this driver is in exactly
one group, once, and no result of another driver is in any group. -/
theorem getConfigResultsMap_partitions (s : DeviceState) (status : ResourceClaimStatus)
    (alloc : AllocationResult) (m : ConfigResultsMap)
    (halloc : status.Allocation = some alloc)
    (htyped : ∀ r ∈ alloc.Devices.Results, r.Driver = s.DriverName →
      ∃ device, s.allocatable r.Device = some device ∧
        (device.Type_ = ComputeDomainChannelType ∨ device.Type_ = ComputeDomainDaemonType))
    (hok : s.getConfigResultsMap status = .ok m) :
    (m.map (fun e => e.1)).Nodup ∧
      (m.flatMap (fun e => e.2.2)).Perm
        (alloc.Devices.Results.filter (fun r => r.Driver = s.DriverName)) := by
  obtain ⟨alloc', configs, ha, -, hg⟩ := getConfigResultsMap_ok s status m hok
  rw [halloc] at ha
  simp only [Option.some.injEq] at ha
  subst ha
  have hm := group_eq_foldl _ _ _ _ _ _ hg
  have heach := group_ok_each _ _ _ _ _ _ hg
  subst hm
  refine ⟨foldl_keys_nodup _ _ _ _ [] List.nodup_nil, ?_⟩
  refine (foldl_perm _ _ _ _ []).trans ?_
  simp only [List.flatMap_nil, List.nil_append]
  have hfilter : alloc.Devices.Results.filter (fun r =>
        (getConfigResultsMap.chosen s.DriverName s.allocatable (s.configList configs) r).isSome)
      = alloc.Devices.Results.filter (fun r => r.Driver = s.DriverName) := by
    apply List.filter_congr
    intro r hr
    by_cases hd : r.Driver = s.DriverName
    · obtain ⟨device, hdev, o, hc⟩ := heach r hr hd
      obtain ⟨device', hdev', htype⟩ := htyped r hr hd
      rw [hdev] at hdev'
      simp only [Option.some.injEq] at hdev'
      subst hdev'
      rw [chosen_of_typed s configs r device o hd hdev htype hc]
      simp [hd]
    · simp [getConfigResultsMap.chosen, hd]
  rw [hfilter]

theorem configList_split (s : DeviceState) (lower higher : List OpaqueDeviceConfig)
    (x : OpaqueDeviceConfig) :
    s.configList (lower ++ [x] ++ higher)
      = s.configList lower ++ [x] ++ higher := by
  simp [DeviceState.configList]

theorem configList_length (s : DeviceState) (configs : List OpaqueDeviceConfig) :
    (s.configList configs).length = configs.length + 2 := by
  simp [DeviceState.configList]

/-- Where a result ends up when `getConfigResultsMap` succeeds: in the group of the config
the walk settles on for it. -/
theorem getConfigResultsMap_group_of_chosen (s : DeviceState) (status : ResourceClaimStatus)
    (alloc : AllocationResult) (configs : List OpaqueDeviceConfig) (m : ConfigResultsMap)
    (result : DeviceRequestAllocationResult) (i : Nat) (c : OpaqueDeviceConfig)
    (halloc : status.Allocation = some alloc)
    (hconfigs : GetOpaqueDeviceConfigs s.configapi.Decoder s.DriverName alloc.Devices.Config
      = .ok configs)
    (hresult : result ∈ alloc.Devices.Results)
    (hchosen : getConfigResultsMap.chosen s.DriverName s.allocatable (s.configList configs)
      result = some (i, c))
    (hok : s.getConfigResultsMap status = .ok m) :
    ∃ rs, (i, c.Config, rs) ∈ m ∧ result ∈ rs := by
  obtain ⟨alloc', configs', ha, hc, hg⟩ := getConfigResultsMap_ok s status m hok
  rw [halloc] at ha
  simp only [Option.some.injEq] at ha
  subst ha
  rw [hconfigs] at hc
  simp only [Except.ok.injEq] at hc
  subst hc
  have hm := group_eq_foldl _ _ _ _ _ _ hg
  subst hm
  obtain ⟨cj, rs, h1, h2⟩ := foldl_mem s.DriverName s.allocatable (s.configList configs)
    alloc.Devices.Results [] result i c hresult hchosen
  obtain ⟨x, hx1, hx2⟩ := foldl_config s.DriverName s.allocatable (s.configList configs)
    alloc.Devices.Results [] (by simp) _ h1
  have hi := chosen_getElem _ _ _ _ _ _ hchosen
  simp only [] at hx1 hx2
  rw [hi] at hx1
  simp only [Option.some.injEq] at hx1
  subst hx1
  exact ⟨rs, hx2 ▸ h1, h2⟩

/-- C11, as amended: in a claim with a DaemonConfig that explicitly names the request of a
result, where every config of higher precedence is a wildcard ChannelConfig (such as a
claim-level wildcard ChannelConfig over a class-level DaemonConfig), a successful
`getConfigResultsMap` assigns the result to the daemon config when the allocated device is
daemon-typed; when the device is channel-typed and there is such a wildcard, it assigns the
result to the wildcard ChannelConfig of highest precedence instead. -/
theorem getConfigResultsMap_explicit_daemon_below_wildcard (s : DeviceState)
    (status : ResourceClaimStatus) (alloc : AllocationResult)
    (lower higher : List OpaqueDeviceConfig) (reqs : List String)
    (d : ComputeDomainDaemonConfig) (result : DeviceRequestAllocationResult)
    (device : AllocatableDevice) (m : ConfigResultsMap)
    (halloc : status.Allocation = some alloc)
    (hconfigs : GetOpaqueDeviceConfigs s.configapi.Decoder s.DriverName alloc.Devices.Config
      = .ok (lower ++ [{ Requests := reqs, Config := .daemonConfig d }] ++ higher))
    (hhigher : ∀ x ∈ higher, x.Requests = [] ∧ x.Config.isChannelConfig = true)
    (hresult : result ∈ alloc.Devices.Results) (hdriver : result.Driver = s.DriverName)
    (hnamed : result.Request ∈ reqs) (hdev : s.allocatable result.Device = some device)
    (hok : s.getConfigResultsMap status = .ok m) :
    (device.Type_ = ComputeDomainDaemonType →
        ∃ rs, (lower.length + 2, RuntimeObject.daemonConfig d, rs) ∈ m ∧ result ∈ rs) ∧
      (device.Type_ = ComputeDomainChannelType →
        ∀ w, higher.getLast? = some w →
          ∃ rs, (lower.length + 2 + higher.length, w.Config, rs) ∈ m ∧ result ∈ rs) := by
  constructor
  · intro hty
    have hpass : ∀ y ∈ higher, y.passedOver device result.Request = true := by
      intro y hy
      obtain ⟨h1, h2⟩ := hhigher y hy
      simp [OpaqueDeviceConfig.passedOver, h1, h2, hty, ComputeDomainDaemonType,
        ComputeDomainChannelType]
    have hch : getConfigResultsMap.chosen s.DriverName s.allocatable
        (s.configList (lower ++ [{ Requests := reqs, Config := .daemonConfig d }] ++ higher))
        result = some (lower.length + 2, { Requests := reqs, Config := .daemonConfig d }) := by
      simp only [getConfigResultsMap.chosen, hdriver, ne_eq, not_true_eq_false, if_false, hdev,
        configList_split, choose_reaches _ _ _ _ _ hpass, configList_length]
      have hcont : reqs.contains result.Request = true := by simpa using hnamed
      simp [getConfigResultsMap.choose, hcont, hnamed, RuntimeObject.isChannelConfig,
        RuntimeObject.isDaemonConfig, hty]
    exact getConfigResultsMap_group_of_chosen s status alloc _ m result _ _ halloc hconfigs
      hresult hch hok
  · intro hty w hw
    obtain ⟨init, hinit⟩ : ∃ init, higher = init ++ [w] := by
      rcases List.eq_nil_or_concat higher with h | ⟨init, b, h⟩
      · rw [h] at hw; simp at hw
      · rw [h] at hw
        have hb : b = w := by simpa using hw
        exact ⟨init, by rw [h, hb]; simp⟩
    obtain ⟨hw1, hw2⟩ := hhigher w (by rw [hinit]; simp)
    have hsplit : s.configList
          (lower ++ [{ Requests := reqs, Config := .daemonConfig d }] ++ higher)
        = s.configList (lower ++ [{ Requests := reqs, Config := .daemonConfig d }] ++ init)
          ++ [w] ++ [] := by
      simp [DeviceState.configList, hinit]
    have hnotd : w.Config.isDaemonConfig = false := by
      cases hcfg : w.Config <;> simp_all [RuntimeObject.isChannelConfig,
        RuntimeObject.isDaemonConfig]
    have hch : getConfigResultsMap.chosen s.DriverName s.allocatable
        (s.configList (lower ++ [{ Requests := reqs, Config := .daemonConfig d }] ++ higher))
        result = some (lower.length + 2 + higher.length, w) := by
      simp only [getConfigResultsMap.chosen, hdriver, ne_eq, not_true_eq_false, if_false, hdev]
      have hlen : (s.configList
            (lower ++ [{ Requests := reqs, Config := .daemonConfig d }] ++ init)).length
          = lower.length + 2 + higher.length := by
        simp [DeviceState.configList, hinit]; omega
      rw [hsplit, choose_reaches _ _ _ _ _ (by simp), hlen]
      simp [getConfigResultsMap.choose, hw1, hw2, hnotd, hty]
    exact getConfigResultsMap_group_of_chosen s status alloc _ m result _ _ halloc hconfigs
      hresult hch hok

theorem group_error_of (driverName : String) (allocatable : String → Option AllocatableDevice)
    (configs : List OpaqueDeviceConfig) (results : List DeviceRequestAllocationResult)
    (m0 : ConfigResultsMap) (r : DeviceRequestAllocationResult) (device : AllocatableDevice)
    (e : GoError) (hr : r ∈ results) (hdriver : r.Driver = driverName)
    (hdev : allocatable r.Device = some device)
    (hc : getConfigResultsMap.choose device r.Request configs.enum.reverse = .error e) :
    ∃ e', getConfigResultsMap.group driverName allocatable configs m0 results = .error e' := by
  cases hg : getConfigResultsMap.group driverName allocatable configs m0 results with
  | error e' => exact ⟨e', rfl⟩
  | ok m =>
    exfalso
    obtain ⟨device', hdev', o, ho⟩ := group_ok_each _ _ _ _ _ _ hg r hr hdriver
    rw [hdev] at hdev'
    simp only [Option.some.injEq] at hdev'
    subst hdev'
    rw [hc] at ho
    simp at ho

theorem prepareDevices_of_resolution_error (s : DeviceState) (claim : ResourceClaim) (n : Node)
    (e : GoError) (h : s.getConfigResultsMap claim.Status = .error e) :
    s.prepareDevices claim n = (.error (e.wrapW "error generating configResultsMap"), n) := by
  simp [DeviceState.prepareDevices, h]

theorem isPermanent_wrapW (msg : String) (e : GoError) :
    (e.wrapW msg).isPermanent = e.isPermanent := by
  cases e <;> rfl

/-- C12, as amended: in a claim with a ChannelConfig that explicitly names the request of a
result whose allocated device is daemon-typed, when the walk passes over every config of
higher precedence (none lists the request, and the wildcards among them are ChannelConfigs),
`getConfigResultsMap` fails, and so does a `Prepare` that reaches config resolution; the
failure does not carry the permanent marker, and `Prepare` leaves the checkpoint as it
is. -/
theorem getConfigResultsMap_explicit_mismatch (s : DeviceState) (status : ResourceClaimStatus)
    (alloc : AllocationResult) (lower higher : List OpaqueDeviceConfig) (reqs : List String)
    (c : ComputeDomainChannelConfig) (result : DeviceRequestAllocationResult)
    (device : AllocatableDevice) (halloc : status.Allocation = some alloc)
    (hconfigs : GetOpaqueDeviceConfigs s.configapi.Decoder s.DriverName alloc.Devices.Config
      = .ok (lower ++ [{ Requests := reqs, Config := .channelConfig c }] ++ higher))
    (hresult : result ∈ alloc.Devices.Results) (hdriver : result.Driver = s.DriverName)
    (hnamed : result.Request ∈ reqs) (hdev : s.allocatable result.Device = some device)
    (hdaemon : device.Type_ = ComputeDomainDaemonType)
    (hfirst : ∀ y ∈ higher, y.passedOver device result.Request = true) :
    (∃ e, s.getConfigResultsMap status = .error e ∧ e.isPermanent = false) ∧
      ∀ (claim : ResourceClaim) (n : Node), claim.Status = status →
        s.checkpointManager.GetCheckpoint n.trace = none →
        n.checkpoint.get? claim.UID = none →
        ∃ e, (s.Prepare claim n).1 = .error e ∧ e.isPermanent = false ∧
          (s.Prepare claim n).2.checkpoint = n.checkpoint := by
  have hfail : ∃ e, s.getConfigResultsMap status = .error e := by
    have hchoose : getConfigResultsMap.choose device result.Request
        (s.configList
          (lower ++ [{ Requests := reqs, Config := .channelConfig c }] ++ higher)).enum.reverse
        = .error (.new "cannot apply ComputeDomainChannelConfig to request") := by
      rw [configList_split, choose_reaches _ _ _ _ _ hfirst]
      have hcont : reqs.contains result.Request = true := by simpa using hnamed
      simp [getConfigResultsMap.choose, hcont, hnamed, RuntimeObject.isChannelConfig, hdaemon,
        ComputeDomainDaemonType, ComputeDomainChannelType]
    obtain ⟨e', he'⟩ := group_error_of s.DriverName s.allocatable _ alloc.Devices.Results []
      result device _ hresult hdriver hdev hchoose
    refine ⟨e', ?_⟩
    simp only [DeviceState.getConfigResultsMap, halloc, hconfigs]
    exact he'
  obtain ⟨e, he⟩ := hfail
  have hperm := getConfigResultsMap_not_permanent s status e he
  refine ⟨⟨e, he, hperm⟩, ?_⟩
  intro claim n hstatus hread habsent
  subst hstatus
  rw [Prepare_unfold, hread]
  simp only [habsent, prepareDevices_of_resolution_error _ _ _ _ he]
  exact ⟨_, rfl, by simp [isPermanent_wrapW, hperm], trivial⟩

/-! ### Instances of the config resolution theorems -/

/-- A claim-level wildcard ChannelConfig listed before a class-level DaemonConfig naming
request `r`. -/
theorem GetOpaqueDeviceConfigs_order_witness :
    GetOpaqueDeviceConfigs Example.decoder Example.driverName Example.wildcardOverExplicit
        = .ok [⟨["r"], .daemonConfig ⟨"cd-1"⟩⟩, ⟨[], .channelConfig ⟨"cd-1"⟩⟩] ∧
      List.Forall₂ (DecodesTo Example.decoder)
        [⟨["r"], .daemonConfig ⟨"cd-1"⟩⟩, ⟨[], .channelConfig ⟨"cd-1"⟩⟩]
        ((Example.wildcardOverExplicit.filter
              (fun c => c.Source = AllocationConfigSourceClass) ++
            Example.wildcardOverExplicit.filter
              (fun c => c.Source = AllocationConfigSourceClaim)).filter
          (fun c => c.isFor Example.driverName)) :=
  ⟨by decide,
    GetOpaqueDeviceConfigs_order Example.decoder Example.driverName Example.wildcardOverExplicit
      _ (by decide)⟩

/-- A channel, a daemon and a device of another driver in one claim. -/
theorem getConfigResultsMap_partitions_witness :
    Example.plugin.getConfigResultsMap Example.mixedStatus
        = .ok [(3, .channelConfig ⟨"cd-1"⟩, [⟨"w", Example.driverName, "pool", "channel-0"⟩]),
            (2, .daemonConfig ⟨"cd-1"⟩, [Example.daemonResult])] ∧
      ([3, 2] : List Nat).Nodup ∧
      List.Perm [⟨"w", Example.driverName, "pool", "channel-0"⟩, Example.daemonResult]
        ([⟨"w", Example.driverName, "pool", "channel-0"⟩, Example.daemonResult,
            ⟨"x", "gpu.nvidia.com", "pool", "gpu-0"⟩].filter
          (fun r => r.Driver = Example.plugin.DriverName)) :=
  ⟨by decide,
    getConfigResultsMap_partitions Example.plugin Example.mixedStatus
      { Devices :=
          { Results :=
              [⟨"w", Example.driverName, "pool", "channel-0"⟩, Example.daemonResult,
               ⟨"x", "gpu.nvidia.com", "pool", "gpu-0"⟩]
            Config := Example.wildcardOverExplicit } }
      [(3, .channelConfig ⟨"cd-1"⟩, [⟨"w", Example.driverName, "pool", "channel-0"⟩]),
        (2, .daemonConfig ⟨"cd-1"⟩, [Example.daemonResult])]
      rfl
      (by
        intro r hr hd
        simp only [List.mem_cons, List.mem_singleton, List.not_mem_nil, or_false] at hr
        rcases hr with rfl | rfl | rfl
        · exact ⟨_, rfl, Or.inl rfl⟩
        · exact ⟨_, rfl, Or.inr rfl⟩
        · exact absurd hd (by decide))
      (by decide)⟩

/-- C11, as stated, fails: with a claim-level wildcard ChannelConfig and a class-level
DaemonConfig naming request `r`, the result for `r` on a channel device is assigned to the
wildcard ChannelConfig (position 3), and the daemon config (position 2) gets no result. -/
theorem getConfigResultsMap_wildcard_wins :
    Example.plugin.getConfigResultsMap Example.wildcardChannelStatus
      = .ok [(3, .channelConfig ⟨"cd-1"⟩, [Example.channelResult])] := by
  decide

/-- The configs `wildcardOverExplicit` with request `r` on the daemon device, and on the
channel device. -/
theorem getConfigResultsMap_explicit_daemon_below_wildcard_witness :
    (Example.plugin.getConfigResultsMap Example.wildcardDaemonStatus
        = .ok [(2, .daemonConfig ⟨"cd-1"⟩, [Example.daemonResult])] ∧
      ∃ rs, (0 + 2, RuntimeObject.daemonConfig ⟨"cd-1"⟩, rs)
          ∈ [(2, RuntimeObject.daemonConfig ⟨"cd-1"⟩, [Example.daemonResult])] ∧
        Example.daemonResult ∈ rs) ∧
      (Example.plugin.getConfigResultsMap Example.wildcardChannelStatus
        = .ok [(3, .channelConfig ⟨"cd-1"⟩, [Example.channelResult])] ∧
      ∃ rs, (0 + 2 + 1, RuntimeObject.channelConfig ⟨"cd-1"⟩, rs)
          ∈ [(3, RuntimeObject.channelConfig ⟨"cd-1"⟩, [Example.channelResult])] ∧
        Example.channelResult ∈ rs) :=
  ⟨⟨by decide,
      (getConfigResultsMap_explicit_daemon_below_wildcard Example.plugin
        Example.wildcardDaemonStatus
        { Devices := { Results := [Example.daemonResult], Config := Example.wildcardOverExplicit } }
        [] [⟨[], .channelConfig ⟨"cd-1"⟩⟩] ["r"] ⟨"cd-1"⟩ Example.daemonResult ⟨none, some ⟨0⟩⟩
        [(2, .daemonConfig ⟨"cd-1"⟩, [Example.daemonResult])]
        rfl (by decide) (by decide) (by decide) rfl (by decide) rfl (by decide)).1 rfl⟩,
    ⟨by decide,
      (getConfigResultsMap_explicit_daemon_below_wildcard Example.plugin
        Example.wildcardChannelStatus
        { Devices := { Results := [Example.channelResult], Config := Example.wildcardOverExplicit } }
        [] [⟨[], .channelConfig ⟨"cd-1"⟩⟩] ["r"] ⟨"cd-1"⟩ Example.channelResult ⟨some ⟨0⟩, none⟩
        [(3, .channelConfig ⟨"cd-1"⟩, [Example.channelResult])]
        rfl (by decide) (by decide) (by decide) rfl (by decide) rfl (by decide)).2 rfl
        ⟨[], .channelConfig ⟨"cd-1"⟩⟩ rfl⟩⟩

/-- C12, as stated, fails: a claim-level ChannelConfig names request `r`, whose device is
daemon-typed; config resolution and `Prepare` fail, but neither error carries the permanent
marker.  And under a claim-level wildcard DaemonConfig the same mismatch in a class-level
ChannelConfig is never examined: resolution succeeds. -/
theorem getConfigResultsMap_mismatch_not_permanent :
    Example.plugin.getConfigResultsMap Example.mismatchStatus
        = .error (.err false "cannot apply ComputeDomainChannelConfig to request") ∧
      (Example.plugin.Prepare Example.mismatchClaim Example.emptyNode).1
        = .error (.err false
            "prepare devices failed: error generating configResultsMap: cannot apply ComputeDomainChannelConfig to request") ∧
      Example.plugin.getConfigResultsMap Example.shadowedMismatchStatus
        = .ok [(3, .daemonConfig ⟨"cd-1"⟩, [Example.daemonResult])] := by
  decide

/-- A claim-level ChannelConfig naming request `r`, whose device is the daemon device. -/
theorem getConfigResultsMap_explicit_mismatch_witness :
    Example.plugin.getConfigResultsMap Example.mismatchStatus
        = .error (.err false "cannot apply ComputeDomainChannelConfig to request") ∧
      (∃ e, Example.plugin.getConfigResultsMap Example.mismatchStatus = .error e ∧
        e.isPermanent = false) ∧
      ∃ e, (Example.plugin.Prepare Example.mismatchClaim Example.emptyNode).1 = .error e ∧
        e.isPermanent = false ∧
        (Example.plugin.Prepare Example.mismatchClaim Example.emptyNode).2.checkpoint
          = Example.emptyNode.checkpoint :=
  have h := getConfigResultsMap_explicit_mismatch Example.plugin Example.mismatchStatus
    { Devices :=
        { Results := [Example.daemonResult]
          Config :=
            [⟨AllocationConfigSourceClaim, ["r"], some ⟨Example.driverName, "channel:cd-1"⟩⟩] } }
    [] [] ["r"] ⟨"cd-1"⟩ Example.daemonResult ⟨none, some ⟨0⟩⟩
    rfl (by decide) (by decide) rfl (by decide) rfl rfl (by decide)
  ⟨by decide, h.1, h.2 Example.mismatchClaim Example.emptyNode rfl rfl rfl⟩

/-! ### Applying the two config types -/

theorem dedup_length_eq_one (l : List String) :
    l.dedup.length = 1 ↔ ∃ d, d ∈ l ∧ ∀ x ∈ l, x = d := by
  rw [← List.card_toFinset, Finset.card_eq_one]
  constructor
  · rintro ⟨a, ha⟩
    refine ⟨a, ?_, ?_⟩
    · have : a ∈ l.toFinset := by rw [ha]; exact Finset.mem_singleton_self a
      exact List.mem_toFinset.1 this
    · intro x hx
      have : x ∈ l.toFinset := List.mem_toFinset.2 hx
      rw [ha] at this
      exact Finset.mem_singleton.1 this
  · rintro ⟨d, hd, hall⟩
    refine ⟨d, ?_⟩
    ext x
    simp only [List.mem_toFinset, Finset.mem_singleton]
    exact ⟨hall x, fun h => h ▸ hd⟩

/-- C15, as amended: `applyComputeDomainDaemonConfig` succeeds only if the results of the
group name exactly one device between them.  A group whose results name two different
devices, or an empty group, is rejected with a configuration error before any call is made.
A group whose results all name the same device, however many results it has, is accepted:
without fabric support it returns the config state at once; with fabric support it goes on
to its first collaborator call, and when the four collaborator calls succeed it returns the
config state with the container edits of the daemon settings. -/
theorem applyComputeDomainDaemonConfig_one_device (s : DeviceState)
    (config : ComputeDomainDaemonConfig) (claim : ResourceClaim)
    (results : List DeviceRequestAllocationResult) (n : Node) :
    ((s.applyComputeDomainDaemonConfig config claim results n).1.toBool = true →
        results ≠ [] ∧ ∀ r1 ∈ results, ∀ r2 ∈ results, r1.Device = r2.Device) ∧
      ((results = [] ∨ ∃ r1 ∈ results, ∃ r2 ∈ results, r1.Device ≠ r2.Device) →
        s.applyComputeDomainDaemonConfig config claim results n
          = (.error (.new "only expected 1 device for requests in claim"), n)) ∧
      (results ≠ [] → (∀ r1 ∈ results, ∀ r2 ∈ results, r1.Device = r2.Device) →
        (s.computeDomainManager.cliqueID = "" →
          s.applyComputeDomainDaemonConfig config claim results n
            = (.ok { Type_ := ComputeDomainDaemonType, ComputeDomain := config.DomainID,
                     containerEdits := none }, n)) ∧
        (s.computeDomainManager.cliqueID ≠ "" →
          (∃ ok rest, (s.applyComputeDomainDaemonConfig config claim results n).2.trace
              = n.trace ++ ⟨.parseNVCapDeviceInfo, ok⟩ :: rest) ∧
          ∀ nvcapDeviceInfo edits,
            s.nvdevlib.parseNVCapDeviceInfo n.trace = .ok nvcapDeviceInfo →
            s.nvdevlib.createNvCapDevice (n.trace ++ [⟨.parseNVCapDeviceInfo, true⟩]) = none →
            s.computeDomainManager.SettingsPrepare
                (n.trace ++ [⟨.parseNVCapDeviceInfo, true⟩] ++ [⟨.createNvCapDevice, true⟩])
                config.DomainID = none →
            s.computeDomainManager.SettingsGetCDIContainerEdits
                (n.trace ++ [⟨.parseNVCapDeviceInfo, true⟩] ++ [⟨.createNvCapDevice, true⟩]
                  ++ [⟨.daemonSettingsPrepare config.DomainID, true⟩])
                config.DomainID nvcapDeviceInfo = .ok edits →
            s.applyComputeDomainDaemonConfig config claim results n
              = (.ok { Type_ := ComputeDomainDaemonType, ComputeDomain := config.DomainID,
                       containerEdits := ContainerEdits.Append none edits },
                  { n with
                    trace := n.trace ++ [⟨.parseNVCapDeviceInfo, true⟩]
                      ++ [⟨.createNvCapDevice, true⟩]
                      ++ [⟨.daemonSettingsPrepare config.DomainID, true⟩]
                      ++ [⟨.daemonSettingsGetCDIContainerEdits config.DomainID, true⟩] }))) := by
  have hone : (results.map fun r => r.Device).dedup.length = 1 ↔
      (results ≠ [] ∧ ∀ r1 ∈ results, ∀ r2 ∈ results, r1.Device = r2.Device) := by
    rw [dedup_length_eq_one]
    constructor
    · rintro ⟨d, hd, hall⟩
      refine ⟨?_, ?_⟩
      · rintro rfl; simp at hd
      · intro r1 h1 r2 h2
        rw [hall _ (List.mem_map_of_mem _ h1), hall _ (List.mem_map_of_mem _ h2)]
    · rintro ⟨hne, hall⟩
      obtain ⟨r0, rest, rfl⟩ := List.exists_cons_of_ne_nil hne
      refine ⟨r0.Device, by simp, ?_⟩
      intro x hx
      obtain ⟨r, hr, rfl⟩ := List.mem_map.1 hx
      exact hall r hr r0 (List.mem_cons_self _ _)
  refine ⟨?_, ?_, ?_⟩
  · intro hok
    by_contra hcon
    have hlen : (results.map fun r => r.Device).dedup.length ≠ 1 := fun h => hcon (hone.1 h)
    simp [DeviceState.applyComputeDomainDaemonConfig, hlen, Except.toBool] at hok
  · intro hbad
    have hlen : (results.map fun r => r.Device).dedup.length ≠ 1 := by
      intro h
      obtain ⟨hne, hall⟩ := hone.1 h
      rcases hbad with rfl | ⟨r1, h1, r2, h2, hdiff⟩
      · exact hne rfl
      · exact hdiff (hall r1 h1 r2 h2)
    simp [DeviceState.applyComputeDomainDaemonConfig, hlen]
  · intro hne hall
    have hlen : ¬ (results.map fun r => r.Device).dedup.length ≠ 1 :=
      fun h => h (hone.2 ⟨hne, hall⟩)
    refine ⟨?_, ?_⟩
    · intro hclique
      have hc : ¬ s.computeDomainManager.cliqueID ≠ "" := fun h => h hclique
      unfold DeviceState.applyComputeDomainDaemonConfig
      dsimp only
      rw [if_neg hlen, if_neg hc]
      rfl
    · intro hclique
      unfold DeviceState.applyComputeDomainDaemonConfig
      dsimp only
      rw [if_neg hlen, if_pos hclique]
      simp only [Act.bind_run, Act.mapErr_run, Act.pure_run, callV, call]
      refine ⟨?_, ?_⟩
      · cases h1 : s.nvdevlib.parseNVCapDeviceInfo n.trace with
        | error e => exact ⟨false, [], rfl⟩
        | ok info =>
          simp only []
          cases h2 : s.nvdevlib.createNvCapDevice (n.trace ++ [⟨.parseNVCapDeviceInfo, true⟩]) with
          | some e => exact ⟨true, [⟨.createNvCapDevice, false⟩], by simp⟩
          | none =>
            simp only []
            cases h3 : s.computeDomainManager.SettingsPrepare
                (n.trace ++ [⟨.parseNVCapDeviceInfo, true⟩] ++ [⟨.createNvCapDevice, true⟩])
                config.DomainID with
            | some e =>
              exact ⟨true,
                [⟨.createNvCapDevice, true⟩, ⟨.daemonSettingsPrepare config.DomainID, false⟩],
                by simp⟩
            | none =>
              simp only []
              cases h4 : s.computeDomainManager.SettingsGetCDIContainerEdits
                  (n.trace ++ [⟨.parseNVCapDeviceInfo, true⟩] ++ [⟨.createNvCapDevice, true⟩]
                    ++ [⟨.daemonSettingsPrepare config.DomainID, true⟩])
                  config.DomainID info with
              | error e =>
                exact ⟨true,
                  [⟨.createNvCapDevice, true⟩, ⟨.daemonSettingsPrepare config.DomainID, true⟩,
                    ⟨.daemonSettingsGetCDIContainerEdits config.DomainID, false⟩],
                  by simp⟩
              | ok edits =>
                exact ⟨true,
                  [⟨.createNvCapDevice, true⟩, ⟨.daemonSettingsPrepare config.DomainID, true⟩,
                    ⟨.daemonSettingsGetCDIContainerEdits config.DomainID, true⟩],
                  by simp⟩
      · intro info edits h1 h2 h3 h4
        simp only [h1, h2, h3, h4]

/-- C15, as stated, fails: a DaemonConfig group of two results that name the same device is
accepted. -/
theorem applyComputeDomainDaemonConfig_accepts_two_results :
    Example.sameDeviceResults.length = 2 ∧
      (Example.plugin.applyComputeDomainDaemonConfig ⟨"cd-1"⟩ Example.channelClaim
          Example.sameDeviceResults Example.emptyNode).1
        = .ok { Type_ := .daemon, ComputeDomain := "cd-1", containerEdits := some ["daemon-edits"] } := by
  decide

/-- C16, at a claim without allocation whose UID is not in the checkpoint: `Prepare` does not
return an error value; `getConfigResultsMap` dereferences the nil allocation and the call
ends in a run-time panic, after the checkpoint read and before any other call. -/
theorem Prepare_unallocated_panics :
    Example.plugin.Prepare Example.unallocatedClaim Example.emptyNode
      = (.error (.panic "invalid memory address or nil pointer dereference"),
          { Example.emptyNode with trace := [⟨.getCheckpoint, true⟩] }) := by
  decide

/-- C17: for a ChannelConfig group with at least one result (whose first device is
allocatable), if the namespace assertion fails, `applyComputeDomainChannelConfig` returns an
error carrying the permanent marker, and the failed assertion is the only call it has made:
no node label added, no readiness checked, no channel device created.  If instead the
readiness assertion is the first call to fail, its error is returned wrapped, with no marker
added: it is permanent only if the collaborator's error already was. -/
theorem applyComputeDomainChannelConfig_failures (s : DeviceState)
    (config : ComputeDomainChannelConfig) (claim : ResourceClaim)
    (r : DeviceRequestAllocationResult) (rest : List DeviceRequestAllocationResult) (n : Node)
    (device : AllocatableDevice) (hdev : s.allocatable r.Device = some device) :
    (∀ p msg,
        s.computeDomainManager.AssertComputeDomainNamespace n.trace claim.Namespace
            config.DomainID = some (.err p msg) →
        s.applyComputeDomainChannelConfig config claim (r :: rest) n
            = (.error ((GoError.err p msg).wrapW
                  "error asserting ComputeDomain's namespace").permanentError,
                { n with
                  trace := n.trace ++
                    [⟨.assertComputeDomainNamespace claim.Namespace config.DomainID, false⟩] }) ∧
          ((GoError.err p msg).wrapW
              "error asserting ComputeDomain's namespace").permanentError.isPermanent = true) ∧
      (∀ e,
        s.computeDomainManager.AssertComputeDomainNamespace n.trace claim.Namespace
            config.DomainID = none →
        s.computeDomainManager.AddNodeLabel
            (n.trace ++ [⟨.assertComputeDomainNamespace claim.Namespace config.DomainID, true⟩])
            config.DomainID = none →
        s.computeDomainManager.AssertComputeDomainReady
            (n.trace ++ [⟨.assertComputeDomainNamespace claim.Namespace config.DomainID, true⟩]
              ++ [⟨.addNodeLabel config.DomainID, true⟩])
            config.DomainID = some e →
        (s.applyComputeDomainChannelConfig config claim (r :: rest) n).1
            = .error (e.wrapW "error asserting ComputeDomain Ready") ∧
          (e.wrapW "error asserting ComputeDomain Ready").isPermanent = e.isPermanent) := by
  constructor
  · intro p msg hns
    refine ⟨?_, rfl⟩
    · simp only [DeviceState.applyComputeDomainChannelConfig,
        DeviceState.applyComputeDomainChannelConfig.loop, hdev, Act.bind_run, Act.pure_run,
        Act.mapErr_run, call, hns]
  · intro e hns hlabel hready
    refine ⟨?_, isPermanent_wrapW _ _⟩
    simp only [DeviceState.applyComputeDomainChannelConfig,
      DeviceState.applyComputeDomainChannelConfig.loop, hdev, Act.bind_run, Act.pure_run,
      Act.mapErr_run, call, hns, hlabel, hready]

/-- A channel claimed while the domain lives in another namespace. -/
theorem applyComputeDomainChannelConfig_failures_witness :
    Example.otherNamespace.allocatable Example.channelResult.Device = some ⟨some ⟨0⟩, none⟩ ∧
      Example.otherNamespace.applyComputeDomainChannelConfig ⟨"cd-1"⟩ Example.channelClaim
          [Example.channelResult] Example.emptyNode
        = (.error (.err true "error asserting ComputeDomain's namespace: namespace differs"),
            { Example.emptyNode with
              trace := [⟨.assertComputeDomainNamespace "ns" "cd-1", false⟩] }) ∧
      (Example.notReady.applyComputeDomainChannelConfig ⟨"cd-1"⟩ Example.channelClaim
          [Example.channelResult] Example.emptyNode).1
        = .error (.err false "error asserting ComputeDomain Ready: not ready") :=
  ⟨rfl,
    ((applyComputeDomainChannelConfig_failures Example.otherNamespace ⟨"cd-1"⟩
      Example.channelClaim Example.channelResult [] Example.emptyNode ⟨some ⟨0⟩, none⟩ rfl).1
      false "namespace differs" rfl).1,
    ((applyComputeDomainChannelConfig_failures Example.notReady ⟨"cd-1"⟩
      Example.channelClaim Example.channelResult [] Example.emptyNode ⟨some ⟨0⟩, none⟩ rfl).2
      (.err false "not ready") rfl rfl rfl).1⟩

/-! ### Type compatibility of the groups -/

theorem choose_compatible (device : AllocatableDevice) (request : String) :
    ∀ (l : List (Nat × OpaqueDeviceConfig)) (p : Nat × OpaqueDeviceConfig),
      getConfigResultsMap.choose device request l = .ok (some p) →
      (p.2.Config.isChannelConfig = true → device.Type_ = ComputeDomainChannelType) ∧
        (p.2.Config.isDaemonConfig = true → device.Type_ = ComputeDomainDaemonType)
  | [], p, h => by simp [getConfigResultsMap.choose] at h
  | (i, c) :: rest, p, h => by
    unfold getConfigResultsMap.choose at h
    split_ifs at h with h1 h2 h3 h4 h5 h6
    · simp only [Except.ok.injEq, Option.some.injEq] at h
      subst h
      simp only [Bool.and_eq_true, bne_iff_ne, ne_eq, not_and, Decidable.not_not] at h2 h3
      exact ⟨h2, h3⟩
    · exact choose_compatible device request rest p h
    · exact choose_compatible device request rest p h
    · simp only [Except.ok.injEq, Option.some.injEq] at h
      subst h
      simp only [Bool.and_eq_true, bne_iff_ne, ne_eq, not_and, Decidable.not_not] at h5 h6
      exact ⟨h5, h6⟩
    · exact choose_compatible device request rest p h

theorem chosen_compatible (driverName : String)
    (allocatable : String → Option AllocatableDevice) (configs : List OpaqueDeviceConfig)
    (r : DeviceRequestAllocationResult) (p : Nat × OpaqueDeviceConfig)
    (h : getConfigResultsMap.chosen driverName allocatable configs r = some p) :
    ∃ device, allocatable r.Device = some device ∧
      (p.2.Config.isChannelConfig = true → device.Type_ = ComputeDomainChannelType) ∧
      (p.2.Config.isDaemonConfig = true → device.Type_ = ComputeDomainDaemonType) := by
  unfold getConfigResultsMap.chosen at h
  split_ifs at h with hd
  cases ha : allocatable r.Device with
  | none => rw [ha] at h; simp at h
  | some device =>
    rw [ha] at h
    simp only [] at h
    rcases hc : getConfigResultsMap.choose device r.Request configs.enum.reverse
      with e | _ | q
    · rw [hc] at h; simp at h
    · rw [hc] at h; simp at h
    · rw [hc] at h
      simp only [Option.some.injEq] at h
      subst h
      exact ⟨device, rfl, choose_compatible device r.Request _ _ hc⟩

theorem append_cases :
    ∀ (m : ConfigResultsMap) (i : Nat) (c : RuntimeObject) (r : DeviceRequestAllocationResult)
      (e : Nat × RuntimeObject × List DeviceRequestAllocationResult),
      e ∈ m.append i c r →
      e ∈ m ∨ (e.1 = i ∧ ∃ rs0, (e.1, e.2.1, rs0) ∈ m ∧ e.2.2 = rs0 ++ [r]) ∨ e = (i, c, [r])
  | [], i, c, r, e, h => by
    simp only [ConfigResultsMap.append, List.mem_singleton] at h
    exact Or.inr (Or.inr h)
  | (k, ck, rk) :: rest, i, c, r, e, h => by
    unfold ConfigResultsMap.append at h
    by_cases hk : k = i
    · simp only [hk, if_true, List.mem_cons] at h
      rcases h with rfl | hin
      · exact Or.inr (Or.inl ⟨rfl, rk, by simp [hk], rfl⟩)
      · exact Or.inl (List.mem_cons_of_mem _ hin)
    · simp only [hk, if_false, List.mem_cons] at h
      rcases h with rfl | hin
      · exact Or.inl (List.mem_cons_self _ _)
      · rcases append_cases rest i c r e hin with h0 | ⟨h1, rs0, h2, h3⟩ | h0
        · exact Or.inl (List.mem_cons_of_mem _ h0)
        · exact Or.inr (Or.inl ⟨h1, rs0, List.mem_cons_of_mem _ h2, h3⟩)
        · exact Or.inr (Or.inr h0)

/-- Every result of every group was put there by the walk: the walk settles, for that
result, on the config of the group. -/
theorem foldl_chosen (driverName : String)
    (allocatable : String → Option AllocatableDevice) (configs : List OpaqueDeviceConfig) :
    ∀ (results : List DeviceRequestAllocationResult) (m0 : ConfigResultsMap),
      (∀ e ∈ m0, (∃ x, configs[e.1]? = some x ∧ x.Config = e.2.1) ∧ ∀ r ∈ e.2.2,
        ∃ x, getConfigResultsMap.chosen driverName allocatable configs r = some (e.1, x) ∧
          x.Config = e.2.1) →
      ∀ e ∈ results.foldl (getConfigResultsMap.step driverName allocatable configs) m0,
        (∃ x, configs[e.1]? = some x ∧ x.Config = e.2.1) ∧ ∀ r ∈ e.2.2,
          ∃ x, getConfigResultsMap.chosen driverName allocatable configs r = some (e.1, x) ∧
            x.Config = e.2.1
  | [], _, h => h
  | r0 :: rest, m0, h => by
    simp only [List.foldl_cons]
    apply foldl_chosen driverName allocatable configs rest
    intro e he
    unfold getConfigResultsMap.step at he
    cases hc : getConfigResultsMap.chosen driverName allocatable configs r0 with
    | none => rw [hc] at he; exact h e he
    | some p =>
      rw [hc] at he
      have hp : configs[p.1]? = some p.2 := chosen_getElem _ _ _ _ _ _ hc
      rcases append_cases _ _ _ _ e he with h0 | ⟨h1, rs0, h2, h3⟩ | h0
      · exact h e h0
      · obtain ⟨⟨x, hx1, hx2⟩, hrs⟩ := h (e.1, e.2.1, rs0) h2
        refine ⟨⟨x, hx1, hx2⟩, ?_⟩
        intro r hr
        rw [h3] at hr
        rcases List.mem_append.1 hr with hr0 | hr0
        · exact hrs r hr0
        · simp only [List.mem_singleton] at hr0
          subst hr0
          simp only [] at hx1 hx2
          rw [h1, hp] at hx1
          simp only [Option.some.injEq] at hx1
          exact ⟨p.2, by rw [hc, h1], by rw [hx1]; exact hx2⟩
      · subst h0
        refine ⟨⟨p.2, hp, rfl⟩, ?_⟩
        intro r hr
        simp only [List.mem_singleton] at hr
        subst hr
        exact ⟨p.2, hc, rfl⟩

/-- C23: for every claim status for which `getConfigResultsMap` succeeds, every result of
every group names an allocatable device; the device is channel-typed when the group's
config is a ChannelConfig, and daemon-typed when it is a DaemonConfig. -/
theorem getConfigResultsMap_type_compatible (s : DeviceState) (status : ResourceClaimStatus)
    (m : ConfigResultsMap) (hok : s.getConfigResultsMap status = .ok m) :
    ∀ e ∈ m, ∀ r ∈ e.2.2, ∃ device, s.allocatable r.Device = some device ∧
      (e.2.1.isChannelConfig = true → device.Type_ = ComputeDomainChannelType) ∧
      (e.2.1.isDaemonConfig = true → device.Type_ = ComputeDomainDaemonType) := by
  obtain ⟨alloc, configs, -, -, hg⟩ := getConfigResultsMap_ok s status m hok
  have hm := group_eq_foldl _ _ _ _ _ _ hg
  subst hm
  intro e he r hr
  obtain ⟨-, hrs⟩ := foldl_chosen s.DriverName s.allocatable (s.configList configs)
    alloc.Devices.Results [] (by simp) e he
  obtain ⟨x, hx, hcfg⟩ := hrs r hr
  obtain ⟨device, hdev, hcompat⟩ := chosen_compatible _ _ _ _ _ hx
  simp only [] at hcompat
  rw [hcfg] at hcompat
  exact ⟨device, hdev, hcompat⟩

/-- A channel and a daemon in one claim, each in the group of a config of its type. -/
theorem getConfigResultsMap_type_compatible_witness :
    Example.plugin.getConfigResultsMap Example.mixedStatus
        = .ok [(3, .channelConfig ⟨"cd-1"⟩, [⟨"w", Example.driverName, "pool", "channel-0"⟩]),
            (2, .daemonConfig ⟨"cd-1"⟩, [Example.daemonResult])] ∧
      ∀ e ∈ [(3, RuntimeObject.channelConfig ⟨"cd-1"⟩,
                [(⟨"w", Example.driverName, "pool", "channel-0"⟩ :
                  DeviceRequestAllocationResult)]),
            (2, RuntimeObject.daemonConfig ⟨"cd-1"⟩, [Example.daemonResult])],
        ∀ r ∈ e.2.2, ∃ device, Example.plugin.allocatable r.Device = some device ∧
          (e.2.1.isChannelConfig = true → device.Type_ = ComputeDomainChannelType) ∧
          (e.2.1.isDaemonConfig = true → device.Type_ = ComputeDomainDaemonType) :=
  ⟨by decide,
    getConfigResultsMap_type_compatible Example.plugin Example.mixedStatus _ (by decide)⟩

/-! ### The walk over the configs, config by config -/

/-- The walk passes over a config exactly when it does not stop at it. -/
theorem passedOver_eq_not_stopsAt (c : OpaqueDeviceConfig) (device : AllocatableDevice)
    (request : String) : c.passedOver device request = !c.stopsAt device request := by
  obtain ⟨reqs, cfg⟩ := c
  simp only [OpaqueDeviceConfig.passedOver, OpaqueDeviceConfig.stopsAt, RuntimeObject.fits]
  cases hreq : reqs.contains request <;> cases reqs <;> cases cfg <;>
    cases device.Type_ <;>
    simp [RuntimeObject.deviceType?, RuntimeObject.isChannelConfig,
      RuntimeObject.isDaemonConfig, ComputeDomainChannelType, ComputeDomainDaemonType]

theorem unfit_iff (o : RuntimeObject) (t : DeviceType) :
    o.fits t = false ↔
      (o.isChannelConfig && t != ComputeDomainChannelType) = true ∨
        (o.isDaemonConfig && t != ComputeDomainDaemonType) = true := by
  cases o <;> cases t <;>
    simp [RuntimeObject.fits, RuntimeObject.deviceType?, RuntimeObject.isChannelConfig,
      RuntimeObject.isDaemonConfig, ComputeDomainChannelType, ComputeDomainDaemonType]

theorem getConfigResultsMap_error_of_group (s : DeviceState) (status : ResourceClaimStatus)
    (alloc : AllocationResult) (configs : List OpaqueDeviceConfig) (e : GoError)
    (halloc : status.Allocation = some alloc)
    (hconfigs : GetOpaqueDeviceConfigs s.configapi.Decoder s.DriverName alloc.Devices.Config
      = .ok configs)
    (hg : getConfigResultsMap.group s.DriverName s.allocatable (s.configList configs) []
      alloc.Devices.Results = .error e) :
    s.getConfigResultsMap status = .error e := by
  simp only [DeviceState.getConfigResultsMap, halloc, hconfigs]
  exact hg

/-- C22, as amended: for an allocation result of this driver with an allocatable device, let
`c` be the first config, counted from the end of the list [default DaemonConfig, default
ChannelConfig, class configs, claim configs], that lists the result's request explicitly or
has an empty request list and fits the device: a ChannelConfig fits a channel device, a
DaemonConfig a daemon device, a config object of any other type every device.  If `c` lists
the request and does not fit the device, the walk and `getConfigResultsMap` fail.  Otherwise
the walk settles on `c`, whatever configs come before it in the list, and a successful
`getConfigResultsMap` has the result in the group of `c`. -/
theorem getConfigResultsMap_walk (s : DeviceState) (status : ResourceClaimStatus)
    (alloc : AllocationResult) (configs lower higher : List OpaqueDeviceConfig)
    (c : OpaqueDeviceConfig) (result : DeviceRequestAllocationResult)
    (device : AllocatableDevice) (halloc : status.Allocation = some alloc)
    (hconfigs : GetOpaqueDeviceConfigs s.configapi.Decoder s.DriverName alloc.Devices.Config
      = .ok configs)
    (hresult : result ∈ alloc.Devices.Results) (hdriver : result.Driver = s.DriverName)
    (hdev : s.allocatable result.Device = some device)
    (hsplit : s.configList configs = lower ++ [c] ++ higher)
    (hhigher : ∀ y ∈ higher, y.stopsAt device result.Request = false)
    (hstop : c.stopsAt device result.Request = true) :
    (c.listedUnfit device result.Request = true →
        (∃ e, getConfigResultsMap.choose device result.Request
            (s.configList configs).enum.reverse = .error e) ∧
          ∃ e, s.getConfigResultsMap status = .error e) ∧
      (c.listedUnfit device result.Request = false →
        getConfigResultsMap.choose device result.Request (s.configList configs).enum.reverse
            = .ok (some (lower.length, c)) ∧
          ∀ m, s.getConfigResultsMap status = .ok m →
            ∃ rs, (lower.length, c.Config, rs) ∈ m ∧ result ∈ rs) := by
  have hpass : ∀ y ∈ higher, y.passedOver device result.Request = true := by
    intro y hy
    rw [passedOver_eq_not_stopsAt, hhigher y hy]
    rfl
  have hreach := choose_reaches device result.Request lower higher c hpass
  rw [← hsplit] at hreach
  constructor
  · intro hbad
    simp only [OpaqueDeviceConfig.listedUnfit, Bool.and_eq_true, Bool.not_eq_true'] at hbad
    obtain ⟨hlist, hunfit⟩ := hbad
    have herr : ∃ e, getConfigResultsMap.choose device result.Request
        (s.configList configs).enum.reverse = .error e := by
      rw [hreach]
      unfold getConfigResultsMap.choose
      rw [if_pos hlist]
      rcases (unfit_iff _ _).1 hunfit with h | h
      · rw [if_pos h]
        exact ⟨_, rfl⟩
      · by_cases h0 :
            (c.Config.isChannelConfig && device.Type_ != ComputeDomainChannelType) = true
        · rw [if_pos h0]
          exact ⟨_, rfl⟩
        · rw [if_neg h0, if_pos h]
          exact ⟨_, rfl⟩
    refine ⟨herr, ?_⟩
    obtain ⟨e, he⟩ := herr
    obtain ⟨e1, he1⟩ := group_error_of s.DriverName s.allocatable (s.configList configs)
      alloc.Devices.Results [] result device e hresult hdriver hdev he
    exact ⟨e1, getConfigResultsMap_error_of_group s status alloc configs e1 halloc hconfigs he1⟩
  · intro hgood
    have hchoose : getConfigResultsMap.choose device result.Request
        (s.configList configs).enum.reverse = .ok (some (lower.length, c)) := by
      rw [hreach]
      unfold getConfigResultsMap.choose
      simp only [OpaqueDeviceConfig.listedUnfit, Bool.and_eq_false_imp,
        Bool.not_eq_false'] at hgood
      simp only [OpaqueDeviceConfig.stopsAt, Bool.or_eq_true, Bool.and_eq_true,
        List.isEmpty_iff] at hstop
      have hfits : c.Config.fits device.Type_ = true := by
        rcases hstop with h | h
        · exact hgood h
        · exact h.2
      have hnot : ¬ c.Config.fits device.Type_ = false := by rw [hfits]; simp
      have h1 : ¬ (c.Config.isChannelConfig && device.Type_ != ComputeDomainChannelType) = true :=
        fun h => hnot ((unfit_iff _ _).2 (Or.inl h))
      have h2 : ¬ (c.Config.isDaemonConfig && device.Type_ != ComputeDomainDaemonType) = true :=
        fun h => hnot ((unfit_iff _ _).2 (Or.inr h))
      by_cases hlist : c.Requests.contains result.Request = true
      · rw [if_pos hlist, if_neg h1, if_neg h2]
      · have hempty : c.Requests.length = 0 := by
          rcases hstop with h | h
          · exact absurd h hlist
          · simp [h.1]
        rw [if_neg hlist, if_pos hempty, if_neg h1, if_neg h2]
    refine ⟨hchoose, ?_⟩
    intro m hok
    have hchosen : getConfigResultsMap.chosen s.DriverName s.allocatable (s.configList configs)
        result = some (lower.length, c) := by
      simp only [getConfigResultsMap.chosen, hdriver, ne_eq, not_true_eq_false, if_false, hdev,
        hchoose]
    exact getConfigResultsMap_group_of_chosen s status alloc configs m result _ _ halloc
      hconfigs hresult hchosen hok

/-- A claim-level wildcard ChannelConfig above a class-level DaemonConfig naming request
`r`, with `r` on the channel device: the wildcard wins.  A claim-level wildcard config of
another type: it governs the channel device.  And a ChannelConfig naming `r`, with `r` on
the daemon device: resolution fails. -/
theorem getConfigResultsMap_walk_witness :
    (getConfigResultsMap.choose ⟨some ⟨0⟩, none⟩ "r"
          (Example.plugin.configList
            [⟨["r"], .daemonConfig ⟨"cd-1"⟩⟩, ⟨[], .channelConfig ⟨"cd-1"⟩⟩]).enum.reverse
        = .ok (some (3, ⟨[], .channelConfig ⟨"cd-1"⟩⟩)) ∧
      ∃ rs, (3, RuntimeObject.channelConfig ⟨"cd-1"⟩, rs)
          ∈ [(3, RuntimeObject.channelConfig ⟨"cd-1"⟩, [Example.channelResult])] ∧
        Example.channelResult ∈ rs) ∧
      (∃ rs, (2, RuntimeObject.other "other", rs)
          ∈ [(2, RuntimeObject.other "other", [Example.channelResult])] ∧
        Example.channelResult ∈ rs) ∧
      ∃ e, Example.plugin.getConfigResultsMap Example.mismatchStatus = .error e :=
  have h1 := (getConfigResultsMap_walk Example.plugin Example.wildcardChannelStatus
    { Devices := { Results := [Example.channelResult], Config := Example.wildcardOverExplicit } }
    [⟨["r"], .daemonConfig ⟨"cd-1"⟩⟩, ⟨[], .channelConfig ⟨"cd-1"⟩⟩]
    [⟨[], .daemonConfig ⟨""⟩⟩, ⟨[], .channelConfig ⟨""⟩⟩, ⟨["r"], .daemonConfig ⟨"cd-1"⟩⟩] []
    ⟨[], .channelConfig ⟨"cd-1"⟩⟩ Example.channelResult ⟨some ⟨0⟩, none⟩
    rfl (by decide) (by decide) rfl rfl rfl (by decide) (by decide)).2 (by decide)
  have h2 := (getConfigResultsMap_walk Example.plugin Example.mismatchStatus
    { Devices :=
        { Results := [Example.daemonResult]
          Config :=
            [⟨AllocationConfigSourceClaim, ["r"], some ⟨Example.driverName, "channel:cd-1"⟩⟩] } }
    [⟨["r"], .channelConfig ⟨"cd-1"⟩⟩]
    [⟨[], .daemonConfig ⟨""⟩⟩, ⟨[], .channelConfig ⟨""⟩⟩] []
    ⟨["r"], .channelConfig ⟨"cd-1"⟩⟩ Example.daemonResult ⟨none, some ⟨0⟩⟩
    rfl (by decide) (by decide) rfl rfl rfl (by decide) (by decide)).1 (by decide)
  have h3 := (getConfigResultsMap_walk Example.plugin Example.otherWildcardStatus
    { Devices :=
        { Results := [Example.channelResult]
          Config := [⟨AllocationConfigSourceClaim, [], some ⟨Example.driverName, "other"⟩⟩] } }
    [⟨[], .other "other"⟩]
    [⟨[], .daemonConfig ⟨""⟩⟩, ⟨[], .channelConfig ⟨""⟩⟩] []
    ⟨[], .other "other"⟩ Example.channelResult ⟨some ⟨0⟩, none⟩
    rfl (by decide) (by decide) rfl rfl rfl (by decide) (by decide)).2 (by decide)
  ⟨⟨h1.1, h1.2 _ (by decide)⟩, h3.2 _ (by decide), h2.2⟩

/-- C22, as stated, fails: a claim-level config of neither type, whether it has no requests
or names the request `r`, governs the result for `r` on the channel device, although it
neither stops the walk in the sense of the claim (its type is not the device's type) nor
lets resolution succeed in that sense (it is listed explicitly with a differing type); the
first config from the end that stops the walk in the sense of the claim would be the default
ChannelConfig at position 1. -/
theorem getConfigResultsMap_other_config_governs :
    (OpaqueDeviceConfig.stopsWalk ⟨[], .other "other"⟩ ⟨some ⟨0⟩, none⟩ "r" = false ∧
        OpaqueDeviceConfig.stopsWalk ⟨[], .channelConfig ⟨""⟩⟩ ⟨some ⟨0⟩, none⟩ "r" = true ∧
        Example.plugin.getConfigResultsMap Example.otherWildcardStatus
          = .ok [(2, .other "other", [Example.channelResult])]) ∧
      (OpaqueDeviceConfig.explicitMismatch ⟨["r"], .other "other"⟩ ⟨some ⟨0⟩, none⟩ "r" = true ∧
        Example.plugin.getConfigResultsMap Example.otherExplicitStatus
          = .ok [(2, .other "other", [Example.channelResult])]) := by
  decide

/-! ### The claim spec file and the claim device identifier -/

theorem QualifiedName_ne_empty (vendor cls name : String) : QualifiedName vendor cls name ≠ "" := by
  intro h
  have hlen := congrArg String.length h
  simp only [QualifiedName, String.length_append] at hlen
  have h1 : ("/" : String).length = 1 := rfl
  have h2 : ("" : String).length = 0 := rfl
  rw [h1, h2] at hlen
  omega

theorem transformDevices_names (h : RealCDIHandler) :
    ∀ (l ds : List CDIDevice), h.transformDevices l = .ok ds →
      ds.map (fun d => d.Name) = l.map (fun d => d.Name)
  | [], ds, hok => by
    simp only [RealCDIHandler.transformDevices, Except.ok.injEq] at hok
    simp [← hok]
  | d :: rest, ds, hok => by
    unfold RealCDIHandler.transformDevices at hok
    rcases ht : h.transformRoot d.ContainerEdits with e | edits
    · rw [ht] at hok; simp at hok
    · rw [ht] at hok
      simp only [] at hok
      rcases hr : h.transformDevices rest with e | ds'
      · rw [hr] at hok; simp at hok
      · rw [hr] at hok
        simp only [Except.ok.injEq] at hok
        subst hok
        simp [transformDevices_names h rest ds' hr]

theorem claimDeviceSpecs_mem (h : RealCDIHandler) (claimUID : String)
    (preparedDevices : PreparedDevices) (group : PreparedDeviceGroup) (device : PreparedDevice)
    (edits : ContainerEdits) (hgroup : group ∈ preparedDevices)
    (hdevice : device ∈ group.Devices) (hedits : group.ConfigState.containerEdits = some edits) :
    (claimUID ++ "-" ++ h.preparedCanonicalName device)
      ∈ (h.claimDeviceSpecs claimUID preparedDevices).map (fun d => d.Name) := by
  simp only [RealCDIHandler.claimDeviceSpecs, List.mem_map, List.mem_flatMap]
  refine ⟨⟨claimUID ++ "-" ++ h.preparedCanonicalName device, edits⟩, ⟨group, hgroup, ?_⟩, rfl⟩
  rw [hedits]
  exact List.mem_map.2 ⟨device, hdevice, rfl⟩

theorem claimDeviceSpecs_nil (h : RealCDIHandler) (claimUID : String) :
    ∀ (preparedDevices : PreparedDevices),
      (∀ g ∈ preparedDevices, g.ConfigState.containerEdits = none) →
      h.claimDeviceSpecs claimUID preparedDevices = []
  | [], _ => rfl
  | g :: rest, hall => by
    have hg := hall g (List.mem_cons_self _ _)
    have ih := claimDeviceSpecs_nil h claimUID rest
      (fun x hx => hall x (List.mem_cons_of_mem _ hx))
    simp only [RealCDIHandler.claimDeviceSpecs, List.flatMap_cons, hg, List.nil_append] at ih ⊢
    exact ih

/-- C26: with the handler of `cdi.go`, for a device of a group of the prepared devices whose
canonical name is that of the allocatable device `a` it was prepared from: `GetClaimDevice`
returns the empty string exactly when the container edits of the group are nil; when it
returns an identifier and `CreateClaimSpecFile` for the same claim succeeds, exactly one spec
was written, under the file name of the claim, of kind `vendor/claimClass`, with a device
whose name qualified by the vendor and the claim class is that identifier; and when no group
has edits, `CreateClaimSpecFile` returns success without any call. -/
theorem CreateClaimSpecFile_matches_GetClaimDevice (h : RealCDIHandler) (claimUID : String)
    (preparedDevices : PreparedDevices) (n : Node) (group : PreparedDeviceGroup)
    (device : PreparedDevice) (a : AllocatableDevice) (hgroup : group ∈ preparedDevices)
    (hdevice : device ∈ group.Devices)
    (hname : h.preparedCanonicalName device = h.allocatableCanonicalName a) :
    (h.GetClaimDevice claimUID a group.ConfigState.containerEdits = "" ↔
        group.ConfigState.containerEdits = none) ∧
      (h.GetClaimDevice claimUID a group.ConfigState.containerEdits ≠ "" →
        (h.CreateClaimSpecFile claimUID preparedDevices n).1 = .ok () →
        ∃ spec,
          (h.CreateClaimSpecFile claimUID preparedDevices n).2
            = { n with
                trace := n.trace ++
                  [⟨.cdiWriteSpec (GenerateTransientSpecName h.vendor h.claimClass claimUID)
                      spec, true⟩] } ∧
          spec.Kind = h.vendor ++ "/" ++ h.claimClass ∧
          ∃ d ∈ spec.Devices,
            d.Name = claimUID ++ "-" ++ h.allocatableCanonicalName a ∧
            h.GetClaimDevice claimUID a group.ConfigState.containerEdits
              = QualifiedName h.vendor h.claimClass d.Name) ∧
      ((∀ g ∈ preparedDevices, g.ConfigState.containerEdits = none) →
        h.CreateClaimSpecFile claimUID preparedDevices n = (.ok (), n)) := by
  refine ⟨?_, ?_, ?_⟩
  · cases hedits : group.ConfigState.containerEdits with
    | none => simp [RealCDIHandler.GetClaimDevice]
    | some edits => simp [RealCDIHandler.GetClaimDevice, QualifiedName_ne_empty]
  · intro hid hok
    cases hedits : group.ConfigState.containerEdits with
    | none => rw [hedits] at hid; simp [RealCDIHandler.GetClaimDevice] at hid
    | some edits =>
      have hmem := claimDeviceSpecs_mem h claimUID preparedDevices group device edits hgroup
        hdevice hedits
      have hlen : (h.claimDeviceSpecs claimUID preparedDevices).length ≠ 0 := by
        intro h0
        rw [List.length_eq_zero.1 h0] at hmem
        simp at hmem
      unfold RealCDIHandler.CreateClaimSpecFile at hok ⊢
      simp only [hlen, if_false, Act.bind_run, Act.mapErr_run] at hok ⊢
      cases hnew : h.specNew ⟨"", h.vendor ++ "/" ++ h.claimClass,
          h.claimDeviceSpecs claimUID preparedDevices⟩ with
      | some e => simp [hnew] at hok
      | none =>
        simp only [hnew, Act.ofErr_none, Act.ofExcept_run] at hok ⊢
        rcases htr : h.transformDevices (h.claimDeviceSpecs claimUID preparedDevices)
          with e | devices
        · simp [htr] at hok
        · simp only [htr] at hok ⊢
          rcases hmin : h.MinimumRequiredVersion
              ⟨"", h.vendor ++ "/" ++ h.claimClass, devices⟩ with e | minVersion
          · simp [hmin] at hok
          · simp only [hmin, call] at hok ⊢
            cases hw : h.WriteSpec n.trace ⟨minVersion, h.vendor ++ "/" ++ h.claimClass, devices⟩
                (GenerateTransientSpecName h.vendor h.claimClass claimUID) with
            | some e => simp [hw] at hok
            | none =>
              simp only [hw]
              refine ⟨⟨minVersion, h.vendor ++ "/" ++ h.claimClass, devices⟩, rfl, rfl, ?_⟩
              have hnames := transformDevices_names h _ devices htr
              rw [← hnames] at hmem
              obtain ⟨d, hd, hdn⟩ := List.mem_map.1 hmem
              refine ⟨d, hd, ?_, ?_⟩
              · rw [hdn, hname]
              · simp only [RealCDIHandler.GetClaimDevice]
                rw [hdn, hname]
  · intro hnone
    unfold RealCDIHandler.CreateClaimSpecFile
    simp [claimDeviceSpecs_nil h claimUID preparedDevices hnone]

/-- The prepared channel of `channelClaim`, whose group has container edits. -/
theorem CreateClaimSpecFile_matches_GetClaimDevice_witness :
    Example.realCDI.GetClaimDevice "uid-a" ⟨some ⟨0⟩, none⟩ (some ["channel-edits"])
        = "k8s.compute-domain.nvidia.com/claim=uid-a-channel" ∧
      (Example.realCDI.CreateClaimSpecFile "uid-a" Example.preparedClaim.PreparedDevices
          Example.emptyNode).1 = .ok () ∧
      ∃ spec,
        (Example.realCDI.CreateClaimSpecFile "uid-a" Example.preparedClaim.PreparedDevices
            Example.emptyNode).2
          = { Example.emptyNode with
              trace := Example.emptyNode.trace ++
                [⟨.cdiWriteSpec
                    (GenerateTransientSpecName Example.realCDI.vendor Example.realCDI.claimClass
                      "uid-a")
                    spec, true⟩] } ∧
        spec.Kind = Example.realCDI.vendor ++ "/" ++ Example.realCDI.claimClass ∧
        ∃ d ∈ spec.Devices,
          d.Name = "uid-a" ++ "-" ++ Example.realCDI.allocatableCanonicalName ⟨some ⟨0⟩, none⟩ ∧
          Example.realCDI.GetClaimDevice "uid-a" ⟨some ⟨0⟩, none⟩ (some ["channel-edits"])
            = QualifiedName Example.realCDI.vendor Example.realCDI.claimClass d.Name :=
  ⟨by decide, by decide,
    (CreateClaimSpecFile_matches_GetClaimDevice Example.realCDI "uid-a"
      Example.preparedClaim.PreparedDevices Example.emptyNode
      { Devices :=
          [{ Channel := some
               { Info := some ⟨0⟩
                 Device :=
                   { Requests := ["r"], PoolName := "pool", DeviceName := "channel-0",
                     CDIDeviceIDs := [] } }
             Daemon := none }]
        ConfigState :=
          { Type_ := .channel, ComputeDomain := "cd-1", containerEdits := some ["channel-edits"] } }
      { Channel := some
          { Info := some ⟨0⟩
            Device :=
              { Requests := ["r"], PoolName := "pool", DeviceName := "channel-0",
                CDIDeviceIDs := [] } }
        Daemon := none }
      ⟨some ⟨0⟩, none⟩ (by decide) (by decide) rfl).2.1 (by decide) (by decide)⟩

/-! ### Side effects of `Prepare` and `Unprepare` -/

section emits

variable {α β : Type}

theorem Emits.congr {E E1 : List Effect} {x : Act Node α} (h : Emits E x) (he : E = E1) :
    Emits E1 x := he ▸ h

theorem emits_pure (a : α) : Emits [] (pure a : Act Node α) := by
  intro n b n1 h
  simp only [Act.pure_run, Prod.mk.injEq] at h
  exact ⟨[], by simp [← h.2], rfl⟩

theorem emits_fail (E : List Effect) (e : GoError) : Emits E (Act.fail e : Act Node α) := by
  intro n b n1 h
  simp at h

theorem emits_ofExcept (r : Except GoError α) : Emits [] (Act.ofExcept r : Act Node α) := by
  intro n b n1 h
  simp only [Act.ofExcept_run, Prod.mk.injEq] at h
  exact ⟨[], by simp [← h.2], rfl⟩

theorem emits_ofErr (r : Option GoError) : Emits [] (Act.ofErr r : Act Node Unit) := by
  intro n b n1 h
  cases r with
  | none =>
    simp only [Act.ofErr_none, Prod.mk.injEq] at h
    exact ⟨[], by simp [← h.2], rfl⟩
  | some e => simp at h

/-- Sequencing, when the effects of the second body are known for the values the first body
can return. -/
theorem emits_bind_val {E F : List Effect} {x : Act Node α} {f : α → Act Node β}
    (Q : α → Prop) (hQ : ∀ n a n1, x n = (.ok a, n1) → Q a) (hx : Emits E x)
    (hf : ∀ a, Q a → Emits F (f a)) : Emits (E ++ F) (x >>= f) := by
  intro n b n2 h
  rw [Act.bind_run] at h
  rcases hxn : x n with ⟨e | a, n1⟩
  · rw [hxn] at h; simp at h
  · rw [hxn] at h
    simp only [] at h
    obtain ⟨evs1, h1, g1⟩ := hx n a n1 hxn
    obtain ⟨evs2, h2, g2⟩ := hf a (hQ n a n1 hxn) n1 b n2 h
    refine ⟨evs1 ++ evs2, by rw [h2, h1, List.append_assoc], ?_⟩
    simp only [effects, List.filterMap_append] at g1 g2 ⊢
    rw [g1, g2]

theorem emits_bind {E F : List Effect} {x : Act Node α} {f : α → Act Node β}
    (hx : Emits E x) (hf : ∀ a, Emits F (f a)) : Emits (E ++ F) (x >>= f) :=
  emits_bind_val (fun _ => True) (fun _ _ _ _ => trivial) hx (fun a _ => hf a)

theorem emits_mapErr {E : List Effect} (f : GoError → GoError) {x : Act Node α}
    (hx : Emits E x) : Emits E (Act.mapErr f x) := by
  intro n b n1 h
  rw [Act.mapErr_run] at h
  rcases hxn : x n with ⟨e | a, n2⟩
  · rw [hxn] at h; simp at h
  · rw [hxn] at h
    simp only [Prod.mk.injEq, Except.ok.injEq] at h
    obtain ⟨rfl, rfl⟩ := h
    exact hx n a n2 hxn

theorem emits_call (c : Call) (answer : Answer (Option GoError)) :
    Emits (Event.effect? ⟨c, true⟩).toList (call c answer) := by
  intro n b n1 h
  unfold call at h
  cases ha : answer n.trace with
  | some e => rw [ha] at h; simp at h
  | none =>
    rw [ha] at h
    simp only [Prod.mk.injEq] at h
    refine ⟨[⟨c, true⟩], by simp [← h.2], ?_⟩
    simp only [effects, List.filterMap_cons, List.filterMap_nil]
    cases Event.effect? ⟨c, true⟩ <;> rfl

theorem emits_callV (c : Call) (answer : Answer (Except GoError α)) :
    Emits (Event.effect? ⟨c, true⟩).toList (callV c answer) := by
  intro n b n1 h
  unfold callV at h
  cases ha : answer n.trace with
  | error e => rw [ha] at h; simp at h
  | ok a =>
    rw [ha] at h
    simp only [Prod.mk.injEq] at h
    refine ⟨[⟨c, true⟩], by simp [← h.2], ?_⟩
    simp only [effects, List.filterMap_cons, List.filterMap_nil]
    cases Event.effect? ⟨c, true⟩ <;> rfl

theorem value_of_mapErr_ofExcept (f : GoError → GoError) (r : Except GoError α) (n n1 : Node)
    (a : α) (h : Act.mapErr f (Act.ofExcept r) n = (.ok a, n1)) : r = .ok a := by
  cases r with
  | error e => simp at h
  | ok b =>
    simp only [Act.mapErr_run, Act.ofExcept_run, Prod.mk.injEq, Except.ok.injEq] at h
    rw [h.1]

end emits

theorem emits_applyChannel_loop (s : DeviceState) (config : ComputeDomainChannelConfig)
    (claim : ResourceClaim) :
    ∀ (results : List DeviceRequestAllocationResult) (configState : DeviceConfigState),
      Emits (results.map fun _ => Effect.labelAdded config.DomainID)
        (DeviceState.applyComputeDomainChannelConfig.loop s config claim configState results)
  | [], _ => emits_pure _
  | r :: rest, configState => by
    unfold DeviceState.applyComputeDomainChannelConfig.loop
    refine Emits.congr
      (emits_bind (E := []) (F := [Effect.labelAdded config.DomainID] ++
          (rest.map fun _ => Effect.labelAdded config.DomainID)) ?_ fun channel =>
        emits_bind (E := []) (emits_mapErr _ (emits_call _ _)) fun _ =>
          emits_bind (E := [Effect.labelAdded config.DomainID])
            (emits_mapErr _ (emits_call _ _)) fun _ =>
            Emits.congr
              (emits_bind (E := []) (F := rest.map fun _ => Effect.labelAdded config.DomainID)
                (emits_mapErr _ (emits_call _ _)) fun _ => ?_)
              (List.nil_append _))
      (by simp)
    · cases s.allocatable r.Device
      · exact emits_fail _ _
      · exact emits_pure _
    · split
      · cases channel with
        | none => exact emits_fail _ _
        | some ch =>
          exact Emits.congr
            (emits_bind (E := []) (emits_mapErr _ (emits_call _ _)) fun _ =>
              emits_applyChannel_loop s config claim rest _)
            (List.nil_append _)
      · exact emits_applyChannel_loop s config claim rest _

theorem emits_applyDaemon (s : DeviceState) (config : ComputeDomainDaemonConfig)
    (claim : ResourceClaim) (results : List DeviceRequestAllocationResult) :
    Emits (if s.computeDomainManager.cliqueID ≠ "" then
        [Effect.settingsPrepared config.DomainID] else [])
      (s.applyComputeDomainDaemonConfig config claim results) := by
  unfold DeviceState.applyComputeDomainDaemonConfig
  dsimp only
  by_cases hlen : (results.map fun r => r.Device).dedup.length ≠ 1
  · rw [if_pos hlen]
    exact emits_fail _ _
  · rw [if_neg hlen]
    by_cases hc : s.computeDomainManager.cliqueID ≠ ""
    · rw [if_pos hc, if_pos hc]
      exact Emits.congr
        (emits_bind (E := []) (emits_mapErr _ (emits_callV _ _)) fun _ =>
          emits_bind (E := []) (emits_mapErr _ (emits_call _ _)) fun _ =>
            emits_bind (E := [Effect.settingsPrepared config.DomainID])
              (emits_mapErr _ (emits_call _ _)) fun _ =>
              emits_bind (E := []) (emits_mapErr _ (emits_callV _ _)) fun _ => emits_pure _)
        (by simp)
    · rw [if_neg hc, if_neg hc]
      exact emits_pure _

/-- The effects of applying one config to its results. -/
theorem emits_applyConfig_channel (s : DeviceState) (c : ComputeDomainChannelConfig)
    (claim : ResourceClaim) (results : List DeviceRequestAllocationResult) :
    Emits (results.map fun _ => Effect.labelAdded c.DomainID)
      (s.applyConfig (.channel c) claim results) :=
  emits_applyChannel_loop s c claim results _

theorem emits_applyConfig_daemon (s : DeviceState) (c : ComputeDomainDaemonConfig)
    (claim : ResourceClaim) (results : List DeviceRequestAllocationResult) :
    Emits (if s.computeDomainManager.cliqueID ≠ "" then
        [Effect.settingsPrepared c.DomainID] else [])
      (s.applyConfig (.daemon c) claim results) :=
  emits_applyDaemon s c claim results

theorem Normalize_channel (api : ConfigAPI)
    (hnormC : ∀ c c1, api.channelNormalize c = .ok c1 → c1.DomainID = c.DomainID)
    (c : ComputeDomainChannelConfig) (normalized : Interface)
    (h : api.Normalize (.channel c) = .ok normalized) :
    ∃ c1, normalized = .channel c1 ∧ c1.DomainID = c.DomainID := by
  simp only [ConfigAPI.Normalize] at h
  cases hn : api.channelNormalize c with
  | error e => rw [hn] at h; simp [Except.map] at h
  | ok c1 =>
    rw [hn] at h
    simp only [Except.map, Except.ok.injEq] at h
    exact ⟨c1, h.symm, hnormC _ _ hn⟩

theorem Normalize_daemon (api : ConfigAPI)
    (hnormD : ∀ c c1, api.daemonNormalize c = .ok c1 → c1.DomainID = c.DomainID)
    (c : ComputeDomainDaemonConfig) (normalized : Interface)
    (h : api.Normalize (.daemon c) = .ok normalized) :
    ∃ c1, normalized = .daemon c1 ∧ c1.DomainID = c.DomainID := by
  simp only [ConfigAPI.Normalize] at h
  cases hn : api.daemonNormalize c with
  | error e => rw [hn] at h; simp [Except.map] at h
  | ok c1 =>
    rw [hn] at h
    simp only [Except.map, Except.ok.injEq] at h
    exact ⟨c1, h.symm, hnormD _ _ hn⟩

theorem emits_applyAll (s : DeviceState) (claim : ResourceClaim)
    (hnormC : ∀ c c1, s.configapi.channelNormalize c = .ok c1 → c1.DomainID = c.DomainID)
    (hnormD : ∀ c c1, s.configapi.daemonNormalize c = .ok c1 → c1.DomainID = c.DomainID) :
    ∀ (m : ConfigResultsMap) (acc : List (Nat × DeviceConfigState)),
      Emits (m.flatMap (prepareEffects.entry s.computeDomainManager.cliqueID))
        (DeviceState.prepareDevices.applyAll s claim acc m)
  | [], _ => emits_pure _
  | (i, c, results) :: rest, acc => by
    have ih := fun acc1 => emits_applyAll s claim hnormC hnormD rest acc1
    unfold DeviceState.prepareDevices.applyAll
    simp only [List.flatMap_cons]
    cases c with
    | other k =>
      intro n b n1 h
      simp [Act.bind_run] at h
    | channelConfig cc =>
      refine Emits.congr
        (emits_bind_val (E := []) (fun config => config = Interface.channel cc) ?_
          (emits_pure _) ?_)
        (List.nil_append _)
      · intro n a n1 h
        simp only [Act.pure_run, Prod.mk.injEq, Except.ok.injEq] at h
        exact h.1.symm
      · intro config hconfig
        subst hconfig
        refine Emits.congr
          (emits_bind_val (E := [])
            (fun normalized => s.configapi.Normalize (.channel cc) = .ok normalized)
            (fun n a n1 h => value_of_mapErr_ofExcept _ _ n n1 a h)
            (emits_mapErr _ (emits_ofExcept _)) ?_)
          (List.nil_append _)
        intro normalized hnormalized
        obtain ⟨c1, rfl, hd⟩ := Normalize_channel _ hnormC cc normalized hnormalized
        refine Emits.congr
          (emits_bind (E := []) (emits_mapErr _ (emits_ofErr _)) fun _ =>
            emits_bind (emits_mapErr _ (emits_applyConfig_channel s c1 claim results))
              fun cs => ih _)
          ?_
        simp [prepareEffects.entry, hd]
    | daemonConfig dc =>
      refine Emits.congr
        (emits_bind_val (E := []) (fun config => config = Interface.daemon dc) ?_
          (emits_pure _) ?_)
        (List.nil_append _)
      · intro n a n1 h
        simp only [Act.pure_run, Prod.mk.injEq, Except.ok.injEq] at h
        exact h.1.symm
      · intro config hconfig
        subst hconfig
        refine Emits.congr
          (emits_bind_val (E := [])
            (fun normalized => s.configapi.Normalize (.daemon dc) = .ok normalized)
            (fun n a n1 h => value_of_mapErr_ofExcept _ _ n n1 a h)
            (emits_mapErr _ (emits_ofExcept _)) ?_)
          (List.nil_append _)
        intro normalized hnormalized
        obtain ⟨c1, rfl, hd⟩ := Normalize_daemon _ hnormD dc normalized hnormalized
        refine Emits.congr
          (emits_bind (E := []) (emits_mapErr _ (emits_ofErr _)) fun _ =>
            emits_bind (emits_mapErr _ (emits_applyConfig_daemon s c1 claim results))
              fun cs => ih _)
          ?_
        simp [prepareEffects.entry, hd]

theorem emits_prepareDevices (s : DeviceState) (claim : ResourceClaim) (m : ConfigResultsMap)
    (hnormC : ∀ c c1, s.configapi.channelNormalize c = .ok c1 → c1.DomainID = c.DomainID)
    (hnormD : ∀ c c1, s.configapi.daemonNormalize c = .ok c1 → c1.DomainID = c.DomainID)
    (hm : s.getConfigResultsMap claim.Status = .ok m) :
    Emits ((s.applyOrder.order m).flatMap
        (prepareEffects.entry s.computeDomainManager.cliqueID))
      (s.prepareDevices claim) := by
  unfold DeviceState.prepareDevices
  refine Emits.congr
    (emits_bind_val (E := []) (fun m1 => s.getConfigResultsMap claim.Status = .ok m1)
      (fun n a n1 h => value_of_mapErr_ofExcept _ _ n n1 a h)
      (emits_mapErr _ (emits_ofExcept _)) ?_)
    (List.nil_append _)
  intro m1 hm1
  rw [hm] at hm1
  simp only [Except.ok.injEq] at hm1
  subst hm1
  exact Emits.congr
    (emits_bind (emits_applyAll s claim hnormC hnormD _ _) fun _ => emits_ofExcept _)
    (List.append_nil _)

theorem emits_CreateClaimSpecFile (cdi : CDIHandler) (claimUID : String)
    (preparedDevices : PreparedDevices) :
    Emits [] (cdi.CreateClaimSpecFile claimUID preparedDevices) := by
  cases cdi with
  | mock => exact emits_pure _
  | real h =>
    unfold CDIHandler.CreateClaimSpecFile RealCDIHandler.CreateClaimSpecFile
    dsimp only
    split
    · exact emits_pure _
    · exact Emits.congr
        (emits_bind (E := []) (emits_mapErr _ (emits_ofErr _)) fun _ =>
          emits_bind (E := []) (emits_mapErr _ (emits_ofExcept _)) fun _ =>
            emits_bind (E := []) (emits_mapErr _ (emits_ofExcept _)) fun _ =>
              emits_call _ _)
        rfl

theorem emits_DeleteClaimSpecFile (cdi : CDIHandler) (claimUID : String) :
    Emits [] (cdi.DeleteClaimSpecFile claimUID) := by
  cases cdi with
  | mock => exact emits_pure _
  | real h =>
    unfold CDIHandler.DeleteClaimSpecFile RealCDIHandler.DeleteClaimSpecFile
    exact Emits.congr (emits_call _ _) rfl

theorem emits_unprepare_loop (s : DeviceState) :
    ∀ entries : ConfigResultsMap,
      Emits (entries.flatMap unprepareEffects.entry)
        (DeviceState.unprepareDevices.loop s entries)
  | [] => emits_pure _
  | (i, c, rs) :: rest => by
    have ih := emits_unprepare_loop s rest
    unfold DeviceState.unprepareDevices.loop
    simp only [List.flatMap_cons]
    cases c with
    | channelConfig config =>
      exact Emits.congr (emits_bind (emits_mapErr _ (emits_call _ _)) fun _ => ih) rfl
    | daemonConfig config =>
      exact Emits.congr (emits_bind (emits_mapErr _ (emits_call _ _)) fun _ => ih) rfl
    | other k =>
      exact Emits.congr (emits_bind (emits_pure _) fun _ => ih) rfl

theorem emits_unprepareDevices (s : DeviceState) (cs : ResourceClaimStatus)
    (m : ConfigResultsMap) (hm : s.getConfigResultsMap cs = .ok m) :
    Emits ((s.unprepareOrder.order m).flatMap unprepareEffects.entry)
      (s.unprepareDevices cs) := by
  unfold DeviceState.unprepareDevices
  refine Emits.congr
    (emits_bind_val (E := []) (fun m1 => s.getConfigResultsMap cs = .ok m1)
      (fun n a n1 h => value_of_mapErr_ofExcept _ _ n n1 a h)
      (emits_mapErr _ (emits_ofExcept _)) ?_)
    (List.nil_append _)
  intro m1 hm1
  rw [hm] at hm1
  simp only [Except.ok.injEq] at hm1
  subst hm1
  exact emits_unprepare_loop s _

theorem effects_append (a b : List Event) : effects (a ++ b) = effects a ++ effects b := by
  simp [effects, List.filterMap_append]

/-- What a successful `Prepare` of a claim that is not in the checkpoint does: it resolves
the config groups of the claim status, records the status in the checkpoint entry, and has
the side effects of the groups, in the order the first loop visits them. -/
theorem Prepare_effects (s : DeviceState) (claim : ResourceClaim) (n : Node)
    (devs : List Device)
    (hnormC : ∀ c c1, s.configapi.channelNormalize c = .ok c1 → c1.DomainID = c.DomainID)
    (hnormD : ∀ c c1, s.configapi.daemonNormalize c = .ok c1 → c1.DomainID = c.DomainID)
    (habsent : n.checkpoint.get? claim.UID = none)
    (hok : (s.Prepare claim n).1 = .ok devs) :
    ∃ m pd, s.getConfigResultsMap claim.Status = .ok m ∧
      (s.Prepare claim n).2.checkpoint.get? claim.UID = some ⟨claim.Status, pd⟩ ∧
      s.prepareEffects claim n
        = (s.applyOrder.order m).flatMap
            (prepareEffects.entry s.computeDomainManager.cliqueID) := by
  unfold DeviceState.prepareEffects
  rw [Prepare_unfold] at hok ⊢
  cases hr : s.checkpointManager.GetCheckpoint n.trace with
  | some e => rw [hr] at hok; simp at hok
  | none =>
    rw [hr] at hok
    simp only [habsent] at hok ⊢
    cases hm : s.getConfigResultsMap claim.Status with
    | error e =>
      rw [prepareDevices_of_resolution_error s claim _ e hm] at hok
      simp at hok
    | ok m =>
      rcases hp : s.prepareDevices claim { n with trace := n.trace ++ [⟨.getCheckpoint, true⟩] }
        with ⟨_ | pd, n1⟩
      · rw [hp] at hok; simp at hok
      · rw [hp] at hok
        simp only [] at hok ⊢
        obtain ⟨evs1, h1, g1⟩ := emits_prepareDevices s claim m hnormC hnormD hm _ pd n1 hp
        rcases hc : s.cdi.CreateClaimSpecFile claim.UID pd n1 with ⟨_ | u, n2⟩
        · rw [hc] at hok; simp at hok
        · rw [hc] at hok
          simp only [] at hok ⊢
          obtain ⟨evs2, h2, g2⟩ := emits_CreateClaimSpecFile s.cdi claim.UID pd n1 u n2 hc
          cases hw : s.checkpointManager.CreateCheckpoint n2.trace
              (n.checkpoint.set claim.UID ⟨claim.Status, pd⟩) with
          | some e => rw [hw] at hok; simp at hok
          | none =>
            refine ⟨m, pd, rfl, Checkpoint.get?_set_self _ _ _, ?_⟩
            simp only [] at h1
            simp only [h2, h1, List.append_assoc, List.drop_left, effects_append, g1, g2,
              List.nil_append]
            simp [effects, Event.effect?]

/-- What a successful `Unprepare` of a claim that is in the checkpoint does: it has the side
effects of the groups resolved from the recorded status, in the order its loop visits
them. -/
theorem Unprepare_effects (s : DeviceState) (claimRef : NamespacedObject) (n : Node)
    (pc : PreparedClaim) (m : ConfigResultsMap)
    (hpresent : n.checkpoint.get? claimRef.UID = some pc)
    (hm : s.getConfigResultsMap pc.Status = .ok m)
    (hok : (s.Unprepare claimRef n).1 = .ok ()) :
    s.unprepareEffects claimRef n
      = (s.unprepareOrder.order m).flatMap unprepareEffects.entry := by
  have halloc : pc.Status.Allocation ≠ none := by
    obtain ⟨alloc, -, ha, -⟩ := getConfigResultsMap_ok s pc.Status m hm
    rw [ha]
    simp
  unfold DeviceState.unprepareEffects
  rw [Unprepare_unfold] at hok ⊢
  cases hr : s.checkpointManager.GetCheckpoint n.trace with
  | some e => rw [hr] at hok; simp at hok
  | none =>
    rw [hr] at hok
    simp only [hpresent, Unprepare_status_of_allocation _ _ _ _ halloc] at hok ⊢
    rcases hu : s.unprepareDevices pc.Status
        { n with trace := n.trace ++ [⟨.getCheckpoint, true⟩] } with ⟨_ | u, n2⟩
    · rw [hu] at hok; simp at hok
    · rw [hu] at hok
      simp only [] at hok ⊢
      obtain ⟨evs1, h1, g1⟩ := emits_unprepareDevices s pc.Status m hm _ u n2 hu
      rcases hd : s.cdi.DeleteClaimSpecFile claimRef.UID n2 with ⟨_ | u3, n3⟩
      · rw [hd] at hok; simp at hok
      · rw [hd] at hok
        simp only [] at hok ⊢
        obtain ⟨evs2, h2, g2⟩ := emits_DeleteClaimSpecFile s.cdi claimRef.UID n2 u3 n3 hd
        cases hw : s.checkpointManager.CreateCheckpoint n3.trace
            (n.checkpoint.delete claimRef.UID) with
        | some e => rw [hw] at hok; simp at hok
        | none =>
          simp only [] at h1
          simp only [h2, h1, List.append_assoc, List.drop_left, effects_append, g1, g2,
            List.nil_append]
          simp [effects, Event.effect?]

theorem getConfigResultsMap_congr (s s2 : DeviceState) (cs : ResourceClaimStatus)
    (hdriver : s2.DriverName = s.DriverName) (hallocatable : s2.allocatable = s.allocatable)
    (hconfigapi : s2.configapi = s.configapi) :
    s2.getConfigResultsMap cs = s.getConfigResultsMap cs := by
  unfold DeviceState.getConfigResultsMap
  rw [hdriver, hallocatable, hconfigapi]

theorem foldl_nonempty (driverName : String)
    (allocatable : String → Option AllocatableDevice) (configs : List OpaqueDeviceConfig) :
    ∀ (results : List DeviceRequestAllocationResult) (m0 : ConfigResultsMap),
      (∀ e ∈ m0, e.2.2 ≠ []) →
      ∀ e ∈ results.foldl (getConfigResultsMap.step driverName allocatable configs) m0,
        e.2.2 ≠ []
  | [], _, h => h
  | r0 :: rest, m0, h => by
    simp only [List.foldl_cons]
    apply foldl_nonempty driverName allocatable configs rest
    intro e he
    unfold getConfigResultsMap.step at he
    cases hc : getConfigResultsMap.chosen driverName allocatable configs r0 with
    | none => rw [hc] at he; exact h e he
    | some p =>
      rw [hc] at he
      rcases append_cases _ _ _ _ e he with h0 | ⟨-, rs0, -, h3⟩ | h0
      · exact h e h0
      · rw [h3]; simp
      · rw [h0]; simp

/-- Every group of a successful `getConfigResultsMap` holds at least one result. -/
theorem getConfigResultsMap_nonempty (s : DeviceState) (status : ResourceClaimStatus)
    (m : ConfigResultsMap) (hok : s.getConfigResultsMap status = .ok m) :
    ∀ e ∈ m, e.2.2 ≠ [] := by
  obtain ⟨alloc, configs, -, -, hg⟩ := getConfigResultsMap_ok s status m hok
  have hm := group_eq_foldl _ _ _ _ _ _ hg
  subst hm
  exact foldl_nonempty _ _ _ _ [] (by simp)

theorem mem_prepareEffects_label (cliqueID d : String) (l : ConfigResultsMap) :
    Effect.labelAdded d ∈ l.flatMap (prepareEffects.entry cliqueID) ↔
      ∃ e ∈ l, e.2.2 ≠ [] ∧ e.2.1.isChannelConfig = true ∧
        e.2.1 = .channelConfig ⟨d⟩ := by
  simp only [List.mem_flatMap]
  constructor
  · rintro ⟨e, he, hmem⟩
    refine ⟨e, he, ?_⟩
    unfold prepareEffects.entry at hmem
    rcases hcfg : e.2.1 with c | c | k
    · rw [hcfg] at hmem
      simp only [List.mem_map, Effect.labelAdded.injEq] at hmem
      obtain ⟨r, hr, hd⟩ := hmem
      refine ⟨List.ne_nil_of_mem hr, rfl, ?_⟩
      cases c
      simp only [] at hd
      rw [hd]
    · rw [hcfg] at hmem
      simp only [] at hmem
      split_ifs at hmem <;> simp at hmem
    · rw [hcfg] at hmem
      simp at hmem
  · rintro ⟨e, he, hne, -, hcfg⟩
    refine ⟨e, he, ?_⟩
    unfold prepareEffects.entry
    rw [hcfg]
    obtain ⟨r, rest, hr⟩ := List.exists_cons_of_ne_nil hne
    simp [hr]

theorem mem_unprepareEffects_label (d : String) (l : ConfigResultsMap) :
    Effect.labelRemoved d ∈ l.flatMap unprepareEffects.entry ↔
      ∃ e ∈ l, e.2.1 = .channelConfig ⟨d⟩ := by
  simp only [List.mem_flatMap]
  constructor
  · rintro ⟨e, he, hmem⟩
    refine ⟨e, he, ?_⟩
    unfold unprepareEffects.entry at hmem
    rcases hcfg : e.2.1 with c | c | k
    · rw [hcfg] at hmem
      simp only [List.mem_singleton, Effect.labelRemoved.injEq] at hmem
      cases c
      simp only [] at hmem
      rw [hmem]
    · rw [hcfg] at hmem
      simp at hmem
    · rw [hcfg] at hmem
      simp at hmem
  · rintro ⟨e, he, hcfg⟩
    refine ⟨e, he, ?_⟩
    unfold unprepareEffects.entry
    rw [hcfg]
    simp

theorem mem_prepareEffects_settings (cliqueID d : String) (l : ConfigResultsMap) :
    Effect.settingsPrepared d ∈ l.flatMap (prepareEffects.entry cliqueID) ↔
      cliqueID ≠ "" ∧ ∃ e ∈ l, e.2.1 = .daemonConfig ⟨d⟩ := by
  simp only [List.mem_flatMap]
  constructor
  · rintro ⟨e, he, hmem⟩
    unfold prepareEffects.entry at hmem
    rcases hcfg : e.2.1 with c | c | k
    · rw [hcfg] at hmem
      simp at hmem
    · rw [hcfg] at hmem
      simp only [] at hmem
      split_ifs at hmem with hclique
      · simp only [List.mem_singleton, Effect.settingsPrepared.injEq] at hmem
        refine ⟨hclique, e, he, ?_⟩
        cases c
        simp only [] at hmem
        rw [hmem]
        exact hcfg
      · simp at hmem
    · rw [hcfg] at hmem
      simp at hmem
  · rintro ⟨hclique, e, he, hcfg⟩
    refine ⟨e, he, ?_⟩
    unfold prepareEffects.entry
    rw [hcfg]
    simp [hclique]

theorem mem_unprepareEffects_settings (d : String) (l : ConfigResultsMap) :
    Effect.settingsUnprepared d ∈ l.flatMap unprepareEffects.entry ↔
      ∃ e ∈ l, e.2.1 = .daemonConfig ⟨d⟩ := by
  simp only [List.mem_flatMap]
  constructor
  · rintro ⟨e, he, hmem⟩
    refine ⟨e, he, ?_⟩
    unfold unprepareEffects.entry at hmem
    rcases hcfg : e.2.1 with c | c | k
    · rw [hcfg] at hmem
      simp at hmem
    · rw [hcfg] at hmem
      simp only [List.mem_singleton, Effect.settingsUnprepared.injEq] at hmem
      cases c
      simp only [] at hmem
      rw [hmem]
    · rw [hcfg] at hmem
      simp at hmem
  · rintro ⟨e, he, hcfg⟩
    refine ⟨e, he, ?_⟩
    unfold unprepareEffects.entry
    rw [hcfg]
    simp

/-- C24, as amended: a claim that is not in the checkpoint is prepared successfully, and
later, with its checkpoint entry untouched, unprepared successfully by a plugin with the
same driver name, allocatable devices and config package, where `Normalize` keeps the
domain identifier of a config.  Then `Unprepare` resolves the config groups `Prepare`
resolved; the domains whose node label it removes are exactly those for which `Prepare`
added a label; every domain whose daemon settings `Prepare` prepared has them unprepared;
and the domains whose daemon settings `Unprepare` unprepares are those of all DaemonConfig
groups, which `Prepare` prepared only if the node has fabric support (a non-empty clique
identifier): without it `Prepare` prepared none. -/
theorem Unprepare_reverses_Prepare (s s2 : DeviceState) (claim : ResourceClaim)
    (claimRef : NamespacedObject) (n0 n2 : Node) (devs : List Device)
    (hdriver : s2.DriverName = s.DriverName) (hallocatable : s2.allocatable = s.allocatable)
    (hconfigapi : s2.configapi = s.configapi)
    (hnormC : ∀ c c1, s.configapi.channelNormalize c = .ok c1 → c1.DomainID = c.DomainID)
    (hnormD : ∀ c c1, s.configapi.daemonNormalize c = .ok c1 → c1.DomainID = c.DomainID)
    (habsent : n0.checkpoint.get? claim.UID = none)
    (hprep : (s.Prepare claim n0).1 = .ok devs)
    (href : claimRef.UID = claim.UID)
    (hentry : n2.checkpoint.get? claim.UID = (s.Prepare claim n0).2.checkpoint.get? claim.UID)
    (hunprep : (s2.Unprepare claimRef n2).1 = .ok ()) :
    (∃ pc m, n2.checkpoint.get? claimRef.UID = some pc ∧
        s.getConfigResultsMap claim.Status = .ok m ∧
        s2.getConfigResultsMap pc.Status = .ok m ∧
        ∀ d, Effect.settingsUnprepared d ∈ s2.unprepareEffects claimRef n2 ↔
          ∃ e ∈ m, e.2.1 = .daemonConfig ⟨d⟩) ∧
      (∀ d, Effect.labelRemoved d ∈ s2.unprepareEffects claimRef n2 ↔
        Effect.labelAdded d ∈ s.prepareEffects claim n0) ∧
      (∀ d, Effect.settingsPrepared d ∈ s.prepareEffects claim n0 →
        Effect.settingsUnprepared d ∈ s2.unprepareEffects claimRef n2) ∧
      (∀ d, Effect.settingsUnprepared d ∈ s2.unprepareEffects claimRef n2 →
        s.computeDomainManager.cliqueID ≠ "" →
        Effect.settingsPrepared d ∈ s.prepareEffects claim n0) ∧
      (s.computeDomainManager.cliqueID = "" →
        ∀ d, Effect.settingsPrepared d ∉ s.prepareEffects claim n0) := by
  obtain ⟨m, pd, hm, hcp, hpe⟩ := Prepare_effects s claim n0 devs hnormC hnormD habsent hprep
  rw [hcp, ← href] at hentry
  have hm2 : s2.getConfigResultsMap claim.Status = .ok m := by
    rw [getConfigResultsMap_congr s s2 _ hdriver hallocatable hconfigapi, hm]
  have hue := Unprepare_effects s2 claimRef n2 ⟨claim.Status, pd⟩ m hentry hm2 hunprep
  have hne := getConfigResultsMap_nonempty s claim.Status m hm
  have hp1 := fun e => (s.applyOrder.perm m).mem_iff (a := e)
  have hp2 := fun e => (s2.unprepareOrder.perm m).mem_iff (a := e)
  refine ⟨⟨⟨claim.Status, pd⟩, m, hentry, hm, hm2, ?_⟩, ?_, ?_, ?_, ?_⟩
  · intro d
    rw [hue, mem_unprepareEffects_settings]
    exact ⟨fun ⟨e, he, hcfg⟩ => ⟨e, (hp2 e).1 he, hcfg⟩,
      fun ⟨e, he, hcfg⟩ => ⟨e, (hp2 e).2 he, hcfg⟩⟩
  · intro d
    rw [hue, hpe, mem_unprepareEffects_label, mem_prepareEffects_label]
    constructor
    · rintro ⟨e, he, hcfg⟩
      have hem := (hp2 e).1 he
      exact ⟨e, (hp1 e).2 hem, hne e hem, by rw [hcfg]; rfl, hcfg⟩
    · rintro ⟨e, he, -, -, hcfg⟩
      exact ⟨e, (hp2 e).2 ((hp1 e).1 he), hcfg⟩
  · intro d
    rw [hue, hpe, mem_unprepareEffects_settings, mem_prepareEffects_settings]
    rintro ⟨-, e, he, hcfg⟩
    exact ⟨e, (hp2 e).2 ((hp1 e).1 he), hcfg⟩
  · intro d
    rw [hue, hpe, mem_unprepareEffects_settings, mem_prepareEffects_settings]
    rintro ⟨e, he, hcfg⟩ hclique
    exact ⟨hclique, e, (hp1 e).2 ((hp2 e).1 he), hcfg⟩
  · intro hclique d
    rw [hpe, mem_prepareEffects_settings]
    rintro ⟨h, -⟩
    exact h hclique

/-- A channel and the daemon of domain `cd-1` in one claim, on a node with fabric support,
unprepared right after being prepared. -/
theorem Unprepare_reverses_Prepare_witness :
    Example.plugin.prepareEffects Example.mixedClaim Example.emptyNode
        = [.labelAdded "cd-1", .settingsPrepared "cd-1"] ∧
      Example.plugin.unprepareEffects Example.mixedClaimRef
          (Example.plugin.Prepare Example.mixedClaim Example.emptyNode).2
        = [.labelRemoved "cd-1", .settingsUnprepared "cd-1"] ∧
      ∀ d, Effect.labelRemoved d ∈ Example.plugin.unprepareEffects Example.mixedClaimRef
            (Example.plugin.Prepare Example.mixedClaim Example.emptyNode).2 ↔
          Effect.labelAdded d ∈ Example.plugin.prepareEffects Example.mixedClaim
            Example.emptyNode :=
  ⟨by decide, by decide,
    (Unprepare_reverses_Prepare Example.plugin Example.plugin Example.mixedClaim
      Example.mixedClaimRef Example.emptyNode
      (Example.plugin.Prepare Example.mixedClaim Example.emptyNode).2
      [{ Requests := ["w"], PoolName := "pool", DeviceName := "channel-0", CDIDeviceIDs := [] },
       { Requests := ["r"], PoolName := "pool", DeviceName := "daemon", CDIDeviceIDs := [] }]
      rfl rfl rfl
      (fun _ _ h => congrArg ComputeDomainChannelConfig.DomainID (Except.ok.inj h).symm)
      (fun _ _ h => congrArg ComputeDomainDaemonConfig.DomainID (Except.ok.inj h).symm)
      (by decide) (by decide) rfl rfl (by decide)).2.1⟩

/-- C24, as stated, fails: on a node without fabric support `Prepare` of a claim with a
DaemonConfig group succeeds without preparing any daemon settings, and the `Unprepare` that
follows unprepares the daemon settings of domain `cd-1`. -/
theorem Unprepare_unprepares_settings_never_prepared :
    (Example.noFabric.Prepare Example.daemonClaim Example.emptyNode).1
        = .ok [{ Requests := ["r"], PoolName := "pool", DeviceName := "daemon",
                 CDIDeviceIDs := [] }] ∧
      (Example.noFabric.Unprepare Example.daemonClaimRef
          (Example.noFabric.Prepare Example.daemonClaim Example.emptyNode).2).1 = .ok () ∧
      Example.noFabric.prepareEffects Example.daemonClaim Example.emptyNode = [] ∧
      Example.noFabric.unprepareEffects Example.daemonClaimRef
          (Example.noFabric.Prepare Example.daemonClaim Example.emptyNode).2
        = [.settingsUnprepared "cd-1"] := by
  decide

end Plugin
